import Mathlib

/-!
# Atlas orchestration plane: a shallow embedding of the chain keepers

The replicated state of the chain modules (`x/compute`, `x/training`,
`x/sharding`, `x/health`, `x/recovery`, `x/validation`) is embedded as plain
Lean data, and each keeper method as a function on that data; the pure
functions of `federated-learning/aggregator` and `federated-learning/validation`
are embedded as functions on lists.

* A module's KV store is a list of the records it holds, in the order the
  prefix iterator visits them (ascending key).  Every write of the source goes
  through `store.Set([]byte(prefix + record.ID), ...)`, so the key of a record
  is its `ID`; `storeGet` and `storeSet` are `store.Get` and `store.Set`.
  The store is the map of the specification (§4.1): `get` and `set` are total
  on every key, and iteration is in ascending byte order of the keys.
* Block time and `time.Time` fields are integers (nanoseconds); a `float64`
  field is a rational, the exact value of a finite float.  The two functions
  that sum, multiply and divide floats (`FederatedAveraging` and
  `CalculateFairRewards`) are embedded twice: in exact arithmetic, and, under
  the namespace `Binary64`, in IEEE 754 binary64 arithmetic as the source
  computes them.
* A nil message pointer is `none`.
* A method of the source that mutates the context and returns `(resp, err)`
  becomes a function returning the result together with the context after the
  call, so that what an erroring call leaves behind stays visible.
-/

namespace Atlas

/-! ## The KV store -/

/-- The iteration order of the store: keys compare lexicographically,
character by character (the byte order of their UTF-8 encodings). -/
def keyLt (a b : String) : Prop := a.toList < b.toList

instance keyLt.decidable : DecidableRel keyLt :=
  fun a b => inferInstanceAs (Decidable (a.toList < b.toList))

/-- The lookup `store.Get(key)`: the record stored under `k`, if any. -/
def storeGet {α : Type} (key : α → String) : List α → String → Option α
  | [], _ => none
  | x :: xs, k => if key x = k then some x else storeGet key xs k

/-- The write `store.Set(key v, v)`: replaces the record stored under the key
of `v`, or inserts `v` at its place in ascending key order. -/
def storeSet {α : Type} (key : α → String) : List α → α → List α
  | [], v => [v]
  | x :: xs, v =>
    if keyLt (key v) (key x) then v :: x :: xs
    else if key v = key x then v :: xs
    else x :: storeSet key xs v

/-- A store as the source can reach it: strictly ascending keys. -/
abbrev StoreWF {α : Type} (key : α → String) (s : List α) : Prop :=
  s.Pairwise (fun a b => keyLt (key a) (key b))

/-! ## Records (`x/compute/types/node.go`, `x/training/types/task.go`,
`x/sharding/keeper/shard.go`) -/

/-- Block time, in nanoseconds. -/
abbrev Time := Int

/-- The record `types.Node`. -/
structure Node where
  ID : String
  Address : String
  Status : String
  Resources : List (String × String)
  Reputation : ℚ
  UptimePercent : ℚ
  LastHeartbeat : Time
  RegisteredAt : Time
  ActiveTasks : List String
  deriving DecidableEq, Repr

/-- The string type `types.TaskStatus`. -/
abbrev TaskStatus := String

def TaskStatusPending : TaskStatus := "pending"
def TaskStatusAssigned : TaskStatus := "assigned"
def TaskStatusInProgress : TaskStatus := "in_progress"
def TaskStatusPaused : TaskStatus := "paused"
def TaskStatusRollback : TaskStatus := "rollback"
def TaskStatusDelegated : TaskStatus := "delegated"
def TaskStatusCompleted : TaskStatus := "completed"
def TaskStatusFailed : TaskStatus := "failed"

/-- The record `types.Task`. -/
structure Task where
  ID : String
  JobID : String
  ShardID : String
  NodeID : String
  Status : TaskStatus
  CreatedAt : Time
  UpdatedAt : Time
  Progress : ℚ
  CheckpointCID : String
  deriving DecidableEq, Repr

/-- The record `types.Job`; `Config` is an uninterpreted string map. -/
structure Job where
  ID : String
  ModelID : String
  DatasetCID : String
  Config : List (String × String)
  Status : TaskStatus
  CreatedAt : Time
  UpdatedAt : Time
  Progress : ℚ
  Tasks : List String
  deriving DecidableEq, Repr

/-- The record `keeper.Shard` of the sharding module. -/
structure Shard where
  ID : String
  JobID : String
  CID : String
  Hash : String
  NodeID : String
  Status : String
  Size : Int
  deriving DecidableEq, Repr

/-- The record `keeper.GradientContribution` of the training module. -/
structure GradientContribution where
  NodeID : String
  JobID : String
  Round : Int
  GradientCID : String
  Contribution : ℚ
  Timestamp : Int
  deriving DecidableEq, Repr

/-- The record `types.Model` of the model module. -/
structure Model where
  ID : String
  Name : String
  Version : String
  CID : String
  CreatedAt : Time
  Metadata : List (String × String)
  deriving DecidableEq, Repr

/-- An event handed to the event manager: its type and attributes. -/
structure Event where
  type : String
  attributes : List (String × String)
  deriving DecidableEq, Repr

deriving instance DecidableEq for Except

/-- The errors the keepers return. -/
inductive Err where
  | invalidMessage
  | nodeExists
  | nodeNotFound
  | jobNotFound
  | taskNotFound
  | nodeNotOnline
  | nodeNotHealthy
  | healthCheckFailed
  | taskAlreadyAssigned
  | shardNotFound
  | shardExists
  | shardAlreadyAssigned
  | duplicateShardContent
  | noNodesAvailable
  | noOnlineNodesAvailable
  | modelExists
  | indexOutOfRange
  deriving DecidableEq, Repr

/-- The SDK context: block time, the module stores and the emitted events. -/
structure Ctx where
  blockTime : Time := 0
  nodes : List Node := []
  jobs : List Job := []
  tasks : List Task := []
  shards : List Shard := []
  events : List Event := []
  gradients : List GradientContribution := []
  models : List Model := []
  roundRobinIndex : Option Nat := none
  deriving DecidableEq, Repr

/-! ## `x/compute/keeper` -/

/-- The keeper method `Keeper.GetNode`. -/
def GetNode (ctx : Ctx) (id : String) : Option Node :=
  storeGet Node.ID ctx.nodes id

/-- The keeper method `Keeper.SetNode`. -/
def SetNode (ctx : Ctx) (node : Node) : Ctx :=
  { ctx with nodes := storeSet Node.ID ctx.nodes node }

/-- The message `types.MsgRegisterNode`. -/
structure MsgRegisterNode where
  Creator : String
  NodeId : String
  Address : String
  CpuCores : Int
  GpuCount : Int
  MemoryGb : Int
  StorageGb : Int
  deriving DecidableEq, Repr

/-- The handler `MsgServer.RegisterNode`; `none` is the nil message. -/
def RegisterNode (ctx : Ctx) (msg : Option MsgRegisterNode) : Except Err Unit × Ctx :=
  match msg with
  | none => (.error .invalidMessage, ctx)
  | some msg =>
    match GetNode ctx msg.NodeId with
    | some _ => (.error .nodeExists, ctx)
    | none =>
      let node : Node :=
        { ID := msg.NodeId
          Address := msg.Address
          Status := "online"
          Resources :=
            [("cpu_cores", toString msg.CpuCores), ("gpu_count", toString msg.GpuCount),
             ("memory_gb", toString msg.MemoryGb), ("storage_gb", toString msg.StorageGb)]
          Reputation := 0
          UptimePercent := 0
          LastHeartbeat := ctx.blockTime
          RegisteredAt := ctx.blockTime
          ActiveTasks := [] }
      let ctx1 := SetNode ctx node
      let ctx2 := { ctx1 with events := ctx1.events ++
        [{ type := "node_registered"
           attributes := [("node_id", msg.NodeId), ("address", msg.Address)] }] }
      (.ok (), ctx2)

/-- The message `types.MsgUpdateHeartbeat`. -/
structure MsgUpdateHeartbeat where
  Creator : String
  NodeId : String
  deriving DecidableEq, Repr

/-- The handler `MsgServer.UpdateHeartbeat`; `none` is the nil message. -/
def UpdateHeartbeat (ctx : Ctx) (msg : Option MsgUpdateHeartbeat) : Except Err Unit × Ctx :=
  match msg with
  | none => (.error .invalidMessage, ctx)
  | some msg =>
    match GetNode ctx msg.NodeId with
    | none => (.error .nodeNotFound, ctx)
    | some node =>
      (.ok (), SetNode ctx { node with LastHeartbeat := ctx.blockTime, Status := "online" })

/-- The keeper method `Keeper.UpdateReputation` (`reputation.go`). -/
def UpdateReputation (ctx : Ctx) (nodeID : String) (uptimePercent : ℚ) : Ctx :=
  match GetNode ctx nodeID with
  | none => ctx
  | some node =>
    let node1 := { node with UptimePercent := uptimePercent, Reputation := uptimePercent }
    let node2 :=
      if uptimePercent < 50 then { node1 with Reputation := node1.Reputation * 0.5 } else node1
    SetNode ctx node2

/-- The keeper method `Keeper.GetAllNodes`: the nodes in key order. -/
def GetAllNodes (ctx : Ctx) : List Node :=
  ctx.nodes

/-! ## `x/training/keeper` -/

/-- The keeper method `Keeper.GetJob` (key `"job:" + id`). -/
def GetJob (ctx : Ctx) (id : String) : Option Job :=
  storeGet Job.ID ctx.jobs id

/-- The keeper method `Keeper.SetJob`. -/
def SetJob (ctx : Ctx) (job : Job) : Ctx :=
  { ctx with jobs := storeSet Job.ID ctx.jobs job }

/-- The keeper method `Keeper.GetTask` (key `"task:" + id`). -/
def GetTask (ctx : Ctx) (id : String) : Option Task :=
  storeGet Task.ID ctx.tasks id

/-- The keeper method `Keeper.SetTask`. -/
def SetTask (ctx : Ctx) (task : Task) : Ctx :=
  { ctx with tasks := storeSet Task.ID ctx.tasks task }

/-- A prefix iteration with a handler: the handler threads the variables it
captures (`σ`) and answers whether to stop. -/
def iterate {α σ : Type} (handler : σ → α → σ × Bool) : List α → σ → σ
  | [], acc => acc
  | x :: xs, acc =>
    match handler acc x with
    | (acc1, true) => acc1
    | (acc1, false) => iterate handler xs acc1

/-- The keeper method `Keeper.IterateTasks`, over the tasks stored when the
iterator is opened. -/
def IterateTasks {σ : Type} (ctx : Ctx) (handler : σ → Task → σ × Bool) (init : σ) : σ :=
  iterate handler ctx.tasks init

/-- The keeper method `Keeper.IterateNodes` of the compute module. -/
def IterateNodes {σ : Type} (ctx : Ctx) (handler : σ → Node → σ × Bool) (init : σ) : σ :=
  iterate handler ctx.nodes init

/-- The message `types.MsgSubmitJob`; `Config` is an uninterpreted map. -/
structure MsgSubmitJob where
  Creator : String
  ModelId : String
  DatasetCid : String
  Config : List (String × String)
  deriving DecidableEq, Repr

/-- The handler `MsgServer.SubmitJob`; it answers the new job id, built from
`BlockTime().UnixNano()`. -/
def SubmitJob (ctx : Ctx) (msg : Option MsgSubmitJob) : Except Err String × Ctx :=
  match msg with
  | none => (.error .invalidMessage, ctx)
  | some msg =>
    let jobID := "job-" ++ toString ctx.blockTime
    let job : Job :=
      { ID := jobID
        ModelID := msg.ModelId
        DatasetCID := msg.DatasetCid
        Config := msg.Config
        Status := TaskStatusPending
        CreatedAt := ctx.blockTime
        UpdatedAt := ctx.blockTime
        Progress := 0
        Tasks := [] }
    let ctx1 := SetJob ctx job
    let ctx2 := { ctx1 with events := ctx1.events ++
      [{ type := "job_created"
         attributes := [("job_id", jobID), ("model_id", msg.ModelId),
                        ("dataset_cid", msg.DatasetCid)] }] }
    (.ok jobID, ctx2)

/-- The message `types.MsgCreateTask`. -/
structure MsgCreateTask where
  Creator : String
  JobId : String
  ShardId : String
  NodeId : String
  deriving DecidableEq, Repr

/-- The handler `MsgServer.CreateTask`; it answers the new task id. -/
def CreateTask (ctx : Ctx) (msg : Option MsgCreateTask) : Except Err String × Ctx :=
  match msg with
  | none => (.error .invalidMessage, ctx)
  | some msg =>
    match GetJob ctx msg.JobId with
    | none => (.error .jobNotFound, ctx)
    | some _ =>
      let taskID := "task-" ++ toString ctx.blockTime
      let task : Task :=
        { ID := taskID
          JobID := msg.JobId
          ShardID := msg.ShardId
          NodeID := msg.NodeId
          Status := TaskStatusPending
          CreatedAt := ctx.blockTime
          UpdatedAt := ctx.blockTime
          Progress := 0
          CheckpointCID := "" }
      let ctx1 := SetTask ctx task
      let ctx2 :=
        match GetJob ctx1 msg.JobId with
        | some job => SetJob ctx1 { job with Tasks := job.Tasks ++ [taskID] }
        | none =>
          SetJob ctx1
            { ID := "", ModelID := "", DatasetCID := "", Config := [], Status := "",
              CreatedAt := 0, UpdatedAt := 0, Progress := 0, Tasks := [taskID] }
      let ctx3 := { ctx2 with events := ctx2.events ++
        [{ type := "task_created"
           attributes := [("task_id", taskID), ("job_id", msg.JobId), ("shard_id", msg.ShardId)] }] }
      (.ok taskID, ctx3)

/-- The message `types.MsgUpdateTaskStatus`. -/
structure MsgUpdateTaskStatus where
  Creator : String
  TaskId : String
  Status : String
  Progress : ℚ
  CheckpointCid : String
  deriving DecidableEq, Repr

/-- The handler `MsgServer.UpdateTaskStatus`. -/
def UpdateTaskStatus (ctx : Ctx) (msg : Option MsgUpdateTaskStatus) : Except Err Unit × Ctx :=
  match msg with
  | none => (.error .invalidMessage, ctx)
  | some msg =>
    match GetTask ctx msg.TaskId with
    | none => (.error .taskNotFound, ctx)
    | some task =>
      let task1 := { task with Status := msg.Status, UpdatedAt := ctx.blockTime }
      let task2 := if msg.Progress ≥ 0 then { task1 with Progress := msg.Progress } else task1
      let task3 :=
        if msg.CheckpointCid ≠ "" then { task2 with CheckpointCID := msg.CheckpointCid } else task2
      let ctx1 := SetTask ctx task3
      let ctx2 := { ctx1 with events := ctx1.events ++
        [{ type := "task_status_updated"
           attributes := [("task_id", msg.TaskId), ("status", msg.Status)] }] }
      (.ok (), ctx2)

/-! ## `x/health/keeper` -/

/-- The constant `HeartbeatTimeout = 90 * time.Second`, in nanoseconds. -/
def HeartbeatTimeout : Int := 90 * 1000000000

/-- The keeper method `Keeper.CheckNodeHealth`, answering `(bool, error)`.
`BlockTime().Sub(LastHeartbeat)` is the exact difference: the saturation of a
`time.Duration` does not change its comparison with 90 s. -/
def CheckNodeHealth (ctx : Ctx) (nodeID : String) : (Bool × Option Err) × Ctx :=
  match GetNode ctx nodeID with
  | none => ((false, some .nodeNotFound), ctx)
  | some node =>
    let timeSinceLastHeartbeat := ctx.blockTime - node.LastHeartbeat
    if timeSinceLastHeartbeat > HeartbeatTimeout then
      ((false, none), SetNode ctx { node with Status := "offline" })
    else ((true, none), ctx)

/-! ## `x/recovery/keeper` -/

/-- Modelled from the spec: the constant `trainingtypes.TaskStatus_PENDING`
that `recovery.go` names is declared nowhere in the source; it is the status
`pending` of the task state machine. -/
def TaskStatus_PENDING : TaskStatus := TaskStatusPending

/-- Modelled from the spec: the constant `trainingtypes.TaskStatus_ASSIGNED`
that `recovery.go` names is declared nowhere in the source; it is the status
`assigned` of the task state machine. -/
def TaskStatus_ASSIGNED : TaskStatus := TaskStatusAssigned

/-- Modelled from the spec: the constant `trainingtypes.TaskStatus_IN_PROGRESS`
that `recovery.go` names is declared nowhere in the source; it is the status
`in_progress` of the task state machine. -/
def TaskStatus_IN_PROGRESS : TaskStatus := TaskStatusInProgress

/-- Modelled from the spec: the constant `trainingtypes.TaskStatus_ROLLBACK`
that `recovery.go` names is declared nowhere in the source; it is the status
`rollback` of the task state machine. -/
def TaskStatus_ROLLBACK : TaskStatus := TaskStatusRollback

/-- The handler of the first loop of `RollbackTasksForNode`: it appends the
id of a task bound to `nodeID` that is in progress or assigned. -/
def rollbackHandler (nodeID : String) (tasksToRollback : List String) (task : Task) :
    List String × Bool :=
  if task.NodeID = nodeID ∧
      (task.Status = TaskStatus_IN_PROGRESS ∨ task.Status = TaskStatus_ASSIGNED) then
    (tasksToRollback ++ [task.ID], false)
  else (tasksToRollback, false)

/-- One turn of the second loop of `RollbackTasksForNode`. -/
def rollbackTask (ctx : Ctx) (taskID : String) : Ctx :=
  match GetTask ctx taskID with
  | none => ctx
  | some task =>
    let task1 := { task with Status := TaskStatus_ROLLBACK, NodeID := "" }
    let ctx1 := SetTask ctx task1
    let task2 := { task1 with Status := TaskStatus_PENDING }
    SetTask ctx1 task2

/-- The keeper method `Keeper.RollbackTasksForNode`. -/
def RollbackTasksForNode (ctx : Ctx) (nodeID : String) : Option Err × Ctx :=
  let tasksToRollback := IterateTasks ctx (rollbackHandler nodeID) []
  (none, tasksToRollback.foldl rollbackTask ctx)

/-- The keeper method `Keeper.ReassignTask`. -/
def ReassignTask (ctx : Ctx) (taskID : String) (newNodeID : String) : Option Err × Ctx :=
  match GetTask ctx taskID with
  | none => (some .taskNotFound, ctx)
  | some task =>
    match GetNode ctx newNodeID with
    | none => (some .nodeNotFound, ctx)
    | some node =>
      if node.Status ≠ "online" then (some .nodeNotOnline, ctx)
      else
        (none, SetTask ctx { task with NodeID := newNodeID, Status := TaskStatus_ASSIGNED })

/-- The handler of the task loop of `HandleNodeOffline`: it appends the id of
a pending task bound to no node. -/
def reassignHandler (tasksToReassign : List String) (task : Task) : List String × Bool :=
  if task.Status = TaskStatus_PENDING ∧ task.NodeID = "" then
    (tasksToReassign ++ [task.ID], false)
  else (tasksToReassign, false)

/-- The handler of the node loop of `HandleNodeOffline`: it appends the id of
an online node whose health check passes; the check writes to the context. -/
def availableHandler (acc : List String × Ctx) (node : Node) : (List String × Ctx) × Bool :=
  if node.Status = "online" then
    match CheckNodeHealth acc.2 node.ID with
    | ((isHealthy, err), ctx1) =>
      if err = none ∧ isHealthy = true then ((acc.1 ++ [node.ID], ctx1), false)
      else ((acc.1, ctx1), false)
  else (acc, false)

/-- The reassignment loop of `HandleNodeOffline`, from loop index `i`: task
`i` goes to `availableNodes[i % len(availableNodes)]`, a failed reassignment
is skipped. -/
def reassignLoop (availableNodes : List String) : Nat → List String → Ctx → Ctx
  | _, [], ctx => ctx
  | i, taskID :: rest, ctx =>
    let newNodeID := availableNodes.getD (i % availableNodes.length) ""
    reassignLoop availableNodes (i + 1) rest (ReassignTask ctx taskID newNodeID).2

/-- The keeper method `Keeper.HandleNodeOffline`. -/
def HandleNodeOffline (ctx : Ctx) (nodeID : String) : Option Err × Ctx :=
  match RollbackTasksForNode ctx nodeID with
  | (some err, ctx1) => (some err, ctx1)
  | (none, ctx1) =>
    let tasksToReassign := IterateTasks ctx1 reassignHandler []
    let (availableNodes, ctx2) := IterateNodes ctx1 availableHandler ([], ctx1)
    if availableNodes.length > 0 then
      (none, reassignLoop availableNodes 0 tasksToReassign ctx2)
    else (none, ctx2)

/-! ## `x/sharding/keeper` -/

/-- The keeper method `Keeper.GetShard` (key `"shard:" + id`). -/
def GetShard (ctx : Ctx) (shardID : String) : Option Shard :=
  storeGet Shard.ID ctx.shards shardID

/-- The keeper method `Keeper.RegisterShard`. -/
def RegisterShard (ctx : Ctx) (shard : Shard) : Option Err × Ctx :=
  match storeGet Shard.ID ctx.shards shard.ID with
  | some _ => (some .shardExists, ctx)
  | none => (none, { ctx with shards := storeSet Shard.ID ctx.shards shard })

/-- The keeper method `Keeper.AssignShardToNode`. -/
def AssignShardToNode (ctx : Ctx) (shardID : String) (nodeID : String) : Option Err × Ctx :=
  match GetShard ctx shardID with
  | none => (some .shardNotFound, ctx)
  | some shard =>
    if shard.NodeID ≠ "" ∧ shard.NodeID ≠ nodeID then (some .shardAlreadyAssigned, ctx)
    else
      let shard1 := { shard with NodeID := nodeID, Status := "assigned" }
      (none, { ctx with shards := storeSet Shard.ID ctx.shards shard1 })

/-- The keeper method `Keeper.GetShardsByNode`. -/
def GetShardsByNode (ctx : Ctx) (nodeID : String) : List Shard :=
  ctx.shards.filter (fun shard => shard.NodeID = nodeID)

/-! ## `x/validation/keeper` -/

/-- The loop of `ValidateShardAssignment` over the shards of the node: it
returns at the first shard with another id and the same non-empty hash. -/
def duplicateLoop (shardID : String) (shard : Shard) : List Shard → Option Err
  | [] => none
  | nodeShard :: rest =>
    if nodeShard.ID = shardID then duplicateLoop shardID shard rest
    else if nodeShard.Hash ≠ "" ∧ shard.Hash ≠ "" ∧ nodeShard.Hash = shard.Hash then
      some .duplicateShardContent
    else duplicateLoop shardID shard rest

/-- The keeper method `Keeper.ValidateShardAssignment`. -/
def ValidateShardAssignment (ctx : Ctx) (shardID : String) (nodeID : String) :
    Option Err × Ctx :=
  match GetShard ctx shardID with
  | none => (some .shardNotFound, ctx)
  | some shard =>
    if shard.NodeID ≠ "" ∧ shard.NodeID ≠ nodeID then (some .shardAlreadyAssigned, ctx)
    else (duplicateLoop shardID shard (GetShardsByNode ctx nodeID), ctx)

/-- The keeper method `Keeper.ValidateTaskAssignment`. -/
def ValidateTaskAssignment (ctx : Ctx) (taskID : String) (nodeID : String) :
    Option Err × Ctx :=
  match GetTask ctx taskID with
  | none => (some .taskNotFound, ctx)
  | some task =>
    if task.NodeID ≠ "" ∧ task.NodeID ≠ nodeID then (some .taskAlreadyAssigned, ctx)
    else
      match GetNode ctx nodeID with
      | none => (some .nodeNotFound, ctx)
      | some node =>
        if node.Status ≠ "online" then (some .nodeNotOnline, ctx)
        else
          match CheckNodeHealth ctx nodeID with
          | ((_, some _), ctx1) => (some .healthCheckFailed, ctx1)
          | ((isHealthy, none), ctx1) =>
            if isHealthy = false then (some .nodeNotHealthy, ctx1) else (none, ctx1)

/-! ## `x/training/keeper/gradient.go` -/

/-- The key `fmt.Sprintf("gradient:%s:%s:%d:%s", jobID, nodeID, round, gradientCID)`
under which a contribution is stored. -/
def gradientKey (c : GradientContribution) : String :=
  "gradient:" ++ c.JobID ++ ":" ++ c.NodeID ++ ":" ++ toString c.Round ++ ":" ++ c.GradientCID

/-- The keeper method `Keeper.TrackGradientContribution`; the timestamp is
`ctx.BlockTime().Unix()`, the block time in whole seconds. -/
def TrackGradientContribution (ctx : Ctx) (nodeID jobID : String) (round : Int)
    (gradientCID : String) (contribution : ℚ) : Option Err × Ctx :=
  let contributionData : GradientContribution :=
    { NodeID := nodeID
      JobID := jobID
      Round := round
      GradientCID := gradientCID
      Contribution := contribution
      Timestamp := ctx.blockTime / 1000000000 }
  (none, { ctx with gradients := storeSet gradientKey ctx.gradients contributionData })

/-- The keeper method `Keeper.GetGradientContributions`: the records whose key
starts with `"gradient:" + jobID + ":"`, in key order, kept when their round
is `round`. -/
def GetGradientContributions (ctx : Ctx) (jobID : String) (round : Int) :
    List GradientContribution :=
  ctx.gradients.filter (fun contribution =>
    ("gradient:" ++ jobID ++ ":").toList.isPrefixOf (gradientKey contribution).toList ∧
      contribution.Round = round)

/-- The assignment `m[k] = v` on a Go map, held as a list of entries with
distinct keys. -/
def mapSet {V : Type} (m : List (String × V)) (k : String) (v : V) : List (String × V) :=
  match m with
  | [] => [(k, v)]
  | (k1, v1) :: rest => if k1 = k then (k, v) :: rest else (k1, v1) :: mapSet rest k v

/-- The lookup `m[k]` on a Go map, with its presence flag. -/
def mapGet {V : Type} (m : List (String × V)) (k : String) : Option V :=
  match m with
  | [] => none
  | (k1, v1) :: rest => if k1 = k then some v1 else mapGet rest k

/-- The keeper method `Keeper.CalculateFairRewards`, computed in exact
arithmetic; `Binary64.CalculateFairRewards` computes in `float64`. -/
def CalculateFairRewards (ctx : Ctx) (jobID : String) (round : Int) : List (String × ℚ) :=
  let contributions := GetGradientContributions ctx jobID round
  if contributions.length = 0 then []
  else
    let totalContribution := contributions.foldl (fun acc c => acc + c.Contribution) 0
    contributions.foldl
      (fun rewards c =>
        if totalContribution > 0 then mapSet rewards c.NodeID (c.Contribution / totalContribution)
        else rewards)
      []

/-! ## `federated-learning/aggregator/aggregation.go`

Gradients and weights are lists of rationals.  A division by zero, which the
source evaluates to a non-finite float without failing, is the `0` of `ℚ`;
what is proved about computed values assumes a non-zero divisor. -/

/-- The errors of `FederatedAveraging`. -/
inductive AggregationError where
  | noGradients
  | lengthMismatch
  | dimensionMismatch
  deriving DecidableEq, Repr

/-- The weights `FederatedAveraging` works with: the given ones, or
`1 / len(gradientsList)` for each gradient when none are given. -/
def effectiveWeights (n : Nat) (weights : List ℚ) : List ℚ :=
  if weights.length = 0 then List.replicate n (1 / (n : ℚ)) else weights

/-- The loop `totalWeight += w`. -/
def totalWeight (weights : List ℚ) : ℚ :=
  weights.foldl (fun acc w => acc + w) 0

/-- The loop `weights[i] /= totalWeight`. -/
def normalizedWeights (weights : List ℚ) : List ℚ :=
  weights.map (fun w => w / totalWeight weights)

/-- The inner loop `aggregated[i] += g[i] * weights[j]` over the gradients. -/
def aggregateAt (gradientsList : List (List ℚ)) (weights : List ℚ) (i : Nat) : ℚ :=
  (gradientsList.zip weights).foldl (fun acc gw => acc + gw.1.getD i 0 * gw.2) 0

/-- The function `FederatedAveraging`, computed in exact arithmetic;
`Binary64.FederatedAveraging` computes in `float64`. -/
def FederatedAveraging (gradientsList : List (List ℚ)) (weights : List ℚ) :
    Except AggregationError (List ℚ) :=
  if gradientsList.length = 0 then .error .noGradients
  else
    let weights1 := effectiveWeights gradientsList.length weights
    if gradientsList.length ≠ weights1.length then .error .lengthMismatch
    else
      let weights2 := normalizedWeights weights1
      let dim := (gradientsList.headD []).length
      if gradientsList.any (fun g => g.length ≠ dim) then .error .dimensionMismatch
      else .ok ((List.range dim).map (fun i => aggregateAt gradientsList weights2 i))

/-! ## `federated-learning/validation/duplicate.go` -/

/-- A `float64` as `ValidateAggregation` looks at it: a finite value, NaN, or
an infinity of either sign. -/
inductive Float64 where
  | finite (value : ℚ)
  | nan
  | inf (negative : Bool)
  deriving DecidableEq, Repr

/-- The test `math.IsNaN(val)`. -/
def Float64.IsNaN : Float64 → Bool
  | .nan => true
  | _ => false

/-- The test `math.IsInf(val, 0)`: an infinity of either sign. -/
def Float64.IsInf : Float64 → Bool
  | .inf _ => true
  | _ => false

/-- The errors of `ValidateAggregation`, with the indices of their messages. -/
inductive ValidationError where
  | noGradients
  | inconsistentDimension (gradient : Nat)
  | invalidValue (gradient : Nat) (index : Nat)
  deriving DecidableEq, Repr

/-- The first loop of `ValidateAggregation`, from gradient index `i`. -/
def dimensionLoop (dim : Nat) : Nat → List (List Float64) → Option ValidationError
  | _, [] => none
  | i, g :: rest =>
    if g.length ≠ dim then some (.inconsistentDimension i) else dimensionLoop dim (i + 1) rest

/-- The inner loop of the second loop of `ValidateAggregation`, from index `j`
of gradient `i`. -/
def valueLoop (i : Nat) : Nat → List Float64 → Option ValidationError
  | _, [] => none
  | j, val :: rest =>
    if val.IsNaN ∨ val.IsInf then some (.invalidValue i j) else valueLoop i (j + 1) rest

/-- The second loop of `ValidateAggregation`, from gradient index `i`. -/
def valuesLoop : Nat → List (List Float64) → Option ValidationError
  | _, [] => none
  | i, g :: rest =>
    match valueLoop i 0 g with
    | some err => some err
    | none => valuesLoop (i + 1) rest

/-- The function `ValidateAggregation`. -/
def ValidateAggregation (gradients : List (List Float64)) : Option ValidationError :=
  if gradients.length = 0 then some .noGradients
  else
    let dim := (gradients.headD []).length
    match dimensionLoop dim 0 gradients with
    | some err => some err
    | none => valuesLoop 0 gradients

/-! ## `float64` arithmetic

The functions of `gradient.go` and `aggregation.go` above compute in exact
arithmetic.  Below they compute as the source does, in IEEE 754 binary64:
every operation is rounded on its own to the nearest value, ties to even (no
multiplication is fused with an addition, as on amd64). -/

/-- A `float64`: a finite value `± mantissa · 2 ^ exponent`, an infinity or a
NaN.  The operations build finite values in canonical form only:
`2^52 ≤ mantissa < 2^53` with `-1074 ≤ exponent ≤ 971`, or `mantissa < 2^52`
with exponent `-1074` (the subnormal numbers and the two zeros). -/
inductive Binary64 where
  | finite (negative : Bool) (mantissa : Nat) (exponent : Int)
  | inf (negative : Bool)
  | nan
  deriving DecidableEq, Repr

namespace Binary64

/-- The exponent of the leading bit of `n`, by halving at most `fuel` times. -/
def log2Fuel : Nat → Nat → Nat
  | 0, _ => 0
  | fuel + 1, n => if n < 2 then 0 else log2Fuel fuel (n / 2) + 1

/-- The exponent of the leading bit of `n` (0 for `n = 0`). -/
def log2 (n : Nat) : Nat :=
  log2Fuel n n

/-- The `float64` nearest to `± n / d` (`d > 0`), ties to even: `e` is the
exponent of the leading bit of `n / d`, `q` the exponent of the last place
(`-1074` for a subnormal result), and a result of `2^1024` or more is an
infinity. -/
def round (negative : Bool) (n d : Nat) : Binary64 :=
  if n = 0 then .finite negative 0 (-1074)
  else
    let e0 : Int := (log2 n : Int) - (log2 d : Int)
    let e : Int := if d * 2 ^ e0.toNat ≤ n * 2 ^ (-e0).toNat then e0 else e0 - 1
    let q : Int := max (e - 52) (-1074)
    let num := n * 2 ^ (-q).toNat
    let den := d * 2 ^ q.toNat
    let m := num / den
    let r := num % den
    let m1 := if den < 2 * r ∨ (2 * r = den ∧ m % 2 = 1) then m + 1 else m
    let q1 : Int := if m1 = 2 ^ 53 then q + 1 else q
    let m2 := if m1 = 2 ^ 53 then 2 ^ 52 else m1
    if 971 < q1 then .inf negative else .finite negative m2 q1

/-- The constant `0.0`. -/
def zero : Binary64 :=
  .finite false 0 (-1074)

/-- The conversion `float64(n)` of a non-negative integer. -/
def ofNat (n : Nat) : Binary64 :=
  round false n 1

/-- The `float64` nearest to a rational. -/
def ofRat (x : ℚ) : Binary64 :=
  round (decide (x < 0)) x.num.natAbs x.den

/-- An exponent `e` for which `m₁ · 2 ^ e₁` and `m₂ · 2 ^ e₂` are both integer
multiples of `2 ^ e`: the smaller exponent, a zero being left aside. -/
def commonExponent (m₁ : Nat) (e₁ : Int) (m₂ : Nat) (e₂ : Int) : Int :=
  if m₁ = 0 then e₂ else if m₂ = 0 then e₁ else min e₁ e₂

/-- The integer `± mantissa · 2 ^ (exponent - e)`, for `e ≤ exponent` or a
mantissa of zero. -/
def scaled (negative : Bool) (mantissa : Nat) (exponent e : Int) : Int :=
  if mantissa = 0 then 0
  else if negative then -((mantissa * 2 ^ (exponent - e).toNat : Nat) : Int)
  else ((mantissa * 2 ^ (exponent - e).toNat : Nat) : Int)

/-- The sum `x + y`.  An exact sum of zero is `-0` when both terms are `-0`
and `+0` otherwise. -/
def add : Binary64 → Binary64 → Binary64
  | .nan, _ => .nan
  | _, .nan => .nan
  | .inf a, .inf b => if a = b then .inf a else .nan
  | .inf a, .finite _ _ _ => .inf a
  | .finite _ _ _, .inf b => .inf b
  | .finite s₁ m₁ e₁, .finite s₂ m₂ e₂ =>
    let e := commonExponent m₁ e₁ m₂ e₂
    let s := scaled s₁ m₁ e₁ e + scaled s₂ m₂ e₂ e
    if s = 0 then .finite (s₁ && s₂) 0 (-1074)
    else round (decide (s < 0)) (s.natAbs * 2 ^ e.toNat) (2 ^ (-e).toNat)

/-- The product `x * y`. -/
def mul : Binary64 → Binary64 → Binary64
  | .nan, _ => .nan
  | _, .nan => .nan
  | .inf a, .inf b => .inf (xor a b)
  | .inf a, .finite s m _ => if m = 0 then .nan else .inf (xor a s)
  | .finite s m _, .inf b => if m = 0 then .nan else .inf (xor s b)
  | .finite s₁ m₁ e₁, .finite s₂ m₂ e₂ =>
    round (xor s₁ s₂) (m₁ * m₂ * 2 ^ (e₁ + e₂).toNat) (2 ^ (-(e₁ + e₂)).toNat)

/-- The quotient `x / y`; a division by zero gives an infinity, or a NaN for
`0 / 0`. -/
def div : Binary64 → Binary64 → Binary64
  | .nan, _ => .nan
  | _, .nan => .nan
  | .inf _, .inf _ => .nan
  | .inf a, .finite s _ _ => .inf (xor a s)
  | .finite s _ _, .inf b => .finite (xor s b) 0 (-1074)
  | .finite s₁ m₁ e₁, .finite s₂ m₂ e₂ =>
    if m₂ = 0 then (if m₁ = 0 then .nan else .inf (xor s₁ s₂))
    else round (xor s₁ s₂) (m₁ * 2 ^ (e₁ - e₂).toNat) (m₂ * 2 ^ (e₂ - e₁).toNat)

/-- The comparison `x < y`: false when either side is a NaN, and `-0 < +0` is
false. -/
def lt : Binary64 → Binary64 → Bool
  | .nan, _ => false
  | _, .nan => false
  | .inf a, .inf b => a && !b
  | .inf a, .finite _ _ _ => a
  | .finite _ _ _, .inf b => !b
  | .finite s₁ m₁ e₁, .finite s₂ m₂ e₂ =>
    decide (scaled s₁ m₁ e₁ (commonExponent m₁ e₁ m₂ e₂) <
      scaled s₂ m₂ e₂ (commonExponent m₁ e₁ m₂ e₂))

/-- The weights `FederatedAveraging` works with: the given ones, or
`1.0 / float64(len(gradientsList))` for each gradient when none are given. -/
def effectiveWeights (n : Nat) (weights : List Binary64) : List Binary64 :=
  if weights.length = 0 then List.replicate n (div (ofNat 1) (ofNat n)) else weights

/-- The loop `totalWeight += w`, from `0.0`. -/
def totalWeight (weights : List Binary64) : Binary64 :=
  weights.foldl (fun acc w => add acc w) zero

/-- The loop `weights[i] /= totalWeight`. -/
def normalizedWeights (weights : List Binary64) : List Binary64 :=
  weights.map (fun w => div w (totalWeight weights))

/-- The inner loop `aggregated[i] += g[i] * weights[j]` over the gradients,
from the `0.0` of `make`. -/
def aggregateAt (gradientsList : List (List Binary64)) (weights : List Binary64) (i : Nat) :
    Binary64 :=
  (gradientsList.zip weights).foldl (fun acc gw => add acc (mul (gw.1.getD i zero) gw.2)) zero

/-- The function `FederatedAveraging` on `float64` values. -/
def FederatedAveraging (gradientsList : List (List Binary64)) (weights : List Binary64) :
    Except AggregationError (List Binary64) :=
  if gradientsList.length = 0 then .error .noGradients
  else
    let weights1 := effectiveWeights gradientsList.length weights
    if gradientsList.length ≠ weights1.length then .error .lengthMismatch
    else
      let weights2 := normalizedWeights weights1
      let dim := (gradientsList.headD []).length
      if gradientsList.any (fun g => g.length ≠ dim) then .error .dimensionMismatch
      else .ok ((List.range dim).map (fun i => aggregateAt gradientsList weights2 i))

/-- The keeper method `Keeper.CalculateFairRewards` on `float64` values: a
stored contribution, a finite float, is read as the `float64` nearest to the
stored rational (that rational itself when it is a `float64`). -/
def CalculateFairRewards (ctx : Ctx) (jobID : String) (round : Int) :
    List (String × Binary64) :=
  let contributions := GetGradientContributions ctx jobID round
  if contributions.length = 0 then []
  else
    let totalContribution :=
      contributions.foldl (fun acc c => add acc (ofRat c.Contribution)) zero
    contributions.foldl
      (fun rewards c =>
        if lt zero totalContribution then
          mapSet rewards c.NodeID (div (ofRat c.Contribution) totalContribution)
        else rewards)
      []

end Binary64

/-! ## `x/model/keeper` -/

/-- The keeper method `Keeper.GetModel` (key `"model:" + id`). -/
def GetModel (ctx : Ctx) (modelID : String) : Option Model :=
  storeGet Model.ID ctx.models modelID

/-- The keeper method `Keeper.RegisterModel` (`registry.go`). -/
def Keeper.RegisterModel (ctx : Ctx) (model : Model) : Option Err × Ctx :=
  match storeGet Model.ID ctx.models model.ID with
  | some _ => (some .modelExists, ctx)
  | none => (none, { ctx with models := storeSet Model.ID ctx.models model })

/-- The message `types.MsgRegisterModel`; a nil `Metadata` is the empty map. -/
structure MsgRegisterModel where
  Creator : String
  Name : String
  Version : String
  Cid : String
  Metadata : List (String × String)
  deriving DecidableEq, Repr

/-- The handler `MsgServer.RegisterModel`; it answers the model id.  The
error that `Keeper.RegisterModel` returns is not looked at. -/
def MsgServer.RegisterModel (ctx : Ctx) (msg : Option MsgRegisterModel) :
    Except Err String × Ctx :=
  match msg with
  | none => (.error .invalidMessage, ctx)
  | some msg =>
    let modelID := "model-" ++ msg.Name ++ "-" ++ msg.Version
    let model : Model :=
      { ID := modelID
        Name := msg.Name
        Version := msg.Version
        CID := msg.Cid
        Metadata := msg.Metadata
        CreatedAt := ctx.blockTime }
    let ctx1 := (Keeper.RegisterModel ctx model).2
    let ctx2 := { ctx1 with events := ctx1.events ++
      [{ type := "model_registered"
         attributes := [("model_id", modelID), ("name", msg.Name), ("version", msg.Version)] }] }
    (.ok modelID, ctx2)

/-! ## `x/inference/keeper`

The store of the module holds the `uint64` round-robin index under the key
`round_robin_index`; `none` is the absent key.  An index into an empty slice,
a runtime panic of the source, is the error `indexOutOfRange`. -/

/-- The keeper method `Keeper.selectRoundRobin`; `index++` is `uint64`
arithmetic. -/
def selectRoundRobin (ctx : Ctx) (nodes : List Node) : (String × Option Err) × Ctx :=
  let index : Nat :=
    match ctx.roundRobinIndex with
    | some bz => bz
    | none => 0
  match nodes.get? (index % nodes.length) with
  | none => (("", some .indexOutOfRange), ctx)
  | some selected =>
    let index1 := (index + 1) % 2 ^ 64
    ((selected.ID, none), { ctx with roundRobinIndex := some index1 })

/-- The loop of `selectLeastLoaded` over `nodes[1:]`. -/
def leastLoadedLoop : List Node → Node → Nat → Node
  | [], leastLoaded, _ => leastLoaded
  | node :: rest, leastLoaded, minTasks =>
    let taskCount := node.ActiveTasks.length
    if taskCount < minTasks then leastLoadedLoop rest node taskCount
    else leastLoadedLoop rest leastLoaded minTasks

/-- The keeper method `Keeper.selectLeastLoaded`. -/
def selectLeastLoaded (ctx : Ctx) (nodes : List Node) : (String × Option Err) × Ctx :=
  match nodes with
  | [] => (("", some .indexOutOfRange), ctx)
  | first :: rest => (((leastLoadedLoop rest first first.ActiveTasks.length).ID, none), ctx)

/-- The loop of `selectBestReputation` over `nodes[1:]`. -/
def bestReputationLoop : List Node → Node → ℚ → Node
  | [], bestNode, _ => bestNode
  | node :: rest, bestNode, bestReputation =>
    if node.Reputation > bestReputation then bestReputationLoop rest node node.Reputation
    else bestReputationLoop rest bestNode bestReputation

/-- The keeper method `Keeper.selectBestReputation`. -/
def selectBestReputation (ctx : Ctx) (nodes : List Node) : (String × Option Err) × Ctx :=
  match nodes with
  | [] => (("", some .indexOutOfRange), ctx)
  | first :: rest => (((bestReputationLoop rest first first.Reputation).ID, none), ctx)

/-- The keeper method `Keeper.SelectNodeForInference`. -/
def SelectNodeForInference (ctx : Ctx) (_modelID : String) (strategy : String) :
    (String × Option Err) × Ctx :=
  let nodes := GetAllNodes ctx
  if nodes.length = 0 then (("", some .noNodesAvailable), ctx)
  else
    let onlineNodes :=
      nodes.filter (fun node => node.Status = "online" ∧ node.ActiveTasks.length < 10)
    if onlineNodes.length = 0 then (("", some .noOnlineNodesAvailable), ctx)
    else if strategy = "round_robin" then selectRoundRobin ctx onlineNodes
    else if strategy = "least_loaded" then selectLeastLoaded ctx onlineNodes
    else if strategy = "best_reputation" then selectBestReputation ctx onlineNodes
    else selectRoundRobin ctx onlineNodes

/-! ## `node/resource/manager.go`

`int` and `uint64` arithmetic wraps around at 64 bits. -/

/-- The value of an `int` expression: two's complement on 64 bits. -/
def wrapInt (x : Int) : Int :=
  (x + 2 ^ 63) % 2 ^ 64 - 2 ^ 63

/-- The value of a `uint64` expression. -/
def wrapUint64 (x : Int) : Nat :=
  (x % 2 ^ 64).toNat

/-- The record `ResourceAllocation`. -/
structure ResourceAllocation where
  TaskID : String
  CPU : Int
  Memory : Nat
  deriving DecidableEq, Repr

/-- The fields of `Manager` that resource accounting uses; `allocations` is
the Go map, held as a list of entries with distinct keys. -/
structure Manager where
  CPUCount : Int
  MemoryGB : Nat
  allocations : List (String × ResourceAllocation)
  allocatedCPU : Int
  allocatedMemory : Nat
  deriving DecidableEq, Repr

/-- The manager that `NewManager` returns on a machine with the given
resources: an empty allocation map and zero counters. -/
def NewManager (cpuCount : Int) (memoryGB : Nat) : Manager :=
  { CPUCount := cpuCount, MemoryGB := memoryGB, allocations := [], allocatedCPU := 0,
    allocatedMemory := 0 }

/-- The assignment `m.allocations[taskID] = allocation`. -/
def allocationsSet (m : List (String × ResourceAllocation)) (taskID : String)
    (allocation : ResourceAllocation) : List (String × ResourceAllocation) :=
  match m with
  | [] => [(taskID, allocation)]
  | (k, v) :: rest =>
    if k = taskID then (taskID, allocation) :: rest
    else (k, v) :: allocationsSet rest taskID allocation

/-- The lookup `m.allocations[taskID]`. -/
def allocationsGet (m : List (String × ResourceAllocation)) (taskID : String) :
    Option ResourceAllocation :=
  match m with
  | [] => none
  | (k, v) :: rest => if k = taskID then some v else allocationsGet rest taskID

/-- The statement `delete(m.allocations, taskID)`. -/
def allocationsDelete (m : List (String × ResourceAllocation)) (taskID : String) :
    List (String × ResourceAllocation) :=
  m.filter (fun e => e.1 ≠ taskID)

/-- The errors of `AllocateResources`. -/
inductive ResourceError where
  | insufficientCPU
  | insufficientMemory
  deriving DecidableEq, Repr

/-- The method `Manager.AllocateResources`. -/
def AllocateResources (m : Manager) (taskID : String) (cpu : Int) (memory : Nat) :
    Option ResourceError × Manager :=
  if cpu > m.CPUCount then (some .insufficientCPU, m)
  else if memory > m.MemoryGB then (some .insufficientMemory, m)
  else
    let availableCPU := wrapInt (m.CPUCount - m.allocatedCPU)
    if cpu > availableCPU then (some .insufficientCPU, m)
    else
      let availableMemory := wrapUint64 ((m.MemoryGB : Int) - m.allocatedMemory)
      if memory > availableMemory then (some .insufficientMemory, m)
      else
        (none,
          { m with
            allocations :=
              allocationsSet m.allocations taskID { TaskID := taskID, CPU := cpu, Memory := memory }
            allocatedCPU := wrapInt (m.allocatedCPU + cpu)
            allocatedMemory := wrapUint64 ((m.allocatedMemory : Int) + memory) })

/-- The method `Manager.ReleaseResources`. -/
def ReleaseResources (m : Manager) (taskID : String) : Option ResourceError × Manager :=
  match allocationsGet m.allocations taskID with
  | none => (none, m)
  | some allocation =>
    (none,
      { m with
        allocatedCPU := wrapInt (m.allocatedCPU - allocation.CPU)
        allocatedMemory := wrapUint64 ((m.allocatedMemory : Int) - allocation.Memory)
        allocations := allocationsDelete m.allocations taskID })

/-! ## The invariants of the specification -/

/-- INV-3: reputation and uptime of every node lie in `[0, 100]`. -/
def INV3 (ctx : Ctx) : Prop :=
  ∀ n ∈ ctx.nodes,
    0 ≤ n.Reputation ∧ n.Reputation ≤ 100 ∧ 0 ≤ n.UptimePercent ∧ n.UptimePercent ≤ 100

instance INV3.decidable (ctx : Ctx) : Decidable (INV3 ctx) := by
  unfold INV3; infer_instance

/-- INV-1: a task that is assigned, in progress, paused or delegated is bound
to a node. -/
def INV1 (ctx : Ctx) : Prop :=
  ∀ t ∈ ctx.tasks,
    (t.Status = TaskStatusAssigned ∨ t.Status = TaskStatusInProgress ∨
      t.Status = TaskStatusPaused ∨ t.Status = TaskStatusDelegated) → t.NodeID ≠ ""

/-- INV-2: a task that is pending or in rollback is bound to no node. -/
def INV2 (ctx : Ctx) : Prop :=
  ∀ t ∈ ctx.tasks,
    (t.Status = TaskStatusPending ∨ t.Status = TaskStatusRollback) → t.NodeID = ""

/-- INV-5: two distinct shards assigned to the same node do not share a
non-empty hash. -/
def INV5 (ctx : Ctx) : Prop :=
  ∀ s₁ ∈ ctx.shards, ∀ s₂ ∈ ctx.shards,
    s₁.ID ≠ s₂.ID → s₁.NodeID ≠ "" → s₁.NodeID = s₂.NodeID → s₁.Hash = s₂.Hash → s₁.Hash = ""

/-- The state of the test `TestHandleNodeOffline`. -/
def offlineTestCtx : Ctx :=
  { blockTime := 1000
    nodes :=
      [{ ID := "node-1", Address := "cosmos1abc123", Status := "online", Resources := [],
         Reputation := 100, UptimePercent := mkRat 199 2, LastHeartbeat := 1000, RegisteredAt := 0,
         ActiveTasks := [] },
       { ID := "node-2", Address := "cosmos1def456", Status := "online", Resources := [],
         Reputation := 95, UptimePercent := 98, LastHeartbeat := 1000, RegisteredAt := 0,
         ActiveTasks := [] }]
    tasks :=
      [{ ID := "task-1", JobID := "job-1", ShardID := "shard-1", NodeID := "node-1",
         Status := TaskStatus_IN_PROGRESS, CreatedAt := 1000, UpdatedAt := 1000,
         Progress := mkRat 1 2, CheckpointCID := "" },
       { ID := "task-2", JobID := "job-1", ShardID := "shard-2", NodeID := "",
         Status := TaskStatus_PENDING, CreatedAt := 1000, UpdatedAt := 1000,
         Progress := 0, CheckpointCID := "" }] }

/-! ## Definitions used in the statements: closed forms, test states and
the transitions listed by the specification -/

/-- The record that `RegisterNode` stores for a message at a block time. -/
def registeredNode (now : Time) (msg : MsgRegisterNode) : Node :=
  { ID := msg.NodeId
    Address := msg.Address
    Status := "online"
    Resources :=
      [("cpu_cores", toString msg.CpuCores), ("gpu_count", toString msg.GpuCount),
       ("memory_gb", toString msg.MemoryGb), ("storage_gb", toString msg.StorageGb)]
    Reputation := 0
    UptimePercent := 0
    LastHeartbeat := now
    RegisteredAt := now
    ActiveTasks := [] }

/-- A context holding the node `n1`. -/
def oneNodeCtx : Ctx :=
  { blockTime := 7
    nodes :=
      [{ ID := "n1", Address := "a1", Status := "online", Resources := [], Reputation := 0,
         UptimePercent := 0, LastHeartbeat := 0, RegisteredAt := 0, ActiveTasks := [] }] }

/-- The test of the first loop of `RollbackTasksForNode`. -/
def boundTo (nodeID : String) (task : Task) : Prop :=
  task.NodeID = nodeID ∧
    (task.Status = TaskStatus_IN_PROGRESS ∨ task.Status = TaskStatus_ASSIGNED)

instance boundTo.decidable (nodeID : String) (task : Task) : Decidable (boundTo nodeID task) :=
  inferInstanceAs (Decidable (_ ∧ _))

/-- What the second loop of `RollbackTasksForNode` leaves of a task. -/
def rolledBack (task : Task) : Task :=
  { task with Status := TaskStatus_PENDING, NodeID := "" }

/-- The state of the test `TestRollbackTasksForNode`. -/
def rollbackTestCtx : Ctx :=
  { blockTime := 1000
    nodes :=
      [{ ID := "node-1", Address := "cosmos1abc123", Status := "online", Resources := [],
         Reputation := 100, UptimePercent := mkRat 199 2, LastHeartbeat := 1000, RegisteredAt := 0,
         ActiveTasks := [] }]
    tasks :=
      [{ ID := "task-1", JobID := "job-1", ShardID := "shard-1", NodeID := "node-1",
         Status := TaskStatus_IN_PROGRESS, CreatedAt := 1000, UpdatedAt := 1000,
         Progress := mkRat 1 2, CheckpointCID := "" },
       { ID := "task-2", JobID := "job-1", ShardID := "shard-2", NodeID := "node-1",
         Status := TaskStatus_ASSIGNED, CreatedAt := 1000, UpdatedAt := 1000,
         Progress := 0, CheckpointCID := "" },
       { ID := "task-3", JobID := "job-1", ShardID := "shard-3", NodeID := "node-2",
         Status := TaskStatus_IN_PROGRESS, CreatedAt := 1000, UpdatedAt := 1000,
         Progress := mkRat 3 10, CheckpointCID := "" }] }

/-- The transitions that the specification lists for the task state machine
(written from the specification, not from the source). -/
def specAllowedTransition (old new : TaskStatus) : Prop :=
  (old = "pending" ∧ new = "assigned") ∨
  (old = "assigned" ∧ new = "in_progress") ∨
  (old = "in_progress" ∧
    (new = "paused" ∨ new = "completed" ∨ new = "failed" ∨ new = "rollback")) ∨
  (old = "paused" ∧ (new = "in_progress" ∨ new = "rollback")) ∨
  (old = "rollback" ∧ new = "pending") ∨
  (old = "assigned" ∧ new = "rollback")

instance specAllowedTransition.decidable (old new : TaskStatus) :
    Decidable (specAllowedTransition old new) :=
  inferInstanceAs (Decidable (_ ∨ _))

/-- The task of the test `TestUpdateTaskStatus`. -/
def updateTestTask : Task :=
  { ID := "task-1", JobID := "job-1", ShardID := "shard-1", NodeID := "node-1",
    Status := TaskStatusPending, CreatedAt := 1000, UpdatedAt := 1000,
    Progress := 0, CheckpointCID := "" }

/-- The state of the test `TestUpdateTaskStatus`. -/
def updateTestCtx : Ctx :=
  { blockTime := 2000, tasks := [updateTestTask] }

/-- The message of the test `TestUpdateTaskStatus`. -/
def updateTestMsg : MsgUpdateTaskStatus :=
  { Creator := "cosmos1abc123", TaskId := "task-1", Status := "in_progress",
    Progress := mkRat 1 2, CheckpointCid := "QmCheckpoint123" }

/-- The task that `UpdateTaskStatus` writes for a stored task and a message. -/
def updatedTask (now : Time) (task : Task) (msg : MsgUpdateTaskStatus) : Task :=
  let task1 := { task with Status := msg.Status, UpdatedAt := now }
  let task2 := if msg.Progress ≥ 0 then { task1 with Progress := msg.Progress } else task1
  if msg.CheckpointCid ≠ "" then { task2 with CheckpointCID := msg.CheckpointCid } else task2

instance INV1.decidable (ctx : Ctx) : Decidable (INV1 ctx) := by
  unfold INV1; infer_instance

instance INV2.decidable (ctx : Ctx) : Decidable (INV2 ctx) := by
  unfold INV2; infer_instance

/-- Both task invariants, for one task. -/
def taskOK (t : Task) : Prop :=
  ((t.Status = TaskStatusAssigned ∨ t.Status = TaskStatusInProgress ∨
      t.Status = TaskStatusPaused ∨ t.Status = TaskStatusDelegated) → t.NodeID ≠ "") ∧
  ((t.Status = TaskStatusPending ∨ t.Status = TaskStatusRollback) → t.NodeID = "")

/-- The node store holds no node with an empty id. -/
def nodeIDsNonEmpty (ctx : Ctx) : Prop := ∀ x ∈ ctx.nodes, x.ID ≠ ""

instance nodeIDsNonEmpty.decidable (ctx : Ctx) : Decidable (nodeIDsNonEmpty ctx) := by
  unfold nodeIDsNonEmpty; infer_instance

/-- A state satisfying INV-1 and INV-2: the job of the test `TestCreateTask`
and one pending task bound to no node. -/
def invTestCtx : Ctx :=
  { blockTime := 2000
    jobs :=
      [{ ID := "job-1", ModelID := "model-1", DatasetCID := "QmABC123",
         Config := [("epochs", "10")], Status := TaskStatusPending, CreatedAt := 1000,
         UpdatedAt := 1000, Progress := 0, Tasks := [] }]
    tasks :=
      [{ ID := "task-1", JobID := "job-1", ShardID := "shard-1", NodeID := "",
         Status := TaskStatusPending, CreatedAt := 1000, UpdatedAt := 1000,
         Progress := 0, CheckpointCID := "" }] }

/-- The record that `AssignShardToNode` writes for a stored shard. -/
def assignedShard (shard : Shard) (nodeID : String) : Shard :=
  { shard with NodeID := nodeID, Status := "assigned" }

instance INV5.decidable (ctx : Ctx) : Decidable (INV5 ctx) := by
  unfold INV5; infer_instance

/-- The state of scenario 4: shard `s1` with hash `H` assigned to `n1`, and an
unassigned shard `s2` with the same hash. -/
def dedupCtx : Ctx :=
  { shards :=
      [{ ID := "s1", JobID := "job-1", CID := "QmShard1", Hash := "H", NodeID := "n1",
         Status := "assigned", Size := 1000 },
       { ID := "s2", JobID := "job-1", CID := "QmShard2", Hash := "H", NodeID := "",
         Status := "pending", Size := 1000 }] }

/-- A call on the shard registry. -/
inductive ShardOp where
  | register (shard : Shard)
  | assign (shardID nodeID : String)
  deriving DecidableEq, Repr

/-- The context after one call on the shard registry: `RegisterShard` or
`AssignShardToNode`, whatever it returns. -/
def applyShardOp (ctx : Ctx) : ShardOp → Ctx
  | .register shard => (RegisterShard ctx shard).2
  | .assign shardID nodeID => (AssignShardToNode ctx shardID nodeID).2

/-- The condition on a call made in the state `ctx`: a registered shard has an
empty `node_id`, and `ValidateShardAssignment(s, n)` returns no error in `ctx`
for an assignment `AssignShardToNode(s, n)`. -/
def validatedOp (ctx : Ctx) : ShardOp → Prop
  | .register shard => shard.NodeID = ""
  | .assign shardID nodeID => (ValidateShardAssignment ctx shardID nodeID).1 = none

instance validatedOp.decidable (ctx : Ctx) (op : ShardOp) : Decidable (validatedOp ctx op) := by
  cases op <;> (unfold validatedOp; infer_instance)

/-- A sequence of calls from `ctx` each of which meets `validatedOp` in the
state it is made in, that is, after the calls before it. -/
def validatedOps : Ctx → List ShardOp → Prop
  | _, [] => True
  | ctx, op :: rest => validatedOp ctx op ∧ validatedOps (applyShardOp ctx op) rest

/-- Scenario 4 with a third, unassigned shard `s3` of another hash. -/
def dedupOps : List ShardOp :=
  [.register ⟨"s3", "job-1", "QmShard3", "K", "", "pending", 1000⟩, .assign "s3" "n1"]

/-- A state with a pending task and an online node whose last heartbeat is
91 s old. -/
def staleCtx : Ctx :=
  { blockTime := 91000000000
    nodes :=
      [{ ID := "node-1", Address := "cosmos1abc123", Status := "online", Resources := [],
         Reputation := 100, UptimePercent := mkRat 199 2, LastHeartbeat := 0, RegisteredAt := 0,
         ActiveTasks := [] }]
    tasks :=
      [{ ID := "task-1", JobID := "job-1", ShardID := "shard-1", NodeID := "",
         Status := TaskStatusPending, CreatedAt := 0, UpdatedAt := 0,
         Progress := 0, CheckpointCID := "" }] }

/-- The node of the test `TestUpdateReputation`. -/
def reputationTestNode : Node :=
  { ID := "node-1", Address := "cosmos1abc123", Status := "online", Resources := [],
    Reputation := 50, UptimePercent := 50, LastHeartbeat := 1000, RegisteredAt := 1000,
    ActiveTasks := [] }

/-- The state of the test `TestUpdateReputation`. -/
def reputationTestCtx : Ctx :=
  { blockTime := 1000, nodes := [reputationTestNode] }

/-- The record that `UpdateReputation` writes for a stored node. -/
def reputedNode (node : Node) (uptimePercent : ℚ) : Node :=
  let node1 := { node with UptimePercent := uptimePercent, Reputation := uptimePercent }
  if uptimePercent < 50 then { node1 with Reputation := node1.Reputation * 0.5 } else node1

/-- The state of the test `TestCalculateFairRewards`: three contributions to
round 1 of `job-1`, of 0.5, 0.3 and 0.2. -/
def fairTestCtx : Ctx :=
  (TrackGradientContribution
    (TrackGradientContribution
      (TrackGradientContribution {} "node-1" "job-1" 1 "QmGradient123" (mkRat 1 2)).2
      "node-2" "job-1" 1 "QmGradient456" (mkRat 3 10)).2
    "node-3" "job-1" 1 "QmGradient789" (mkRat 1 5)).2

/-- A state with a single contribution, of weight `w`, by `node-1` to round 1
of `job-1`. -/
def singleContributionCtx (w : ℚ) : Ctx :=
  (TrackGradientContribution {} "node-1" "job-1" 1 "QmGradient123" w).2

/-- A state where `node-1` contributed two gradients, of weight 1 each, to
round 1 of `job-1`. -/
def repeatedNodeCtx : Ctx :=
  (TrackGradientContribution
    (TrackGradientContribution {} "node-1" "job-1" 1 "QmGradient123" 1).2
    "node-1" "job-1" 1 "QmGradient456" 1).2

/-- The sum of the contributions of a list of records. -/
def contributionSum (contributions : List GradientContribution) : ℚ :=
  (contributions.map GradientContribution.Contribution).sum

/-- The second loop of `CalculateFairRewards` when the total is positive. -/
def rewardStep (total : ℚ) (rewards : List (String × ℚ)) (c : GradientContribution) :
    List (String × ℚ) :=
  mapSet rewards c.NodeID (c.Contribution / total)

/-- The last record of a node in a list of contributions. -/
def lastFor (n : String) : List GradientContribution → Option GradientContribution
  | [] => none
  | c :: rest =>
    match lastFor n rest with
    | some x => some x
    | none => if c.NodeID = n then some c else none

/-- A state at block time 1000 with no job. -/
def submitTestCtx : Ctx :=
  { blockTime := 1000 }

/-- The message of the test `TestSubmitJob`. -/
def submitTestMsg : MsgSubmitJob :=
  { Creator := "cosmos1abc123", ModelId := "model-1", DatasetCid := "QmABC123",
    Config := [("epochs", "10")] }

/-- A second job submission, by another creator for another model. -/
def submitOtherMsg : MsgSubmitJob :=
  { Creator := "cosmos1def456", ModelId := "model-2", DatasetCid := "QmXYZ789", Config := [] }

/-- The message of the test `TestCreateTask`. -/
def createTestMsg : MsgCreateTask :=
  { Creator := "cosmos1abc123", JobId := "job-1", ShardId := "shard-1", NodeId := "node-1" }

/-- A second task creation for the same job, for another shard. -/
def createOtherMsg : MsgCreateTask :=
  { Creator := "cosmos1abc123", JobId := "job-1", ShardId := "shard-2", NodeId := "node-2" }

/-- The message of the test `TestRegisterModel`. -/
def modelTestMsg : MsgRegisterModel :=
  { Creator := "cosmos1abc123", Name := "test-model", Version := "1.0.0", Cid := "QmModel123",
    Metadata := [] }

/-- The same model name and version registered again with another content id. -/
def modelOtherMsg : MsgRegisterModel :=
  { Creator := "cosmos1def456", Name := "test-model", Version := "1.0.0", Cid := "QmOther456",
    Metadata := [] }

/-- A state where `node-1` contributed to round 1 of the job `job-1:x`. -/
def colonJobCtx : Ctx :=
  (TrackGradientContribution {} "node-1" "job-1:x" 1 "QmGradient123" 1).2

/-- The sum of the CPU of the entries of an allocation map. -/
def allocationsCPU (m : List (String × ResourceAllocation)) : Int :=
  (m.map (fun e => e.2.CPU)).sum

/-- The sum of the memory of the entries of an allocation map. -/
def allocationsMemory (m : List (String × ResourceAllocation)) : Nat :=
  (m.map (fun e => e.2.Memory)).sum

/-- A fresh manager with 8 CPUs and 16 GB, after `task-1` was allocated
`(2, 4)` and then allocated again `(1, 1)`. -/
def reallocatedManager : Manager :=
  (AllocateResources (AllocateResources (NewManager 8 16) "task-1" 2 4).2 "task-1" 1 1).2

/-- The candidate set of `SelectNodeForInference`: the stored nodes, in key
order, that are online with fewer than 10 active tasks. -/
def inferenceCandidates (ctx : Ctx) : List Node :=
  (GetAllNodes ctx).filter (fun node => node.Status = "online" ∧ node.ActiveTasks.length < 10)

/-- The index that `selectRoundRobin` reads: 0 when the key is absent. -/
def storedIndex (ctx : Ctx) : Nat :=
  match ctx.roundRobinIndex with
  | some bz => bz
  | none => 0

/-- A node with the given id, status, active tasks and reputation. -/
def inferenceNode (id status : String) (tasks : List String) (reputation : ℚ) : Node :=
  { ID := id, Address := "cosmos1abc123", Status := status, Resources := [],
    Reputation := reputation, UptimePercent := reputation, LastHeartbeat := 1000,
    RegisteredAt := 1000, ActiveTasks := tasks }

/-- Scenario 8: the candidates `n1`, `n2`, `n3`, no index stored. -/
def threeNodesCtx : Ctx :=
  { blockTime := 1000
    nodes := [inferenceNode "n1" "online" [] 50, inferenceNode "n2" "online" [] 50,
      inferenceNode "n3" "online" [] 50] }

/-- The state after one round-robin pick. -/
def pickRoundRobin (ctx : Ctx) : Ctx :=
  (SelectNodeForInference ctx "model-1" "round_robin").2

/-- The candidates of scenario 8 with the largest `uint64` as stored index. -/
def lastIndexCtx : Ctx :=
  { threeNodesCtx with roundRobinIndex := some (2 ^ 64 - 1) }

/-- Four nodes: `n2` and `n3` tie on the fewest active tasks, `n1` and `n3` tie
on the highest reputation among the candidates, and `n4` is offline. -/
def tieTestCtx : Ctx :=
  { blockTime := 1000
    nodes := [inferenceNode "n1" "online" ["t1", "t2"] 90, inferenceNode "n2" "online" ["t3"] 80,
      inferenceNode "n3" "online" ["t4"] 90, inferenceNode "n4" "offline" [] 100] }

/-- The gradients of scenario 6 and of the test `TestFederatedAveraging`,
`[[1,2,3],[2,3,4],[3,4,5]]`, as `float64` values. -/
def meanTestGradients : List (List Binary64) :=
  [[.ofNat 1, .ofNat 2, .ofNat 3], [.ofNat 2, .ofNat 3, .ofNat 4],
    [.ofNat 3, .ofNat 4, .ofNat 5]]

/-- The loop `totalContribution += c.Contribution` in `float64`, from `0.0`. -/
def Binary64.contributionTotal (contributions : List GradientContribution) : Binary64 :=
  contributions.foldl (fun acc c => Binary64.add acc (Binary64.ofRat c.Contribution)) Binary64.zero

/-- The second loop of `CalculateFairRewards` in `float64` when the total is
positive. -/
def Binary64.rewardStep (total : Binary64) (rewards : List (String × Binary64))
    (c : GradientContribution) : List (String × Binary64) :=
  mapSet rewards c.NodeID (Binary64.div (Binary64.ofRat c.Contribution) total)

/-- The `float64` sum of a list of values in the order of the list, from
`0.0`. -/
def Binary64.sum (values : List Binary64) : Binary64 :=
  values.foldl Binary64.add Binary64.zero

/-- Three contributions to round 1 of `job-1`, of 0.1, 0.2 and 0.3. -/
def roundingCtx : Ctx :=
  (TrackGradientContribution
    (TrackGradientContribution
      (TrackGradientContribution {} "node-1" "job-1" 1 "QmGradient123" (mkRat 1 10)).2
      "node-2" "job-1" 1 "QmGradient456" (mkRat 1 5)).2
    "node-3" "job-1" 1 "QmGradient789" (mkRat 3 10)).2

/-- Three contributions to round 1 of `job-1`, of `1e16`, 1 and `-1e16`. -/
def cancellationCtx : Ctx :=
  (TrackGradientContribution
    (TrackGradientContribution
      (TrackGradientContribution {} "node-1" "job-1" 1 "QmGradient123" 10000000000000000).2
      "node-2" "job-1" 1 "QmGradient456" 1).2
    "node-3" "job-1" 1 "QmGradient789" (-10000000000000000)).2

/-- Two unassigned shards with the same hash `H`. -/
def twoFreeCtx : Ctx :=
  { shards :=
      [{ ID := "s2", JobID := "job-1", CID := "QmShard2", Hash := "H", NodeID := "",
         Status := "pending", Size := 1000 },
       { ID := "s3", JobID := "job-1", CID := "QmShard3", Hash := "H", NodeID := "",
         Status := "pending", Size := 1000 }] }

/-! ## Lemmas on the store -/

theorem keyLt_irrefl (a : String) : ¬ keyLt a a := lt_irrefl a.toList

theorem keyLt_trans {a b c : String} (h₁ : keyLt a b) (h₂ : keyLt b c) : keyLt a c :=
  lt_trans (α := List Char) h₁ h₂

theorem keyLt_ne {a b : String} (h : keyLt a b) : a ≠ b := by
  rintro rfl
  exact keyLt_irrefl a h

theorem keyLt_of_not {a b : String} (h₁ : ¬ keyLt a b) (h₂ : a ≠ b) : keyLt b a := by
  rcases lt_trichotomy a.toList b.toList with h | h | h
  · exact absurd h h₁
  · exact absurd (String.ext h) h₂
  · exact h

section Store

variable {α : Type} {K : α → String}

theorem storeGet_key {s : List α} {k : String} {x : α} (h : storeGet K s k = some x) :
    K x = k := by
  induction s with
  | nil => simp [storeGet] at h
  | cons y ys ih =>
    unfold storeGet at h
    split at h
    · cases h; assumption
    · exact ih h

theorem storeGet_mem {s : List α} {k : String} {x : α} (h : storeGet K s k = some x) :
    x ∈ s := by
  induction s with
  | nil => simp [storeGet] at h
  | cons y ys ih =>
    unfold storeGet at h
    split at h
    · cases h; exact List.mem_cons_self _ _
    · exact List.mem_cons_of_mem _ (ih h)

theorem storeGet_eq_none {s : List α} {k : String} :
    storeGet K s k = none ↔ ∀ x ∈ s, K x ≠ k := by
  induction s with
  | nil => simp [storeGet]
  | cons y ys ih =>
    unfold storeGet
    by_cases hy : K y = k
    · simp [hy]
    · simp [hy, ih]

theorem storeGet_storeSet_self (s : List α) (v : α) :
    storeGet K (storeSet K s v) (K v) = some v := by
  induction s with
  | nil => simp [storeSet, storeGet]
  | cons y ys ih =>
    unfold storeSet
    split_ifs with h₁ h₂
    · simp [storeGet]
    · simp [storeGet]
    · have h₃ : K y ≠ K v := fun h => h₂ h.symm
      simp [storeGet, h₃, ih]

theorem storeGet_storeSet_ne (s : List α) (v : α) {k : String} (hk : k ≠ K v) :
    storeGet K (storeSet K s v) k = storeGet K s k := by
  have hk2 : K v ≠ k := fun h => hk h.symm
  induction s with
  | nil => simp [storeSet, storeGet, hk2]
  | cons y ys ih =>
    unfold storeSet
    split_ifs with h₁ h₂
    · simp [storeGet, hk2]
    · have h₃ : K y ≠ k := fun h => hk2 (h₂.trans h)
      simp [storeGet, hk2, h₃]
    · simp [storeGet, ih]

theorem storeSet_mem {s : List α} {v x : α} (h : x ∈ storeSet K s v) : x = v ∨ x ∈ s := by
  induction s with
  | nil => simpa [storeSet] using h
  | cons y ys ih =>
    unfold storeSet at h
    split_ifs at h with h₁ h₂
    · simpa using h
    · rcases List.mem_cons.1 h with h | h
      · exact Or.inl h
      · exact Or.inr (List.mem_cons_of_mem _ h)
    · rcases List.mem_cons.1 h with h | h
      · exact Or.inr (h ▸ List.mem_cons_self _ _)
      · rcases ih h with h | h
        · exact Or.inl h
        · exact Or.inr (List.mem_cons_of_mem _ h)

theorem storeSet_wf {s : List α} (v : α) (h : StoreWF K s) : StoreWF K (storeSet K s v) := by
  induction s with
  | nil => simp [storeSet, StoreWF]
  | cons y ys ih =>
    have hy := List.pairwise_cons.1 h
    unfold storeSet
    split_ifs with h₁ h₂
    · refine List.pairwise_cons.2 ⟨?_, h⟩
      intro b hb
      rcases List.mem_cons.1 hb with rfl | hb
      · exact h₁
      · exact keyLt_trans h₁ (hy.1 b hb)
    · refine List.pairwise_cons.2 ⟨?_, hy.2⟩
      intro b hb
      rw [h₂]
      exact hy.1 b hb
    · refine List.pairwise_cons.2 ⟨?_, ih hy.2⟩
      intro b hb
      rcases storeSet_mem hb with rfl | hb
      · exact keyLt_of_not h₁ h₂
      · exact hy.1 b hb

theorem storeGet_of_mem {s : List α} {x : α} (h : StoreWF K s) (hx : x ∈ s) :
    storeGet K s (K x) = some x := by
  induction s with
  | nil => simp at hx
  | cons y ys ih =>
    have hy := List.pairwise_cons.1 h
    unfold storeGet
    rcases List.mem_cons.1 hx with rfl | hx
    · simp
    · have : K y ≠ K x := keyLt_ne (hy.1 x hx)
      simp [this, ih hy.2 hx]

theorem storeSet_eq_map {s : List α} {v x : α} (h : StoreWF K s)
    (hx : storeGet K s (K v) = some x) :
    storeSet K s v = s.map (fun y => if K y = K v then v else y) := by
  induction s with
  | nil => simp [storeGet] at hx
  | cons y ys ih =>
    have hy := List.pairwise_cons.1 h
    unfold storeGet at hx
    unfold storeSet
    by_cases h₁ : K y = K v
    · have h₂ : ¬ keyLt (K v) (K y) := by rw [h₁]; exact keyLt_irrefl _
      have h₃ : ∀ z ∈ ys, K z ≠ K v := fun z hz => by
        rw [← h₁]; exact (keyLt_ne (hy.1 z hz)).symm
      have h₄ : ys.map (fun y => if K y = K v then v else y) = ys := by
        conv_rhs => rw [← List.map_id ys]
        apply List.map_congr_left
        intro z hz
        simp [h₃ z hz]
      rw [if_neg h₂, if_pos h₁.symm, List.map_cons, if_pos h₁, h₄]
    · simp only [h₁, if_false] at hx
      have hxm := storeGet_mem hx
      have hxk := storeGet_key hx
      have h₂ : ¬ keyLt (K v) (K y) := by
        intro hlt
        have := hy.1 x hxm
        rw [hxk] at this
        exact keyLt_irrefl _ (keyLt_trans hlt this)
      have h₃ : K v ≠ K y := fun h => h₁ h.symm
      rw [if_neg h₂, if_neg h₃, List.map_cons, if_neg h₁, ih hy.2 hx]

end Store

theorem storeSet_storeSet {α : Type} {K : α → String} (s : List α) {v w : α}
    (h : K w = K v) : storeSet K (storeSet K s v) w = storeSet K s w := by
  induction s with
  | nil => simp [storeSet, h, keyLt_irrefl]
  | cons y ys ih =>
    have hirr : ¬ keyLt (K w) (K v) := by rw [h]; exact keyLt_irrefl _
    by_cases h₁ : keyLt (K v) (K y)
    · have h₁w : keyLt (K w) (K y) := by rw [h]; exact h₁
      rw [storeSet, if_pos h₁, storeSet, if_neg hirr, if_pos h, storeSet, if_pos h₁w]
    · have h₁w : ¬ keyLt (K w) (K y) := by rw [h]; exact h₁
      by_cases h₂ : K v = K y
      · have h₂w : K w = K y := h.trans h₂
        rw [storeSet, if_neg h₁, if_pos h₂, storeSet, if_neg hirr, if_pos h, storeSet,
          if_neg h₁w, if_pos h₂w]
      · have h₂w : ¬ K w = K y := by rw [h]; exact h₂
        rw [storeSet, if_neg h₁, if_neg h₂, storeSet, if_neg h₁w, if_neg h₂w, ih, storeSet,
          if_neg h₁w, if_neg h₂w]

/-! ## The node registry -/

theorem GetNode_SetNode_self (ctx : Ctx) (node : Node) :
    GetNode (SetNode ctx node) node.ID = some node :=
  storeGet_storeSet_self ctx.nodes node

theorem GetNode_SetNode_ne (ctx : Ctx) (node : Node) {id : String} (h : id ≠ node.ID) :
    GetNode (SetNode ctx node) id = GetNode ctx id :=
  storeGet_storeSet_ne ctx.nodes node h

theorem RegisterNode_of_present {ctx : Ctx} {msg : MsgRegisterNode}
    (h : GetNode ctx msg.NodeId ≠ none) :
    RegisterNode ctx (some msg) = (.error .nodeExists, ctx) := by
  cases hg : GetNode ctx msg.NodeId with
  | none => exact absurd hg h
  | some n => simp only [RegisterNode, hg]

theorem RegisterNode_of_absent {ctx : Ctx} {msg : MsgRegisterNode}
    (h : GetNode ctx msg.NodeId = none) :
    RegisterNode ctx (some msg) =
      (.ok (), { SetNode ctx (registeredNode ctx.blockTime msg) with
        events := ctx.events ++
          [{ type := "node_registered"
             attributes := [("node_id", msg.NodeId), ("address", msg.Address)] }] }) := by
  simp only [RegisterNode, h]
  rfl

/-- C1: when the node id of the message is already in the node store,
`RegisterNode` returns the error `NodeExists` and the context after the call
is the context before it; hence registering the same message a second time,
from any context, returns `NodeExists` and leaves the state that the first
registration produced. -/
theorem RegisterNode_existing_rejected (ctx : Ctx) (msg : MsgRegisterNode)
    (h : GetNode ctx msg.NodeId ≠ none) :
    RegisterNode ctx (some msg) = (.error .nodeExists, ctx) ∧
    ∀ ctx0 : Ctx,
      RegisterNode (RegisterNode ctx0 (some msg)).2 (some msg) =
        (.error .nodeExists, (RegisterNode ctx0 (some msg)).2) := by
  refine ⟨RegisterNode_of_present h, fun ctx0 => ?_⟩
  apply RegisterNode_of_present
  cases hg : GetNode ctx0 msg.NodeId with
  | some n =>
    rw [RegisterNode_of_present (by rw [hg]; exact Option.some_ne_none n), hg]
    exact Option.some_ne_none n
  | none =>
    rw [RegisterNode_of_absent hg]
    have := GetNode_SetNode_self ctx0 (registeredNode ctx0.blockTime msg)
    change GetNode (SetNode ctx0 (registeredNode ctx0.blockTime msg)) msg.NodeId ≠ none
    change GetNode _ msg.NodeId = _ at this
    rw [this]
    exact Option.some_ne_none _

theorem RegisterNode_existing_rejected_witness :
    GetNode oneNodeCtx "n1" ≠ none ∧
    RegisterNode oneNodeCtx (some ⟨"c", "n1", "a2", 8, 2, 32, 500⟩) =
      (.error .nodeExists, oneNodeCtx) :=
  ⟨by decide,
   (RegisterNode_existing_rejected oneNodeCtx ⟨"c", "n1", "a2", 8, 2, 32, 500⟩ (by decide)).1⟩

/-- C2: when the node id of the message is absent, `RegisterNode` succeeds;
afterwards `GetNode` of that id returns a node with the id and address of the
message, status `online`, reputation 0, uptime 0, `last_heartbeat` and
`registered_at` equal to the block time and no active tasks; the lookup of
every other node id is unchanged, and so are the other stores. -/
theorem RegisterNode_fresh (ctx : Ctx) (msg : MsgRegisterNode)
    (h : GetNode ctx msg.NodeId = none) :
    (RegisterNode ctx (some msg)).1 = .ok () ∧
    (∃ node, GetNode (RegisterNode ctx (some msg)).2 msg.NodeId = some node ∧
      node.ID = msg.NodeId ∧ node.Address = msg.Address ∧ node.Status = "online" ∧
      node.Reputation = 0 ∧ node.UptimePercent = 0 ∧
      node.LastHeartbeat = ctx.blockTime ∧ node.RegisteredAt = ctx.blockTime ∧
      node.ActiveTasks = []) ∧
    (∀ id, id ≠ msg.NodeId → GetNode (RegisterNode ctx (some msg)).2 id = GetNode ctx id) ∧
    (RegisterNode ctx (some msg)).2.tasks = ctx.tasks ∧
    (RegisterNode ctx (some msg)).2.jobs = ctx.jobs ∧
    (RegisterNode ctx (some msg)).2.shards = ctx.shards := by
  rw [RegisterNode_of_absent h]
  refine ⟨rfl, ⟨registeredNode ctx.blockTime msg, ?_, rfl, rfl, rfl, rfl, rfl, rfl, rfl, rfl⟩,
    fun id hid => ?_, rfl, rfl, rfl⟩
  · exact GetNode_SetNode_self ctx (registeredNode ctx.blockTime msg)
  · exact GetNode_SetNode_ne ctx (registeredNode ctx.blockTime msg) hid

theorem RegisterNode_fresh_witness :
    GetNode oneNodeCtx "n2" = none ∧
    (RegisterNode oneNodeCtx (some ⟨"c", "n2", "a2", 8, 2, 32, 500⟩)).1 = .ok () :=
  ⟨by decide, (RegisterNode_fresh oneNodeCtx ⟨"c", "n2", "a2", 8, 2, 32, 500⟩ (by decide)).1⟩

/-! ## Rollback of the tasks of a node -/

theorem iterate_rollbackHandler (nodeID : String) (ts : List Task) (acc : List String) :
    iterate (rollbackHandler nodeID) ts acc =
      acc ++ (ts.filter (fun t => boundTo nodeID t)).map Task.ID := by
  induction ts generalizing acc with
  | nil => simp [iterate]
  | cons t ts ih =>
    by_cases hc : boundTo nodeID t
    · have : rollbackHandler nodeID acc t = (acc ++ [t.ID], false) := by
        unfold rollbackHandler; exact if_pos hc
      simp [iterate, this, ih, hc]
    · have : rollbackHandler nodeID acc t = (acc, false) := by
        unfold rollbackHandler; exact if_neg hc
      simp [iterate, this, ih, hc]

theorem map_eq_self_of_forall {α : Type} (f : α → α) (l : List α) (h : ∀ x ∈ l, f x = x) :
    l.map f = l := by
  conv_rhs => rw [← List.map_id l]
  exact List.map_congr_left h

theorem storeWF_map {α : Type} {K : α → String} {s : List α} (f : α → α)
    (hf : ∀ x, K (f x) = K x) (h : StoreWF K s) : StoreWF K (s.map f) := by
  unfold StoreWF
  rw [List.pairwise_map]
  simpa [hf] using h

theorem rollbackTask_eq {ctx : Ctx} (taskID : String) (h : StoreWF Task.ID ctx.tasks) :
    rollbackTask ctx taskID =
      { ctx with tasks := ctx.tasks.map (fun y => if y.ID = taskID then rolledBack y else y) } := by
  unfold rollbackTask
  cases hg : GetTask ctx taskID with
  | none =>
    have hn := (storeGet_eq_none (K := Task.ID)).1 hg
    have : ctx.tasks.map (fun y => if y.ID = taskID then rolledBack y else y) = ctx.tasks :=
      map_eq_self_of_forall _ _ (fun x hx => by simp [hn x hx])
    simp [this]
  | some t =>
    have hk : t.ID = taskID := storeGet_key hg
    have hset : storeSet Task.ID
          (storeSet Task.ID ctx.tasks { t with Status := TaskStatus_ROLLBACK, NodeID := "" })
          (rolledBack t) = storeSet Task.ID ctx.tasks (rolledBack t) :=
      storeSet_storeSet ctx.tasks rfl
    have hmap := storeSet_eq_map (K := Task.ID) (v := rolledBack t) h
      (by change storeGet Task.ID ctx.tasks t.ID = some t; rw [hk]; exact hg)
    have hcongr : ctx.tasks.map (fun y => if y.ID = (rolledBack t).ID then rolledBack t else y) =
        ctx.tasks.map (fun y => if y.ID = taskID then rolledBack y else y) := by
      apply List.map_congr_left
      intro y hy
      change (if y.ID = t.ID then rolledBack t else y) = _
      rw [hk]
      by_cases hy2 : y.ID = taskID
      · have h1 := storeGet_of_mem h hy
        rw [hy2] at h1
        have : y = t := Option.some.inj (h1.symm.trans hg)
        simp [hy2, this]
      · simp [hy2]
    simp only [SetTask]
    change { ctx with tasks := storeSet Task.ID
                                (storeSet Task.ID ctx.tasks
                                  { t with Status := TaskStatus_ROLLBACK, NodeID := "" })
                                (rolledBack t) } = _
    rw [hset, hmap, hcongr]

theorem foldl_rollbackTask (ids : List String) (ctx : Ctx) (h : StoreWF Task.ID ctx.tasks) :
    ids.foldl rollbackTask ctx =
      { ctx with tasks := ctx.tasks.map (fun y => if y.ID ∈ ids then rolledBack y else y) } := by
  induction ids generalizing ctx with
  | nil => simp
  | cons id ids ih =>
    rw [List.foldl_cons, rollbackTask_eq id h]
    have hwf : StoreWF Task.ID
        (ctx.tasks.map (fun y => if y.ID = id then rolledBack y else y)) :=
      storeWF_map _ (fun x => by by_cases hx : x.ID = id <;> simp [hx, rolledBack]) h
    rw [ih _ hwf]
    simp only [List.map_map]
    congr 1
    apply List.map_congr_left
    intro y _
    by_cases hy : y.ID = id
    · by_cases hy2 : id ∈ ids <;> simp [hy, hy2, rolledBack]
    · by_cases hy2 : y.ID ∈ ids <;> simp [hy, hy2]

/-- The closed form of `RollbackTasksForNode` on a store in ascending key order: no
error, and every task the first loop selects is rolled back in place. -/
theorem RollbackTasksForNode_eq (ctx : Ctx) (nodeID : String) (h : StoreWF Task.ID ctx.tasks) :
    RollbackTasksForNode ctx nodeID =
      (none,
        { ctx with tasks := ctx.tasks.map (fun y => if boundTo nodeID y then rolledBack y else y) }) := by
  unfold RollbackTasksForNode IterateTasks
  rw [iterate_rollbackHandler]
  show (none, List.foldl rollbackTask ctx _) = _
  rw [foldl_rollbackTask _ _ h]
  congr 2
  apply List.map_congr_left
  intro y hy
  by_cases hb : boundTo nodeID y
  · have : y.ID ∈ [] ++ (ctx.tasks.filter (fun t => boundTo nodeID t)).map Task.ID := by
      simp only [List.nil_append, List.mem_map, List.mem_filter]
      exact ⟨y, ⟨hy, by simpa using hb⟩, rfl⟩
    rw [if_pos this, if_pos hb]
  · have : ¬ y.ID ∈ [] ++ (ctx.tasks.filter (fun t => boundTo nodeID t)).map Task.ID := by
      simp only [List.nil_append, List.mem_map, List.mem_filter]
      rintro ⟨z, ⟨hz, hzb⟩, hzy⟩
      have h1 := storeGet_of_mem h hz
      have h2 := storeGet_of_mem h hy
      rw [hzy, h2] at h1
      have : y = z := Option.some.inj h1
      subst this
      exact hb (by simpa using hzb)
    rw [if_neg this, if_neg hb]

theorem storeGet_map {α : Type} {K : α → String} (f : α → α) (hf : ∀ x, K (f x) = K x)
    (s : List α) (k : String) : storeGet K (s.map f) k = (storeGet K s k).map f := by
  induction s with
  | nil => simp [storeGet]
  | cons y ys ih =>
    simp only [List.map_cons, storeGet, hf]
    by_cases hy : K y = k <;> simp [hy, ih]

/-- C3: on a task store in ascending key order, `RollbackTasksForNode(n)` returns no
error; a task stored with `node_id = n` and status `assigned` or `in_progress`
is afterwards stored under the same id with status `pending` and an empty
`node_id` (its other fields kept); every other task, on another node or on `n`
in another status, is stored unchanged; no task id appears or disappears, and
the other stores are untouched. -/
theorem RollbackTasksForNode_spec (ctx : Ctx) (n : String) (h : StoreWF Task.ID ctx.tasks) :
    (RollbackTasksForNode ctx n).1 = none ∧
    (∀ id t, GetTask ctx id = some t →
      ((t.NodeID = n ∧ (t.Status = TaskStatusAssigned ∨ t.Status = TaskStatusInProgress)) →
        GetTask (RollbackTasksForNode ctx n).2 id =
          some { t with Status := TaskStatusPending, NodeID := "" }) ∧
      (¬ (t.NodeID = n ∧ (t.Status = TaskStatusAssigned ∨ t.Status = TaskStatusInProgress)) →
        GetTask (RollbackTasksForNode ctx n).2 id = some t)) ∧
    (∀ id, GetTask ctx id = none → GetTask (RollbackTasksForNode ctx n).2 id = none) ∧
    (RollbackTasksForNode ctx n).2.nodes = ctx.nodes ∧
    (RollbackTasksForNode ctx n).2.jobs = ctx.jobs ∧
    (RollbackTasksForNode ctx n).2.shards = ctx.shards := by
  rw [RollbackTasksForNode_eq ctx n h]
  have hf : ∀ x : Task, (if boundTo n x then rolledBack x else x).ID = x.ID := fun x => by
    by_cases hx : boundTo n x <;> simp [hx, rolledBack]
  have hget : ∀ id,
      GetTask { ctx with tasks := ctx.tasks.map (fun y => if boundTo n y then rolledBack y else y) }
          id =
        (GetTask ctx id).map (fun y => if boundTo n y then rolledBack y else y) :=
    fun id => storeGet_map _ hf ctx.tasks id
  refine ⟨rfl, fun id t ht => ⟨fun hb => ?_, fun hb => ?_⟩, fun id hid => ?_, rfl, rfl, rfl⟩
  · have hb2 : boundTo n t := ⟨hb.1, hb.2.symm⟩
    simp only [hget, ht, Option.map_some', if_pos hb2]
    rfl
  · have hb2 : ¬ boundTo n t := fun hc => hb ⟨hc.1, hc.2.symm⟩
    simp only [hget, ht, Option.map_some', if_neg hb2]
  · simp only [hget, hid, Option.map_none']

theorem RollbackTasksForNode_spec_witness :
    StoreWF Task.ID rollbackTestCtx.tasks ∧
    (RollbackTasksForNode rollbackTestCtx "node-1").1 = none :=
  ⟨by decide, (RollbackTasksForNode_spec rollbackTestCtx "node-1" (by decide)).1⟩

/-! ## Handling an offline node -/

/-- C4: on the state of the test `TestHandleNodeOffline` (nodes `node-1` and
`node-2` online with a fresh heartbeat, `task-1` in progress on `node-1`,
`task-2` pending), `HandleNodeOffline("node-1")` returns no error and leaves
`task-1` with status `assigned` and `node_id = "node-1"`: the task that was
bound to the offline node is not pending with an empty `node_id`. -/
theorem HandleNodeOffline_test_state :
    (HandleNodeOffline offlineTestCtx "node-1").1 = none ∧
    GetTask offlineTestCtx "task-1" =
      some { ID := "task-1", JobID := "job-1", ShardID := "shard-1", NodeID := "node-1",
             Status := "in_progress", CreatedAt := 1000, UpdatedAt := 1000,
             Progress := mkRat 1 2, CheckpointCID := "" } ∧
    GetTask (HandleNodeOffline offlineTestCtx "node-1").2 "task-1" =
      some { ID := "task-1", JobID := "job-1", ShardID := "shard-1", NodeID := "node-1",
             Status := "assigned", CreatedAt := 1000, UpdatedAt := 1000,
             Progress := mkRat 1 2, CheckpointCID := "" } ∧
    (HandleNodeOffline offlineTestCtx "node-1").2.nodes = offlineTestCtx.nodes := by
  decide

/-! ## The task state machine -/

theorem updatedTask_Status (now : Time) (task : Task) (msg : MsgUpdateTaskStatus) :
    (updatedTask now task msg).Status = msg.Status := by
  unfold updatedTask
  by_cases h₁ : msg.Progress ≥ 0 <;> by_cases h₂ : msg.CheckpointCid ≠ "" <;> simp [h₁, h₂]

theorem updatedTask_ID (now : Time) (task : Task) (msg : MsgUpdateTaskStatus) :
    (updatedTask now task msg).ID = task.ID := by
  unfold updatedTask
  by_cases h₁ : msg.Progress ≥ 0 <;> by_cases h₂ : msg.CheckpointCid ≠ "" <;> simp [h₁, h₂]

theorem updatedTask_NodeID (now : Time) (task : Task) (msg : MsgUpdateTaskStatus) :
    (updatedTask now task msg).NodeID = task.NodeID := by
  unfold updatedTask
  by_cases h₁ : msg.Progress ≥ 0 <;> by_cases h₂ : msg.CheckpointCid ≠ "" <;> simp [h₁, h₂]

theorem UpdateTaskStatus_of_present {ctx : Ctx} {msg : MsgUpdateTaskStatus} {task : Task}
    (h : GetTask ctx msg.TaskId = some task) :
    UpdateTaskStatus ctx (some msg) =
      (.ok (), { SetTask ctx (updatedTask ctx.blockTime task msg) with
        events := ctx.events ++
          [{ type := "task_status_updated"
             attributes := [("task_id", msg.TaskId), ("status", msg.Status)] }] }) := by
  simp only [UpdateTaskStatus, h]
  rfl

theorem UpdateTaskStatus_of_absent {ctx : Ctx} {msg : MsgUpdateTaskStatus}
    (h : GetTask ctx msg.TaskId = none) :
    UpdateTaskStatus ctx (some msg) = (.error .taskNotFound, ctx) := by
  simp only [UpdateTaskStatus, h]

/-- C5, counterexample: the update of the test `TestUpdateTaskStatus` takes a
task from `pending` to `in_progress`, a pair that is not among the listed
transitions, and the handler accepts it and stores the new status; it also
accepts `pending` to `completed`. -/
theorem UpdateTaskStatus_unlisted_transition_accepted :
    ¬ specAllowedTransition "pending" "in_progress" ∧
    (GetTask updateTestCtx "task-1").map Task.Status = some "pending" ∧
    (UpdateTaskStatus updateTestCtx (some updateTestMsg)).1 = .ok () ∧
    (GetTask (UpdateTaskStatus updateTestCtx (some updateTestMsg)).2 "task-1").map Task.Status =
      some "in_progress" ∧
    ¬ specAllowedTransition "pending" "completed" ∧
    (UpdateTaskStatus updateTestCtx (some { updateTestMsg with Status := "completed" })).1 =
      .ok () ∧
    (GetTask (UpdateTaskStatus updateTestCtx
        (some { updateTestMsg with Status := "completed" })).2 "task-1").map Task.Status =
      some "completed" := by
  decide

/-- C5, amended: for every stored task and every requested status, whatever
the old status, `UpdateTaskStatus` succeeds and the task is afterwards stored
with the requested status; the lookup of every other task id is unchanged.
The handler returns an error, with the state unchanged, exactly when the task
id is absent (or the message is nil). -/
theorem UpdateTaskStatus_sets_any_status (ctx : Ctx) (msg : MsgUpdateTaskStatus) (task : Task)
    (h : GetTask ctx msg.TaskId = some task) :
    (UpdateTaskStatus ctx (some msg)).1 = .ok () ∧
    (∃ t, GetTask (UpdateTaskStatus ctx (some msg)).2 msg.TaskId = some t ∧
      t.Status = msg.Status ∧ t.ID = task.ID ∧ t.NodeID = task.NodeID) ∧
    (∀ id, id ≠ msg.TaskId →
      GetTask (UpdateTaskStatus ctx (some msg)).2 id = GetTask ctx id) ∧
    (∀ (c : Ctx) (m : MsgUpdateTaskStatus),
      (UpdateTaskStatus c (some m)).1 ≠ .ok () ↔ GetTask c m.TaskId = none) ∧
    (∀ (c : Ctx) (m : MsgUpdateTaskStatus),
      (UpdateTaskStatus c (some m)).1 ≠ .ok () → (UpdateTaskStatus c (some m)).2 = c) ∧
    (∀ c : Ctx, UpdateTaskStatus c none = (.error .invalidMessage, c)) := by
  have hid : (updatedTask ctx.blockTime task msg).ID = msg.TaskId :=
    (updatedTask_ID _ _ _).trans (storeGet_key h)
  refine ⟨?_, ?_, ?_, ?_, ?_, fun c => rfl⟩
  · rw [UpdateTaskStatus_of_present h]
  · rw [UpdateTaskStatus_of_present h]
    refine ⟨updatedTask ctx.blockTime task msg, ?_, updatedTask_Status _ _ _,
      updatedTask_ID _ _ _, updatedTask_NodeID _ _ _⟩
    have := storeGet_storeSet_self (K := Task.ID) ctx.tasks (updatedTask ctx.blockTime task msg)
    rw [hid] at this
    exact this
  · intro id hne
    rw [UpdateTaskStatus_of_present h]
    exact storeGet_storeSet_ne (K := Task.ID) ctx.tasks _ (by rw [hid]; exact hne)
  · intro c m
    cases hg : GetTask c m.TaskId with
    | none => simp [UpdateTaskStatus_of_absent hg]
    | some t => simp [UpdateTaskStatus_of_present hg]
  · intro c m
    cases hg : GetTask c m.TaskId with
    | none => simp [UpdateTaskStatus_of_absent hg]
    | some t => simp [UpdateTaskStatus_of_present hg]

theorem UpdateTaskStatus_sets_any_status_witness :
    GetTask updateTestCtx updateTestMsg.TaskId = some updateTestTask ∧
    (UpdateTaskStatus updateTestCtx (some updateTestMsg)).1 = .ok () :=
  ⟨by decide,
   (UpdateTaskStatus_sets_any_status updateTestCtx updateTestMsg updateTestTask (by decide)).1⟩

/-! ## The task invariants INV-1 and INV-2 -/

theorem INV_iff_taskOK (ctx : Ctx) : (INV1 ctx ∧ INV2 ctx) ↔ ∀ t ∈ ctx.tasks, taskOK t := by
  unfold INV1 INV2 taskOK
  constructor
  · rintro ⟨h₁, h₂⟩ t ht
    exact ⟨h₁ t ht, h₂ t ht⟩
  · intro h
    exact ⟨fun t ht => (h t ht).1, fun t ht => (h t ht).2⟩

theorem taskOK_of_unbound {t : Task} (hn : t.NodeID = "")
    (hs : t.Status = TaskStatusPending ∨ t.Status = TaskStatusRollback) : taskOK t := by
  refine ⟨fun h => ?_, fun _ => hn⟩
  exfalso
  rcases hs with hs | hs <;> rw [hs] at h <;> revert h <;> decide

theorem taskOK_of_assigned {t : Task} (hn : t.NodeID ≠ "") (hs : t.Status = TaskStatusAssigned) :
    taskOK t := by
  refine ⟨fun _ => hn, fun h => ?_⟩
  exfalso
  rw [hs] at h
  revert h
  decide

theorem SetTask_taskOK {ctx : Ctx} {v : Task} (h : ∀ t ∈ ctx.tasks, taskOK t) (hv : taskOK v) :
    ∀ t ∈ (SetTask ctx v).tasks, taskOK t := by
  intro t ht
  rcases storeSet_mem (K := Task.ID) ht with rfl | ht
  · exact hv
  · exact h t ht

theorem rollbackTask_taskOK {ctx : Ctx} (taskID : String) (h : ∀ t ∈ ctx.tasks, taskOK t) :
    ∀ t ∈ (rollbackTask ctx taskID).tasks, taskOK t := by
  unfold rollbackTask
  cases hg : GetTask ctx taskID with
  | none => exact h
  | some task =>
    exact SetTask_taskOK
      (SetTask_taskOK h (taskOK_of_unbound rfl (Or.inr rfl)))
      (taskOK_of_unbound rfl (Or.inl rfl))

theorem rollbackTask_frame (ctx : Ctx) (taskID : String) :
    (rollbackTask ctx taskID).nodes = ctx.nodes := by
  unfold rollbackTask
  cases hg : GetTask ctx taskID <;> rfl

theorem foldl_rollbackTask_taskOK (ids : List String) {ctx : Ctx}
    (h : ∀ t ∈ ctx.tasks, taskOK t) :
    (∀ t ∈ (ids.foldl rollbackTask ctx).tasks, taskOK t) ∧
      (ids.foldl rollbackTask ctx).nodes = ctx.nodes := by
  induction ids generalizing ctx with
  | nil => exact ⟨h, rfl⟩
  | cons id ids ih =>
    rw [List.foldl_cons]
    have := ih (rollbackTask_taskOK id h)
    exact ⟨this.1, this.2.trans (rollbackTask_frame ctx id)⟩

theorem RollbackTasksForNode_taskOK {ctx : Ctx} (nodeID : String)
    (h : ∀ t ∈ ctx.tasks, taskOK t) :
    (∀ t ∈ (RollbackTasksForNode ctx nodeID).2.tasks, taskOK t) ∧
      (RollbackTasksForNode ctx nodeID).2.nodes = ctx.nodes ∧
      (RollbackTasksForNode ctx nodeID).1 = none :=
  ⟨(foldl_rollbackTask_taskOK _ h).1, (foldl_rollbackTask_taskOK _ h).2, rfl⟩

theorem ReassignTask_taskOK {ctx : Ctx} (taskID newNodeID : String)
    (h : ∀ t ∈ ctx.tasks, taskOK t) (hn : newNodeID ≠ "" ∨ nodeIDsNonEmpty ctx) :
    (∀ t ∈ (ReassignTask ctx taskID newNodeID).2.tasks, taskOK t) ∧
      (ReassignTask ctx taskID newNodeID).2.nodes = ctx.nodes := by
  unfold ReassignTask
  cases hg : GetTask ctx taskID with
  | none => exact ⟨h, rfl⟩
  | some task =>
    cases hgn : GetNode ctx newNodeID with
    | none => exact ⟨h, rfl⟩
    | some node =>
      dsimp only
      by_cases hs : node.Status ≠ "online"
      · rw [if_pos hs]
        exact ⟨h, rfl⟩
      · rw [if_neg hs]
        refine ⟨SetTask_taskOK h (taskOK_of_assigned ?_ rfl), rfl⟩
        rcases hn with hn | hn
        · exact hn
        · have := hn node (storeGet_mem hgn)
          rw [storeGet_key hgn] at this
          exact this

theorem CheckNodeHealth_frame (ctx : Ctx) (nodeID : String) :
    (CheckNodeHealth ctx nodeID).2.tasks = ctx.tasks ∧
      (nodeIDsNonEmpty ctx → nodeIDsNonEmpty (CheckNodeHealth ctx nodeID).2) := by
  unfold CheckNodeHealth
  cases hg : GetNode ctx nodeID with
  | none => exact ⟨rfl, id⟩
  | some node =>
    dsimp only
    by_cases ht : ctx.blockTime - node.LastHeartbeat > HeartbeatTimeout
    · rw [if_pos ht]
      refine ⟨rfl, fun hne x hx => ?_⟩
      rcases storeSet_mem (K := Node.ID) hx with rfl | hx
      · exact hne node (storeGet_mem hg)
      · exact hne x hx
    · rw [if_neg ht]
      exact ⟨rfl, id⟩

theorem availableHandler_frame (acc : List String × Ctx) (node : Node) :
    (availableHandler acc node).2 = false ∧
      (availableHandler acc node).1.2.tasks = acc.2.tasks ∧
      (nodeIDsNonEmpty acc.2 → nodeIDsNonEmpty (availableHandler acc node).1.2) := by
  unfold availableHandler
  by_cases hs : node.Status = "online"
  · rw [if_pos hs]
    have hc := CheckNodeHealth_frame acc.2 node.ID
    rcases hres : CheckNodeHealth acc.2 node.ID with ⟨⟨isHealthy, err⟩, ctx1⟩
    rw [hres] at hc
    dsimp only
    by_cases hh : err = none ∧ isHealthy = true
    · rw [if_pos hh]
      exact ⟨rfl, hc.1, hc.2⟩
    · rw [if_neg hh]
      exact ⟨rfl, hc.1, hc.2⟩
  · rw [if_neg hs]
    exact ⟨rfl, rfl, id⟩

theorem iterate_availableHandler_frame (nodes : List Node) (acc : List String × Ctx) :
    (iterate availableHandler nodes acc).2.tasks = acc.2.tasks ∧
      (nodeIDsNonEmpty acc.2 → nodeIDsNonEmpty (iterate availableHandler nodes acc).2) := by
  induction nodes generalizing acc with
  | nil => exact ⟨rfl, id⟩
  | cons n ns ih =>
    have hf := availableHandler_frame acc n
    rcases hres : availableHandler acc n with ⟨acc1, stop⟩
    rw [hres] at hf
    have hstop : stop = false := hf.1
    subst hstop
    simp only [iterate, hres]
    have := ih acc1
    exact ⟨this.1.trans hf.2.1, fun h => this.2 (hf.2.2 h)⟩

theorem reassignLoop_taskOK (availableNodes : List String) (i : Nat) (ids : List String)
    {ctx : Ctx} (h : ∀ t ∈ ctx.tasks, taskOK t) (hn : nodeIDsNonEmpty ctx) :
    ∀ t ∈ (reassignLoop availableNodes i ids ctx).tasks, taskOK t := by
  induction ids generalizing ctx i with
  | nil => exact h
  | cons id ids ih =>
    unfold reassignLoop
    have hr := @ReassignTask_taskOK ctx id
      (availableNodes.getD (i % availableNodes.length) "") h (Or.inr hn)
    refine ih (i + 1) hr.1 ?_
    unfold nodeIDsNonEmpty
    rw [hr.2]
    exact hn

theorem HandleNodeOffline_taskOK {ctx : Ctx} (nodeID : String)
    (h : ∀ t ∈ ctx.tasks, taskOK t) (hn : nodeIDsNonEmpty ctx) :
    ∀ t ∈ (HandleNodeOffline ctx nodeID).2.tasks, taskOK t := by
  have hr := RollbackTasksForNode_taskOK nodeID h
  unfold HandleNodeOffline
  rcases hres : RollbackTasksForNode ctx nodeID with ⟨err, ctx1⟩
  rw [hres] at hr
  have herr : err = none := hr.2.2
  subst herr
  have hn1 : nodeIDsNonEmpty ctx1 := by
    unfold nodeIDsNonEmpty
    rw [hr.2.1]
    exact hn
  have hit := iterate_availableHandler_frame ctx1.nodes ([], ctx1)
  simp only [IterateNodes]
  rcases hav : iterate availableHandler ctx1.nodes ([], ctx1) with ⟨availableNodes, ctx2⟩
  rw [hav] at hit
  have h2 : ∀ t ∈ ctx2.tasks, taskOK t := by
    have : ctx2.tasks = ctx1.tasks := hit.1
    rw [this]
    exact hr.1
  have hn2 : nodeIDsNonEmpty ctx2 := hit.2 hn1
  by_cases hl : availableNodes.length > 0
  · rw [if_pos hl]
    exact reassignLoop_taskOK _ _ _ h2 hn2
  · rw [if_neg hl]
    exact h2

theorem CreateTask_tasks_mem (ctx : Ctx) (msg : MsgCreateTask) :
    ∀ t ∈ (CreateTask ctx (some msg)).2.tasks,
      t ∈ ctx.tasks ∨ (t.Status = TaskStatusPending ∧ t.NodeID = msg.NodeId) := by
  intro t ht
  cases hg : GetJob ctx msg.JobId with
  | none =>
    simp only [CreateTask, hg] at ht
    exact Or.inl ht
  | some job =>
    simp only [CreateTask, hg] at ht
    have hmem : t ∈ storeSet Task.ID ctx.tasks
        { ID := "task-" ++ toString ctx.blockTime, JobID := msg.JobId, ShardID := msg.ShardId,
          NodeID := msg.NodeId, Status := TaskStatusPending, CreatedAt := ctx.blockTime,
          UpdatedAt := ctx.blockTime, Progress := 0, CheckpointCID := "" } := by
      split at ht <;> exact ht
    rcases storeSet_mem (K := Task.ID) hmem with rfl | hmem
    · exact Or.inr ⟨rfl, rfl⟩
    · exact Or.inl hmem

theorem UpdateTaskStatus_tasks_mem (ctx : Ctx) (msg : MsgUpdateTaskStatus) :
    ∀ t ∈ (UpdateTaskStatus ctx (some msg)).2.tasks,
      t ∈ ctx.tasks ∨
        ∃ old, GetTask ctx msg.TaskId = some old ∧ t.Status = msg.Status ∧
          t.NodeID = old.NodeID := by
  intro t ht
  cases hg : GetTask ctx msg.TaskId with
  | none =>
    rw [UpdateTaskStatus_of_absent hg] at ht
    exact Or.inl ht
  | some old =>
    rw [UpdateTaskStatus_of_present hg] at ht
    rcases storeSet_mem (K := Task.ID) ht with rfl | ht
    · exact Or.inr ⟨old, rfl, updatedTask_Status _ _ _, updatedTask_NodeID _ _ _⟩
    · exact Or.inl ht

/-- C6, counterexample: from a state satisfying INV-1 and INV-2, `CreateTask`
with the message of the test `TestCreateTask` (node id `node-1`) stores a
pending task bound to a node, so INV-2 fails afterwards; and
`UpdateTaskStatus` setting the unbound pending task to `assigned` succeeds, so
INV-1 fails afterwards. -/
theorem task_invariants_not_preserved :
    INV1 invTestCtx ∧ INV2 invTestCtx ∧
    (CreateTask invTestCtx (some ⟨"cosmos1abc123", "job-1", "shard-1", "node-1"⟩)).1 =
      .ok "task-2000" ∧
    ¬ INV2 (CreateTask invTestCtx (some ⟨"cosmos1abc123", "job-1", "shard-1", "node-1"⟩)).2 ∧
    (UpdateTaskStatus invTestCtx (some ⟨"cosmos1abc123", "task-1", "assigned", 0, ""⟩)).1 =
      .ok () ∧
    ¬ INV1 (UpdateTaskStatus invTestCtx (some ⟨"cosmos1abc123", "task-1", "assigned", 0, ""⟩)).2 := by
  decide

/-- C6, amended: from a store satisfying INV-1 and INV-2, the store after
`RollbackTasksForNode` with any argument satisfies both; so does the store
after `ReassignTask` when the new node id is non-empty, after
`HandleNodeOffline` when no stored node has an empty id, after `CreateTask`
when the node id of the message is empty, and after `UpdateTaskStatus` when
the requested status together with the node id of the stored task satisfies
the two conditions. -/
theorem task_invariants_preserved (ctx : Ctx) (h₁ : INV1 ctx) (h₂ : INV2 ctx) :
    (∀ n, INV1 (RollbackTasksForNode ctx n).2 ∧ INV2 (RollbackTasksForNode ctx n).2) ∧
    (∀ id n, n ≠ "" → INV1 (ReassignTask ctx id n).2 ∧ INV2 (ReassignTask ctx id n).2) ∧
    (∀ n, nodeIDsNonEmpty ctx →
      INV1 (HandleNodeOffline ctx n).2 ∧ INV2 (HandleNodeOffline ctx n).2) ∧
    (∀ msg : MsgCreateTask, msg.NodeId = "" →
      INV1 (CreateTask ctx (some msg)).2 ∧ INV2 (CreateTask ctx (some msg)).2) ∧
    (∀ (msg : MsgUpdateTaskStatus) (t : Task), GetTask ctx msg.TaskId = some t →
      taskOK { t with Status := msg.Status } →
      INV1 (UpdateTaskStatus ctx (some msg)).2 ∧ INV2 (UpdateTaskStatus ctx (some msg)).2) := by
  have h := (INV_iff_taskOK ctx).1 ⟨h₁, h₂⟩
  refine ⟨fun n => ?_, fun id n hn => ?_, fun n hn => ?_, fun msg hm => ?_, fun msg t hg hok => ?_⟩
  · exact (INV_iff_taskOK _).2 (RollbackTasksForNode_taskOK n h).1
  · exact (INV_iff_taskOK _).2 (ReassignTask_taskOK id n h (Or.inl hn)).1
  · exact (INV_iff_taskOK _).2 (HandleNodeOffline_taskOK n h hn)
  · refine (INV_iff_taskOK _).2 (fun t ht => ?_)
    rcases CreateTask_tasks_mem ctx msg t ht with ht | ⟨hs, hnode⟩
    · exact h t ht
    · exact taskOK_of_unbound (hnode.trans hm) (Or.inl hs)
  · refine (INV_iff_taskOK _).2 (fun x hx => ?_)
    rcases UpdateTaskStatus_tasks_mem ctx msg x hx with hx | ⟨old, hold, hs, hnode⟩
    · exact h x hx
    · have : old = t := Option.some.inj (hold.symm.trans hg)
      subst this
      unfold taskOK at hok ⊢
      rw [hs, hnode]
      exact hok

theorem task_invariants_preserved_witness :
    INV1 invTestCtx ∧ INV2 invTestCtx ∧
    INV1 (RollbackTasksForNode invTestCtx "node-1").2 ∧
    INV2 (RollbackTasksForNode invTestCtx "node-1").2 :=
  ⟨by decide, by decide,
   (task_invariants_preserved invTestCtx (by decide) (by decide)).1 "node-1"⟩

/-! ## The shard registry and the assignment validator -/

theorem AssignShardToNode_of_absent {ctx : Ctx} {shardID : String} (nodeID : String)
    (h : GetShard ctx shardID = none) :
    AssignShardToNode ctx shardID nodeID = (some .shardNotFound, ctx) := by
  simp only [AssignShardToNode, h]

theorem AssignShardToNode_of_elsewhere {ctx : Ctx} {shardID nodeID : String} {shard : Shard}
    (h : GetShard ctx shardID = some shard) (hb : shard.NodeID ≠ "" ∧ shard.NodeID ≠ nodeID) :
    AssignShardToNode ctx shardID nodeID = (some .shardAlreadyAssigned, ctx) := by
  simp only [AssignShardToNode, h]
  rw [if_pos hb]

theorem AssignShardToNode_of_free {ctx : Ctx} {shardID nodeID : String} {shard : Shard}
    (h : GetShard ctx shardID = some shard) (hb : ¬ (shard.NodeID ≠ "" ∧ shard.NodeID ≠ nodeID)) :
    AssignShardToNode ctx shardID nodeID =
      (none, { ctx with shards := storeSet Shard.ID ctx.shards (assignedShard shard nodeID) }) := by
  simp only [AssignShardToNode, h]
  rw [if_neg hb]
  rfl

/-- C8: `AssignShardToNode(s, n)` returns an error exactly when shard `s` is
absent or is bound to a non-empty node other than `n`, and then the context is
unchanged; otherwise it returns no error, shard `s` is afterwards stored with
`node_id = n` and status `assigned` and its other fields as before, the lookup
of every other shard id and the other stores are unchanged, and assigning
again to the same node returns no error and leaves that state as it is. -/
theorem AssignShardToNode_spec (ctx : Ctx) (s n : String) :
    ((AssignShardToNode ctx s n).1 ≠ none ↔
      (GetShard ctx s = none ∨
        ∃ sh, GetShard ctx s = some sh ∧ sh.NodeID ≠ "" ∧ sh.NodeID ≠ n)) ∧
    ((AssignShardToNode ctx s n).1 ≠ none → (AssignShardToNode ctx s n).2 = ctx) ∧
    ((AssignShardToNode ctx s n).1 = none →
      ∃ sh, GetShard ctx s = some sh ∧
        GetShard (AssignShardToNode ctx s n).2 s =
          some { ID := sh.ID, JobID := sh.JobID, CID := sh.CID, Hash := sh.Hash, NodeID := n,
                 Status := "assigned", Size := sh.Size } ∧
        (∀ id, id ≠ s → GetShard (AssignShardToNode ctx s n).2 id = GetShard ctx id) ∧
        (AssignShardToNode ctx s n).2.nodes = ctx.nodes ∧
        (AssignShardToNode ctx s n).2.tasks = ctx.tasks ∧
        (AssignShardToNode ctx s n).2.jobs = ctx.jobs ∧
        AssignShardToNode (AssignShardToNode ctx s n).2 s n =
          (none, (AssignShardToNode ctx s n).2)) := by
  cases hg : GetShard ctx s with
  | none =>
    rw [AssignShardToNode_of_absent n hg]
    simp
  | some sh =>
    by_cases hb : sh.NodeID ≠ "" ∧ sh.NodeID ≠ n
    · rw [AssignShardToNode_of_elsewhere hg hb]
      simp [hb]
    · rw [AssignShardToNode_of_free hg hb]
      have hid : sh.ID = s := storeGet_key hg
      have hself :
          GetShard { ctx with shards := storeSet Shard.ID ctx.shards (assignedShard sh n) } s =
            some (assignedShard sh n) := by
        have := storeGet_storeSet_self (K := Shard.ID) ctx.shards (assignedShard sh n)
        rw [← hid]
        exact this
      refine ⟨?_, ?_, ?_⟩
      · constructor
        · intro h; exact absurd rfl h
        · rintro (h | ⟨sh2, h, hb2⟩)
          · cases h
          · cases h; exact absurd hb2 hb
      · intro h; exact absurd rfl h
      · intro _
        refine ⟨sh, rfl, hself, fun id hne => ?_, rfl, rfl, rfl, ?_⟩
        · exact storeGet_storeSet_ne (K := Shard.ID) ctx.shards _ (by rw [← hid] at hne; exact hne)
        · rw [AssignShardToNode_of_free hself (by simp [assignedShard])]
          congr 2
          exact storeSet_storeSet (K := Shard.ID) ctx.shards rfl

theorem duplicateLoop_eq_none (shardID : String) (shard : Shard) (l : List Shard) :
    duplicateLoop shardID shard l = none ↔
      ∀ o ∈ l, o.ID ≠ shardID → ¬ (o.Hash ≠ "" ∧ shard.Hash ≠ "" ∧ o.Hash = shard.Hash) := by
  induction l with
  | nil => simp [duplicateLoop]
  | cons x xs ih =>
    unfold duplicateLoop
    by_cases h₁ : x.ID = shardID
    · rw [if_pos h₁, ih]
      constructor
      · intro h o ho
        rcases List.mem_cons.1 ho with rfl | ho
        · intro hne; exact absurd h₁ hne
        · exact h o ho
      · intro h o ho
        exact h o (List.mem_cons_of_mem _ ho)
    · rw [if_neg h₁]
      by_cases h₂ : x.Hash ≠ "" ∧ shard.Hash ≠ "" ∧ x.Hash = shard.Hash
      · rw [if_pos h₂]
        constructor
        · intro h; cases h
        · intro h; exact absurd h₂ (h x (List.mem_cons_self _ _) h₁)
      · rw [if_neg h₂, ih]
        constructor
        · intro h o ho
          rcases List.mem_cons.1 ho with rfl | ho
          · intro _; exact h₂
          · exact h o ho
        · intro h o ho
          exact h o (List.mem_cons_of_mem _ ho)

theorem ValidateShardAssignment_of_absent {ctx : Ctx} {shardID : String} (nodeID : String)
    (h : GetShard ctx shardID = none) :
    ValidateShardAssignment ctx shardID nodeID = (some .shardNotFound, ctx) := by
  simp only [ValidateShardAssignment, h]

theorem ValidateShardAssignment_of_elsewhere {ctx : Ctx} {shardID nodeID : String}
    {shard : Shard} (h : GetShard ctx shardID = some shard)
    (hb : shard.NodeID ≠ "" ∧ shard.NodeID ≠ nodeID) :
    ValidateShardAssignment ctx shardID nodeID = (some .shardAlreadyAssigned, ctx) := by
  simp only [ValidateShardAssignment, h]
  rw [if_pos hb]

theorem ValidateShardAssignment_of_free {ctx : Ctx} {shardID nodeID : String}
    {shard : Shard} (h : GetShard ctx shardID = some shard)
    (hb : ¬ (shard.NodeID ≠ "" ∧ shard.NodeID ≠ nodeID)) :
    ValidateShardAssignment ctx shardID nodeID =
      (duplicateLoop shardID shard (GetShardsByNode ctx nodeID), ctx) := by
  simp only [ValidateShardAssignment, h]
  rw [if_neg hb]

theorem duplicateLoop_GetShardsByNode (ctx : Ctx) (shardID nodeID : String) (shard : Shard) :
    duplicateLoop shardID shard (GetShardsByNode ctx nodeID) = none ↔
      ∀ o ∈ ctx.shards, o.ID ≠ shardID → o.NodeID = nodeID →
        ¬ (o.Hash ≠ "" ∧ shard.Hash ≠ "" ∧ o.Hash = shard.Hash) := by
  rw [duplicateLoop_eq_none]
  unfold GetShardsByNode
  constructor
  · intro h o ho hne hn
    exact h o (List.mem_filter.2 ⟨ho, by simpa using hn⟩) hne
  · intro hc o ho hne
    have := List.mem_filter.1 ho
    exact hc o this.1 hne (by simpa using this.2)

theorem ValidateShardAssignment_ctx (ctx : Ctx) (shardID nodeID : String) :
    (ValidateShardAssignment ctx shardID nodeID).2 = ctx := by
  cases hg : GetShard ctx shardID with
  | none => rw [ValidateShardAssignment_of_absent nodeID hg]
  | some sh =>
    by_cases hb : sh.NodeID ≠ "" ∧ sh.NodeID ≠ nodeID
    · rw [ValidateShardAssignment_of_elsewhere hg hb]
    · rw [ValidateShardAssignment_of_free hg hb]

theorem ValidateShardAssignment_none_elim {ctx : Ctx} {shardID nodeID : String}
    (h : (ValidateShardAssignment ctx shardID nodeID).1 = none) :
    ∃ sh, GetShard ctx shardID = some sh ∧ ¬ (sh.NodeID ≠ "" ∧ sh.NodeID ≠ nodeID) ∧
      ∀ o ∈ ctx.shards, o.ID ≠ shardID → o.NodeID = nodeID →
        ¬ (o.Hash ≠ "" ∧ sh.Hash ≠ "" ∧ o.Hash = sh.Hash) := by
  cases hg : GetShard ctx shardID with
  | none =>
    rw [ValidateShardAssignment_of_absent nodeID hg] at h
    cases h
  | some sh =>
    by_cases hb : sh.NodeID ≠ "" ∧ sh.NodeID ≠ nodeID
    · rw [ValidateShardAssignment_of_elsewhere hg hb] at h
      cases h
    · rw [ValidateShardAssignment_of_free hg hb] at h
      exact ⟨sh, rfl, hb, (duplicateLoop_GetShardsByNode ctx shardID nodeID sh).1 h⟩

/-- C9: `ValidateShardAssignment(s, n)` returns no error exactly when (a)
shard `s` is stored, (b) its `node_id` is empty or equal to `n`, and (c) no
stored shard with another id whose `node_id` is `n` has a non-empty hash equal
to the non-empty hash of `s`; the context after the call is the context before
it. -/
theorem ValidateShardAssignment_spec (ctx : Ctx) (s n : String) :
    ((ValidateShardAssignment ctx s n).1 = none ↔
      ∃ sh, GetShard ctx s = some sh ∧ (sh.NodeID = "" ∨ sh.NodeID = n) ∧
        ∀ o ∈ ctx.shards, o.ID ≠ s → o.NodeID = n →
          ¬ (o.Hash ≠ "" ∧ sh.Hash ≠ "" ∧ o.Hash = sh.Hash)) ∧
    (ValidateShardAssignment ctx s n).2 = ctx := by
  refine ⟨?_, ValidateShardAssignment_ctx ctx s n⟩
  cases hg : GetShard ctx s with
  | none =>
    rw [ValidateShardAssignment_of_absent n hg]
    simp
  | some sh =>
    by_cases hb : sh.NodeID ≠ "" ∧ sh.NodeID ≠ n
    · rw [ValidateShardAssignment_of_elsewhere hg hb]
      refine ⟨(fun h => absurd h (by simp)), ?_⟩
      rintro ⟨sh2, h, hb2, _⟩
      cases h
      rcases hb2 with hb2 | hb2
      · exact absurd hb2 hb.1
      · exact absurd hb2 hb.2
    · rw [ValidateShardAssignment_of_free hg hb]
      have hb3 : sh.NodeID = "" ∨ sh.NodeID = n := by
        by_cases h1 : sh.NodeID = ""
        · exact Or.inl h1
        · by_cases h2 : sh.NodeID = n
          · exact Or.inr h2
          · exact absurd ⟨h1, h2⟩ hb
      show duplicateLoop s sh (GetShardsByNode ctx n) = none ↔ _
      rw [duplicateLoop_GetShardsByNode]
      constructor
      · intro h
        exact ⟨sh, rfl, hb3, h⟩
      · rintro ⟨sh2, h, _, hc⟩
        cases h
        exact hc

/-! ## Content dedup on a node (INV-5) -/

/-- C7, counterexample: in the state of scenario 4, which satisfies INV-5,
`AssignShardToNode("s2", "n1")` returns no error although `s1`, assigned to
`n1`, carries the same non-empty hash, and INV-5 fails afterwards;
`RegisterShard` of a third shard already bound to `n1` with that hash is
accepted as well and breaks INV-5. -/
theorem AssignShardToNode_duplicate_hash_accepted :
    INV5 dedupCtx ∧
    (AssignShardToNode dedupCtx "s2" "n1").1 = none ∧
    ¬ INV5 (AssignShardToNode dedupCtx "s2" "n1").2 ∧
    (RegisterShard dedupCtx ⟨"s3", "job-1", "QmShard3", "H", "n1", "assigned", 1000⟩).1 = none ∧
    ¬ INV5 (RegisterShard dedupCtx ⟨"s3", "job-1", "QmShard3", "H", "n1", "assigned", 1000⟩).2 := by
  decide

theorem RegisterShard_INV5 {ctx : Ctx} (shard : Shard) (h : INV5 ctx) (hn : shard.NodeID = "") :
    INV5 (RegisterShard ctx shard).2 := by
  unfold RegisterShard
  cases hg : storeGet Shard.ID ctx.shards shard.ID with
  | some _ => exact h
  | none =>
    intro s₁ h₁ s₂ h₂ hid hne hnode hhash
    rcases storeSet_mem (K := Shard.ID) h₁ with rfl | h₁
    · exact absurd hn hne
    · rcases storeSet_mem (K := Shard.ID) h₂ with rfl | h₂
      · exact absurd (hnode.trans hn) hne
      · exact h s₁ h₁ s₂ h₂ hid hne hnode hhash

theorem AssignShardToNode_INV5 {ctx : Ctx} (shardID nodeID : String) (h : INV5 ctx)
    (hv : (ValidateShardAssignment ctx shardID nodeID).1 = none) :
    INV5 (AssignShardToNode ctx shardID nodeID).2 := by
  obtain ⟨sh, hg, hb, hdup⟩ := ValidateShardAssignment_none_elim hv
  rw [AssignShardToNode_of_free hg hb]
  have hid : sh.ID = shardID := storeGet_key hg
  have hclash : ∀ o ∈ ctx.shards, o.ID ≠ shardID → o.NodeID = nodeID →
      o.Hash = sh.Hash → sh.Hash = "" := by
    intro o ho hne hnode hhash
    by_contra hc
    exact hdup o ho hne hnode ⟨by rw [hhash]; exact hc, hc, hhash⟩
  intro s₁ h₁ s₂ h₂ hne hnn hnode hhash
  rcases storeSet_mem (K := Shard.ID) h₁ with rfl | h₁
  · rcases storeSet_mem (K := Shard.ID) h₂ with rfl | h₂
    · exact absurd rfl hne
    · have hne2 : s₂.ID ≠ shardID := fun hc => hne (hid.trans hc.symm)
      exact hclash s₂ h₂ hne2 hnode.symm hhash.symm
  · rcases storeSet_mem (K := Shard.ID) h₂ with rfl | h₂
    · have hne1 : s₁.ID ≠ shardID := fun hc => hne (hc.trans hid.symm)
      have := hclash s₁ h₁ hne1 hnode hhash
      exact hhash.trans this
    · exact h s₁ h₁ s₂ h₂ hne hnn hnode hhash

theorem applyShardOp_INV5 {ctx : Ctx} (op : ShardOp) (h : INV5 ctx) (hv : validatedOp ctx op) :
    INV5 (applyShardOp ctx op) := by
  cases op with
  | register shard => exact RegisterShard_INV5 shard h hv
  | assign shardID nodeID => exact AssignShardToNode_INV5 shardID nodeID h hv

theorem foldl_applyShardOp_INV5 (ops : List ShardOp) : ∀ (ctx : Ctx), INV5 ctx →
    validatedOps ctx ops → INV5 (ops.foldl applyShardOp ctx) := by
  induction ops with
  | nil => intro ctx h _; exact h
  | cons op ops ih =>
    intro ctx h hv
    rw [List.foldl_cons]
    exact ih _ (applyShardOp_INV5 op h hv.1) hv.2

/-- C7, amended: in every state, if another stored shard whose `node_id` is
`n` carries the same non-empty hash as the stored shard `s`, then
`ValidateShardAssignment(s, n)` returns an error and changes nothing
(`AssignShardToNode` itself compares no hashes); from a store satisfying
INV-5, `RegisterShard` of a shard with an empty `node_id` yields a store
satisfying INV-5, and so does `AssignShardToNode(s, n)` made in a state in
which `ValidateShardAssignment(s, n)` returns no error; consequently every
sequence of such calls, each `AssignShardToNode(s, n)` being validated in the
very state it is made in, yields a store satisfying INV-5. -/
theorem INV5_preserved_by_validated_assignment :
    (∀ (ctx : Ctx) (s n : String) (sh o : Shard), GetShard ctx s = some sh → o ∈ ctx.shards →
      o.ID ≠ s → o.NodeID = n → o.Hash = sh.Hash → sh.Hash ≠ "" →
      (ValidateShardAssignment ctx s n).1 ≠ none ∧ (ValidateShardAssignment ctx s n).2 = ctx) ∧
    (∀ (ctx : Ctx) (shard : Shard), INV5 ctx → shard.NodeID = "" →
      INV5 (RegisterShard ctx shard).2) ∧
    (∀ (ctx : Ctx) (s n : String), INV5 ctx → (ValidateShardAssignment ctx s n).1 = none →
      INV5 (AssignShardToNode ctx s n).2) ∧
    (∀ (ctx : Ctx) (ops : List ShardOp), INV5 ctx → validatedOps ctx ops →
      INV5 (ops.foldl applyShardOp ctx)) := by
  refine ⟨?_, fun ctx shard h hn => RegisterShard_INV5 shard h hn,
    fun ctx s n h hv => AssignShardToNode_INV5 s n h hv,
    fun ctx ops h hv => foldl_applyShardOp_INV5 ops ctx h hv⟩
  intro ctx s n sh o hg ho hne hnode hhash hnonempty
  refine ⟨fun hnone => ?_, ValidateShardAssignment_ctx ctx s n⟩
  obtain ⟨sh2, hg2, _, hdup⟩ := ValidateShardAssignment_none_elim hnone
  have : sh2 = sh := Option.some.inj (hg2.symm.trans hg)
  subst this
  exact hdup o ho hne hnode ⟨by rw [hhash]; exact hnonempty, hnonempty, hhash⟩

theorem INV5_preserved_by_validated_assignment_witness :
    (ValidateShardAssignment dedupCtx "s2" "n1").1 ≠ none ∧
    INV5 dedupCtx ∧ validatedOps dedupCtx dedupOps ∧
    (GetShard (dedupOps.foldl applyShardOp dedupCtx) "s3").map Shard.NodeID = some "n1" ∧
    INV5 (dedupOps.foldl applyShardOp dedupCtx) :=
  ⟨(INV5_preserved_by_validated_assignment.1 dedupCtx "s2" "n1"
      ⟨"s2", "job-1", "QmShard2", "H", "", "pending", 1000⟩
      ⟨"s1", "job-1", "QmShard1", "H", "n1", "assigned", 1000⟩
      (by decide) (by decide) (by decide) (by decide) (by decide) (by decide)).1,
   by decide, ⟨by decide, by decide, trivial⟩, by decide,
   INV5_preserved_by_validated_assignment.2.2.2 dedupCtx dedupOps (by decide)
     ⟨by decide, by decide, trivial⟩⟩

/-- Validating two assignments first and making both afterwards is not a
validated sequence: from two unassigned shards of the same hash, both
validations for `n1` return no error in the first state, the second
assignment is no longer valid once the first is made, and making both breaks
INV-5. -/
theorem validate_both_then_assign_both :
    INV5 twoFreeCtx ∧
    (ValidateShardAssignment twoFreeCtx "s2" "n1").1 = none ∧
    (ValidateShardAssignment twoFreeCtx "s3" "n1").1 = none ∧
    (ValidateShardAssignment (AssignShardToNode twoFreeCtx "s2" "n1").2 "s3" "n1").1 =
      some .duplicateShardContent ∧
    ¬ validatedOps twoFreeCtx [.assign "s2" "n1", .assign "s3" "n1"] ∧
    ¬ INV5 ([ShardOp.assign "s2" "n1", .assign "s3" "n1"].foldl applyShardOp twoFreeCtx) := by
  refine ⟨by decide, by decide, by decide, by decide, fun h => ?_, by decide⟩
  exact absurd h.2.1 (by decide)

/-! ## Validation of a task assignment -/

theorem CheckNodeHealth_of_absent {ctx : Ctx} {nodeID : String} (h : GetNode ctx nodeID = none) :
    CheckNodeHealth ctx nodeID = ((false, some .nodeNotFound), ctx) := by
  simp only [CheckNodeHealth, h]

theorem CheckNodeHealth_of_stale {ctx : Ctx} {nodeID : String} {node : Node}
    (h : GetNode ctx nodeID = some node)
    (ht : ctx.blockTime - node.LastHeartbeat > HeartbeatTimeout) :
    CheckNodeHealth ctx nodeID = ((false, none), SetNode ctx { node with Status := "offline" }) := by
  simp only [CheckNodeHealth, h]
  rw [if_pos ht]

theorem CheckNodeHealth_of_fresh {ctx : Ctx} {nodeID : String} {node : Node}
    (h : GetNode ctx nodeID = some node)
    (ht : ¬ ctx.blockTime - node.LastHeartbeat > HeartbeatTimeout) :
    CheckNodeHealth ctx nodeID = ((true, none), ctx) := by
  simp only [CheckNodeHealth, h]
  rw [if_neg ht]

/-- C10, counterexample: with an online node whose heartbeat is 91 s old,
`ValidateTaskAssignment` returns the error of the failing health check and the
node store after the call differs from the one before: the node is stored
with status `offline`. -/
theorem ValidateTaskAssignment_error_changes_state :
    (ValidateTaskAssignment staleCtx "task-1" "node-1").1 = some .nodeNotHealthy ∧
    (GetNode staleCtx "node-1").map Node.Status = some "online" ∧
    (GetNode (ValidateTaskAssignment staleCtx "task-1" "node-1").2 "node-1").map Node.Status =
      some "offline" ∧
    (ValidateTaskAssignment staleCtx "task-1" "node-1").2.nodes ≠ staleCtx.nodes := by
  decide

/-- C10, amended: whenever `ValidateTaskAssignment` returns an error, the task
store (and the job and shard stores) after the call are those before it; the
whole context is unchanged when the error is one of task missing, task bound
to another node, node missing or node not online; when the error is the
failing health check, the node was stored online with a heartbeat more than
90 s old and the context after the call differs only in that this node is
stored with status `offline`. -/
theorem ValidateTaskAssignment_error_frame (ctx : Ctx) (taskID nodeID : String) (e : Err)
    (h : (ValidateTaskAssignment ctx taskID nodeID).1 = some e) :
    (ValidateTaskAssignment ctx taskID nodeID).2.tasks = ctx.tasks ∧
    (ValidateTaskAssignment ctx taskID nodeID).2.jobs = ctx.jobs ∧
    (ValidateTaskAssignment ctx taskID nodeID).2.shards = ctx.shards ∧
    (e ≠ .nodeNotHealthy → (ValidateTaskAssignment ctx taskID nodeID).2 = ctx) ∧
    (e = .nodeNotHealthy →
      ∃ node, GetNode ctx nodeID = some node ∧ node.Status = "online" ∧
        ctx.blockTime - node.LastHeartbeat > HeartbeatTimeout ∧
        (ValidateTaskAssignment ctx taskID nodeID).2 =
          SetNode ctx { node with Status := "offline" }) := by
  unfold ValidateTaskAssignment at h ⊢
  cases hg : GetTask ctx taskID with
  | none =>
    rw [hg] at h
    cases h
    exact ⟨rfl, rfl, rfl, fun _ => rfl, fun hc => by cases hc⟩
  | some task =>
    rw [hg] at h
    dsimp only at h ⊢
    by_cases hb : task.NodeID ≠ "" ∧ task.NodeID ≠ nodeID
    · rw [if_pos hb] at h ⊢
      cases h
      exact ⟨rfl, rfl, rfl, fun _ => rfl, fun hc => by cases hc⟩
    · rw [if_neg hb] at h ⊢
      cases hgn : GetNode ctx nodeID with
      | none =>
        rw [hgn] at h
        cases h
        exact ⟨rfl, rfl, rfl, fun _ => rfl, fun hc => by cases hc⟩
      | some node =>
        rw [hgn] at h
        dsimp only at h ⊢
        by_cases hs : node.Status ≠ "online"
        · rw [if_pos hs] at h ⊢
          cases h
          exact ⟨rfl, rfl, rfl, fun _ => rfl, fun hc => by cases hc⟩
        · rw [if_neg hs] at h ⊢
          by_cases ht : ctx.blockTime - node.LastHeartbeat > HeartbeatTimeout
          · rw [CheckNodeHealth_of_stale hgn ht] at h ⊢
            dsimp only at h ⊢
            exact ⟨rfl, rfl, rfl, fun hc => absurd (Option.some.inj h).symm hc,
              fun _ => ⟨node, rfl, not_not.1 hs, ht, rfl⟩⟩
          · rw [CheckNodeHealth_of_fresh hgn ht] at h
            simp at h

theorem ValidateTaskAssignment_error_frame_witness :
    (ValidateTaskAssignment staleCtx "task-1" "node-1").1 = some .nodeNotHealthy ∧
    (ValidateTaskAssignment staleCtx "task-1" "node-1").2.tasks = staleCtx.tasks :=
  ⟨by decide,
   (ValidateTaskAssignment_error_frame staleCtx "task-1" "node-1" .nodeNotHealthy (by decide)).1⟩


/-! ## Health check, heartbeat and reputation -/

/-- C11: `CheckNodeHealth(id)` returns an error exactly when the node is
absent (and then changes nothing); for a stored node it returns `(true, nil)`
with the context unchanged when `now − last_heartbeat ≤ 90 s`, exactly 90 s
included, and `(false, nil)` when `now − last_heartbeat > 90 s`, in which case
the node is afterwards stored with status `offline` and its other fields as
before, and the lookup of every other node and the other stores are
unchanged. -/
theorem CheckNodeHealth_spec (ctx : Ctx) (id : String) :
    ((CheckNodeHealth ctx id).1.2 ≠ none ↔ GetNode ctx id = none) ∧
    (GetNode ctx id = none → (CheckNodeHealth ctx id).2 = ctx) ∧
    (∀ node, GetNode ctx id = some node →
      (ctx.blockTime - node.LastHeartbeat ≤ 90 * 1000000000 →
        CheckNodeHealth ctx id = ((true, none), ctx)) ∧
      (ctx.blockTime - node.LastHeartbeat > 90 * 1000000000 →
        (CheckNodeHealth ctx id).1 = (false, none) ∧
        GetNode (CheckNodeHealth ctx id).2 id =
          some { ID := node.ID, Address := node.Address, Status := "offline",
                 Resources := node.Resources, Reputation := node.Reputation,
                 UptimePercent := node.UptimePercent, LastHeartbeat := node.LastHeartbeat,
                 RegisteredAt := node.RegisteredAt, ActiveTasks := node.ActiveTasks } ∧
        (∀ id2, id2 ≠ id → GetNode (CheckNodeHealth ctx id).2 id2 = GetNode ctx id2) ∧
        (CheckNodeHealth ctx id).2.tasks = ctx.tasks ∧
        (CheckNodeHealth ctx id).2.jobs = ctx.jobs ∧
        (CheckNodeHealth ctx id).2.shards = ctx.shards)) := by
  refine ⟨?_, ?_, ?_⟩
  · cases hg : GetNode ctx id with
    | none => simp [CheckNodeHealth_of_absent hg]
    | some node =>
      by_cases ht : ctx.blockTime - node.LastHeartbeat > HeartbeatTimeout
      · simp [CheckNodeHealth_of_stale hg ht]
      · simp [CheckNodeHealth_of_fresh hg ht]
  · intro hg
    rw [CheckNodeHealth_of_absent hg]
  · intro node hg
    have hid : node.ID = id := storeGet_key hg
    constructor
    · intro ht
      exact CheckNodeHealth_of_fresh hg (not_lt.2 ht)
    · intro ht
      rw [CheckNodeHealth_of_stale hg ht]
      refine ⟨rfl, ?_, fun id2 hne => ?_, rfl, rfl, rfl⟩
      · have := GetNode_SetNode_self ctx { node with Status := "offline" }
        rw [← hid]
        exact this
      · exact GetNode_SetNode_ne ctx { node with Status := "offline" } (by rw [← hid] at hne; exact hne)

theorem UpdateHeartbeat_of_present {ctx : Ctx} {msg : MsgUpdateHeartbeat} {node : Node}
    (h : GetNode ctx msg.NodeId = some node) :
    UpdateHeartbeat ctx (some msg) =
      (.ok (), SetNode ctx { node with LastHeartbeat := ctx.blockTime, Status := "online" }) := by
  simp only [UpdateHeartbeat, h]

theorem UpdateHeartbeat_of_absent {ctx : Ctx} {msg : MsgUpdateHeartbeat}
    (h : GetNode ctx msg.NodeId = none) :
    UpdateHeartbeat ctx (some msg) = (.error .nodeNotFound, ctx) := by
  simp only [UpdateHeartbeat, h]

/-- C12: for a stored node, `UpdateHeartbeat` succeeds and the node is
afterwards stored with `last_heartbeat` equal to the block time, status
`online` and its other fields as before, the lookup of every other node being
unchanged; applying the handler a second time at the same block time succeeds
and returns exactly the context that the first application produced; for an
absent id the handler fails with `NodeNotFound` and the context is unchanged. -/
theorem UpdateHeartbeat_idempotent (ctx : Ctx) (msg : MsgUpdateHeartbeat) (node : Node)
    (h : GetNode ctx msg.NodeId = some node) :
    (UpdateHeartbeat ctx (some msg)).1 = .ok () ∧
    GetNode (UpdateHeartbeat ctx (some msg)).2 msg.NodeId =
      some { ID := node.ID, Address := node.Address, Status := "online",
             Resources := node.Resources, Reputation := node.Reputation,
             UptimePercent := node.UptimePercent, LastHeartbeat := ctx.blockTime,
             RegisteredAt := node.RegisteredAt, ActiveTasks := node.ActiveTasks } ∧
    (∀ id, id ≠ msg.NodeId →
      GetNode (UpdateHeartbeat ctx (some msg)).2 id = GetNode ctx id) ∧
    (UpdateHeartbeat ctx (some msg)).2.blockTime = ctx.blockTime ∧
    UpdateHeartbeat (UpdateHeartbeat ctx (some msg)).2 (some msg) =
      (.ok (), (UpdateHeartbeat ctx (some msg)).2) ∧
    (∀ (c : Ctx) (m : MsgUpdateHeartbeat), GetNode c m.NodeId = none →
      UpdateHeartbeat c (some m) = (.error .nodeNotFound, c)) := by
  have hid : node.ID = msg.NodeId := storeGet_key h
  have hself : GetNode (SetNode ctx { node with LastHeartbeat := ctx.blockTime, Status := "online" })
      msg.NodeId = some { node with LastHeartbeat := ctx.blockTime, Status := "online" } := by
    have := GetNode_SetNode_self ctx { node with LastHeartbeat := ctx.blockTime, Status := "online" }
    rw [← hid]
    exact this
  rw [UpdateHeartbeat_of_present h]
  refine ⟨rfl, hself, fun id hne => ?_, rfl, ?_, fun c m hc => UpdateHeartbeat_of_absent hc⟩
  · exact GetNode_SetNode_ne ctx _ (by rw [← hid] at hne; exact hne)
  · rw [UpdateHeartbeat_of_present hself]
    congr 1
    unfold SetNode
    congr 1
    exact storeSet_storeSet (K := Node.ID) ctx.nodes rfl

theorem UpdateHeartbeat_idempotent_witness :
    GetNode oneNodeCtx "n1" =
      some { ID := "n1", Address := "a1", Status := "online", Resources := [], Reputation := 0,
             UptimePercent := 0, LastHeartbeat := 0, RegisteredAt := 0, ActiveTasks := [] } ∧
    UpdateHeartbeat (UpdateHeartbeat oneNodeCtx (some ⟨"c", "n1"⟩)).2 (some ⟨"c", "n1"⟩) =
      (.ok (), (UpdateHeartbeat oneNodeCtx (some ⟨"c", "n1"⟩)).2) :=
  ⟨by decide,
   (UpdateHeartbeat_idempotent oneNodeCtx ⟨"c", "n1"⟩
      { ID := "n1", Address := "a1", Status := "online", Resources := [], Reputation := 0,
        UptimePercent := 0, LastHeartbeat := 0, RegisteredAt := 0, ActiveTasks := [] }
      (by decide)).2.2.2.2.1⟩

theorem UpdateReputation_of_present {ctx : Ctx} {nodeID : String} {node : Node} (u : ℚ)
    (h : GetNode ctx nodeID = some node) :
    UpdateReputation ctx nodeID u = SetNode ctx (reputedNode node u) := by
  simp only [UpdateReputation, h]
  rfl

theorem UpdateReputation_of_absent {ctx : Ctx} {nodeID : String} (u : ℚ)
    (h : GetNode ctx nodeID = none) : UpdateReputation ctx nodeID u = ctx := by
  simp only [UpdateReputation, h]

theorem reputedNode_fields (node : Node) (u : ℚ) :
    (reputedNode node u).ID = node.ID ∧ (reputedNode node u).Address = node.Address ∧
    (reputedNode node u).Status = node.Status ∧
    (reputedNode node u).Resources = node.Resources ∧
    (reputedNode node u).LastHeartbeat = node.LastHeartbeat ∧
    (reputedNode node u).RegisteredAt = node.RegisteredAt ∧
    (reputedNode node u).ActiveTasks = node.ActiveTasks ∧
    (reputedNode node u).UptimePercent = u ∧
    (50 ≤ u → (reputedNode node u).Reputation = u) ∧
    (u < 50 → (reputedNode node u).Reputation = 1 / 2 * u) := by
  unfold reputedNode
  by_cases hu : u < 50
  · rw [if_pos hu]
    refine ⟨rfl, rfl, rfl, rfl, rfl, rfl, rfl, rfl, fun h => absurd hu (not_lt.2 h), fun _ => ?_⟩
    show u * 0.5 = 1 / 2 * u
    norm_num
    ring
  · rw [if_neg hu]
    exact ⟨rfl, rfl, rfl, rfl, rfl, rfl, rfl, rfl, fun _ => rfl, fun h => absurd h hu⟩

/-- C13: for a stored node and every uptime value `u` (a rational), after
`UpdateReputation(id, u)` the node is stored with `uptime_percent = u` and
with `reputation = u` when `u ≥ 50` and `reputation = 0.5 × u` when `u < 50`;
its other fields, the lookup of every other node and the other stores are
unchanged; for an absent id the context is unchanged. -/
theorem UpdateReputation_spec (ctx : Ctx) (id : String) (u : ℚ) (node : Node)
    (h : GetNode ctx id = some node) :
    (∃ n, GetNode (UpdateReputation ctx id u) id = some n ∧
      n.UptimePercent = u ∧ (50 ≤ u → n.Reputation = u) ∧ (u < 50 → n.Reputation = 1 / 2 * u) ∧
      n.ID = node.ID ∧ n.Address = node.Address ∧ n.Status = node.Status ∧
      n.Resources = node.Resources ∧ n.LastHeartbeat = node.LastHeartbeat ∧
      n.RegisteredAt = node.RegisteredAt ∧ n.ActiveTasks = node.ActiveTasks) ∧
    (∀ id2, id2 ≠ id → GetNode (UpdateReputation ctx id u) id2 = GetNode ctx id2) ∧
    (UpdateReputation ctx id u).tasks = ctx.tasks ∧
    (∀ (c : Ctx) (i : String) (v : ℚ), GetNode c i = none → UpdateReputation c i v = c) := by
  have hid : node.ID = id := storeGet_key h
  have hf := reputedNode_fields node u
  rw [UpdateReputation_of_present u h]
  refine ⟨⟨reputedNode node u, ?_, hf.2.2.2.2.2.2.2.1, hf.2.2.2.2.2.2.2.2.1,
    hf.2.2.2.2.2.2.2.2.2, hf.1, hf.2.1, hf.2.2.1, hf.2.2.2.1, hf.2.2.2.2.1, hf.2.2.2.2.2.1,
    hf.2.2.2.2.2.2.1⟩, fun id2 hne => ?_, rfl, fun c i v hc => UpdateReputation_of_absent v hc⟩
  · have := GetNode_SetNode_self ctx (reputedNode node u)
    rw [hf.1, hid] at this
    exact this
  · exact GetNode_SetNode_ne ctx (reputedNode node u) (by rw [hf.1, hid]; exact hne)

theorem UpdateReputation_spec_witness :
    GetNode reputationTestCtx "node-1" = some reputationTestNode ∧
    (∃ n, GetNode (UpdateReputation reputationTestCtx "node-1" 50) "node-1" = some n ∧
      n.Reputation = 50) ∧
    (∃ n, GetNode (UpdateReputation reputationTestCtx "node-1" (49999 / 1000)) "node-1" = some n ∧
      n.Reputation = 249995 / 10000) := by
  refine ⟨by decide, ?_, ?_⟩
  · obtain ⟨n, hn, _, h50, _⟩ :=
      (UpdateReputation_spec reputationTestCtx "node-1" 50 reputationTestNode (by decide)).1
    exact ⟨n, hn, h50 (le_refl _)⟩
  · obtain ⟨n, hn, _, _, hlt, _⟩ :=
      (UpdateReputation_spec reputationTestCtx "node-1" (49999 / 1000) reputationTestNode
        (by decide)).1
    exact ⟨n, hn, by rw [hlt (by norm_num)]; norm_num⟩

/-! ## The node invariant INV-3 -/

theorem SetNode_INV3 {ctx : Ctx} {v : Node} (h : INV3 ctx)
    (hv : 0 ≤ v.Reputation ∧ v.Reputation ≤ 100 ∧ 0 ≤ v.UptimePercent ∧ v.UptimePercent ≤ 100) :
    INV3 (SetNode ctx v) := by
  intro n hn
  rcases storeSet_mem (K := Node.ID) hn with rfl | hn
  · exact hv
  · exact h n hn

/-- C14, counterexample: from the state of the test `TestUpdateReputation`,
which satisfies INV-3, `UpdateReputation` with uptime 150 stores reputation
150 and uptime 150, so INV-3 fails afterwards; with uptime −5 it stores the
uptime −5. -/
theorem UpdateReputation_out_of_range :
    INV3 reputationTestCtx ∧
    (GetNode (UpdateReputation reputationTestCtx "node-1" 150) "node-1").map
      (fun n => (n.Reputation, n.UptimePercent)) = some (150, 150) ∧
    ¬ INV3 (UpdateReputation reputationTestCtx "node-1" 150) ∧
    (GetNode (UpdateReputation reputationTestCtx "node-1" (-5)) "node-1").map
      Node.UptimePercent = some (-5) := by
  decide

/-- C14, amended: from a node store satisfying INV-3, the store after
`RegisterNode` or `UpdateHeartbeat` with any message satisfies INV-3, and so
does the store after `UpdateReputation` with any node id when the uptime
value lies in `[0, 100]`. -/
theorem INV3_preserved (ctx : Ctx) (h : INV3 ctx) :
    (∀ msg, INV3 (RegisterNode ctx msg).2) ∧
    (∀ msg, INV3 (UpdateHeartbeat ctx msg).2) ∧
    (∀ (id : String) (u : ℚ), 0 ≤ u → u ≤ 100 → INV3 (UpdateReputation ctx id u)) := by
  refine ⟨fun msg => ?_, fun msg => ?_, fun id u h0 h100 => ?_⟩
  · cases msg with
    | none => exact h
    | some msg =>
      cases hg : GetNode ctx msg.NodeId with
      | some n =>
        rw [RegisterNode_of_present (by rw [hg]; exact Option.some_ne_none n)]
        exact h
      | none =>
        rw [RegisterNode_of_absent hg]
        exact SetNode_INV3 h (by simp [registeredNode])
  · cases msg with
    | none => exact h
    | some msg =>
      cases hg : GetNode ctx msg.NodeId with
      | none =>
        rw [UpdateHeartbeat_of_absent hg]
        exact h
      | some n =>
        rw [UpdateHeartbeat_of_present hg]
        exact SetNode_INV3 h (h n (storeGet_mem hg))
  · cases hg : GetNode ctx id with
    | none =>
      rw [UpdateReputation_of_absent u hg]
      exact h
    | some n =>
      rw [UpdateReputation_of_present u hg]
      have hf := reputedNode_fields n u
      refine SetNode_INV3 h ?_
      rw [hf.2.2.2.2.2.2.2.1]
      by_cases hu : u < 50
      · rw [hf.2.2.2.2.2.2.2.2.2 hu]
        refine ⟨by linarith, by linarith, h0, h100⟩
      · rw [hf.2.2.2.2.2.2.2.2.1 (not_lt.1 hu)]
        exact ⟨h0, h100, h0, h100⟩

theorem INV3_preserved_witness :
    INV3 reputationTestCtx ∧ INV3 (UpdateReputation reputationTestCtx "node-1" 99) :=
  ⟨by decide, (INV3_preserved reputationTestCtx (by decide)).2.2 "node-1" 99 (by decide) (by decide)⟩

/-! ## Federated averaging -/

theorem foldl_add_eq_sum {α : Type} (f : α → ℚ) (l : List α) (a : ℚ) :
    l.foldl (fun acc x => acc + f x) a = a + (l.map f).sum := by
  induction l generalizing a with
  | nil => simp
  | cons x xs ih =>
    rw [List.foldl_cons, ih, List.map_cons, List.sum_cons]
    ring

theorem totalWeight_eq_sum (weights : List ℚ) : totalWeight weights = weights.sum := by
  unfold totalWeight
  rw [foldl_add_eq_sum (fun w => w) weights 0]
  simp

theorem aggregateAt_eq_sum (gradientsList : List (List ℚ)) (weights : List ℚ) (i : Nat) :
    aggregateAt gradientsList weights i =
      (List.zipWith (fun g w => g.getD i 0 * w) gradientsList weights).sum := by
  unfold aggregateAt
  rw [foldl_add_eq_sum (fun gw : List ℚ × ℚ => gw.1.getD i 0 * gw.2), zero_add, List.zip,
    List.map_zipWith]

theorem zipWith_replicate {β : Type} (f : List ℚ → ℚ → β) (l : List (List ℚ)) (c : ℚ) :
    List.zipWith f l (List.replicate l.length c) = l.map (fun g => f g c) := by
  induction l with
  | nil => rfl
  | cons x xs ih => simp [List.replicate_succ, ih]

theorem zipWith_map_right {β : Type} (f : List ℚ → ℚ → β) (h : ℚ → ℚ) (l : List (List ℚ))
    (w : List ℚ) : List.zipWith f l (w.map h) = List.zipWith (fun g x => f g (h x)) l w := by
  induction l generalizing w with
  | nil => simp
  | cons x xs ih =>
    cases w with
    | nil => simp
    | cons y ys => simp [ih]

theorem FederatedAveraging_of_empty (weights : List ℚ) :
    FederatedAveraging [] weights = .error .noGradients := by
  simp [FederatedAveraging]

theorem FederatedAveraging_of_length_mismatch {gradientsList : List (List ℚ)} {weights : List ℚ}
    (hne : gradientsList ≠ []) (hw : weights ≠ []) (hl : weights.length ≠ gradientsList.length) :
    FederatedAveraging gradientsList weights = .error .lengthMismatch := by
  have h0 : gradientsList.length ≠ 0 := fun h => hne (List.length_eq_zero.1 h)
  have hw0 : weights.length ≠ 0 := fun h => hw (List.length_eq_zero.1 h)
  unfold FederatedAveraging
  rw [if_neg h0]
  dsimp only
  rw [if_pos]
  unfold effectiveWeights
  rw [if_neg hw0]
  exact fun h => hl h.symm

theorem effectiveWeights_length {n : Nat} {weights : List ℚ}
    (h : weights = [] ∨ weights.length = n) : (effectiveWeights n weights).length = n := by
  unfold effectiveWeights
  by_cases hw : weights.length = 0
  · rw [if_pos hw, List.length_replicate]
  · rw [if_neg hw]
    rcases h with h | h
    · exact absurd (by rw [h]; rfl) hw
    · exact h

theorem FederatedAveraging_of_dimension_mismatch {gradientsList : List (List ℚ)}
    {weights : List ℚ} (hne : gradientsList ≠ [])
    (hw : weights = [] ∨ weights.length = gradientsList.length)
    (hd : ∃ g ∈ gradientsList, g.length ≠ (gradientsList.headD []).length) :
    FederatedAveraging gradientsList weights = .error .dimensionMismatch := by
  have h0 : gradientsList.length ≠ 0 := fun h => hne (List.length_eq_zero.1 h)
  unfold FederatedAveraging
  rw [if_neg h0]
  dsimp only
  rw [if_neg (by rw [effectiveWeights_length hw]; exact fun h => h rfl), if_pos]
  rw [List.any_eq_true]
  obtain ⟨g, hg, hgl⟩ := hd
  exact ⟨g, hg, by simpa using hgl⟩

theorem FederatedAveraging_of_valid {gradientsList : List (List ℚ)} {weights : List ℚ}
    (hne : gradientsList ≠ []) (hw : weights = [] ∨ weights.length = gradientsList.length)
    (hd : ∀ g ∈ gradientsList, g.length = (gradientsList.headD []).length) :
    FederatedAveraging gradientsList weights =
      .ok ((List.range (gradientsList.headD []).length).map (fun i =>
        aggregateAt gradientsList
          (normalizedWeights (effectiveWeights gradientsList.length weights)) i)) := by
  have h0 : gradientsList.length ≠ 0 := fun h => hne (List.length_eq_zero.1 h)
  unfold FederatedAveraging
  rw [if_neg h0]
  dsimp only
  rw [if_neg (by rw [effectiveWeights_length hw]; exact fun h => h rfl), if_neg]
  rw [List.any_eq_true]
  rintro ⟨g, hg, hgl⟩
  exact (by simpa using hgl : g.length ≠ (gradientsList.headD []).length) (hd g hg)

/-- C17: `FederatedAveraging(gradients, weights)` returns an error exactly
when `gradients` is empty, or `weights` is non-empty with a length other than
the number of gradients, or some gradient has a length other than that of the
first gradient; in every other case it returns a vector and no error. -/
theorem FederatedAveraging_error_iff (gradients : List (List ℚ)) (weights : List ℚ) :
    ((∃ e, FederatedAveraging gradients weights = .error e) ↔
      (gradients = [] ∨ (weights ≠ [] ∧ weights.length ≠ gradients.length) ∨
        ∃ g ∈ gradients, g.length ≠ (gradients.headD []).length)) ∧
    ((∃ v, FederatedAveraging gradients weights = .ok v) ↔
      ¬ (gradients = [] ∨ (weights ≠ [] ∧ weights.length ≠ gradients.length) ∨
        ∃ g ∈ gradients, g.length ≠ (gradients.headD []).length)) := by
  by_cases hne : gradients = []
  · subst hne
    simp [FederatedAveraging_of_empty]
  · by_cases hw : weights ≠ [] ∧ weights.length ≠ gradients.length
    · rw [FederatedAveraging_of_length_mismatch hne hw.1 hw.2]
      simp [hw]
    · have hw2 : weights = [] ∨ weights.length = gradients.length := by
        by_cases h1 : weights = []
        · exact Or.inl h1
        · by_cases h2 : weights.length = gradients.length
          · exact Or.inr h2
          · exact absurd ⟨h1, h2⟩ hw
      by_cases hd : ∃ g ∈ gradients, g.length ≠ (gradients.headD []).length
      · rw [FederatedAveraging_of_dimension_mismatch hne hw2 hd]
        constructor
        · exact ⟨fun _ => Or.inr (Or.inr hd), fun _ => ⟨_, rfl⟩⟩
        · constructor
          · rintro ⟨v, hv⟩
            cases hv
          · intro h
            exact absurd (Or.inr (Or.inr hd)) h
      · have hd2 : ∀ g ∈ gradients, g.length = (gradients.headD []).length := by
          intro g hg
          by_contra hc
          exact hd ⟨g, hg, hc⟩
        rw [FederatedAveraging_of_valid hne hw2 hd2]
        constructor
        · constructor
          · rintro ⟨e, he⟩
            cases he
          · rintro (h | h | h)
            · exact absurd h hne
            · exact absurd h hw
            · exact absurd h hd
        · constructor
          · rintro _ (h | h | h)
            · exact absurd h hne
            · exact absurd h hw
            · exact absurd h hd
          · intro _
            exact ⟨_, rfl⟩

theorem sum_map_mul_const {α : Type} (f : α → ℚ) (c : ℚ) (l : List α) :
    (l.map (fun x => f x * c)).sum = (l.map f).sum * c := by
  induction l with
  | nil => simp
  | cons x xs ih =>
    rw [List.map_cons, List.sum_cons, ih, List.map_cons, List.sum_cons]
    ring

theorem sum_replicate_rat (n : Nat) (c : ℚ) : (List.replicate n c).sum = n * c := by
  induction n with
  | zero => simp
  | succ k ih =>
    rw [List.replicate_succ, List.sum_cons, ih]
    push_cast
    ring

theorem normalizedWeights_uniform {n : Nat} (hn : n ≠ 0) :
    normalizedWeights (List.replicate n (1 / (n : ℚ))) = List.replicate n (1 / (n : ℚ)) := by
  have hq : (n : ℚ) ≠ 0 := Nat.cast_ne_zero.2 hn
  unfold normalizedWeights
  rw [totalWeight_eq_sum, sum_replicate_rat, List.map_replicate, mul_one_div_cancel hq, div_one]

theorem normalizedWeights_sum {weights : List ℚ} (hs : weights.sum ≠ 0) :
    (normalizedWeights weights).sum = 1 := by
  unfold normalizedWeights
  rw [totalWeight_eq_sum]
  have : (weights.map (fun w => w / weights.sum)).sum = weights.sum * (weights.sum)⁻¹ := by
    have := sum_map_mul_const (fun w : ℚ => w) (weights.sum)⁻¹ weights
    simp only [List.map_id'] at this
    simpa [div_eq_mul_inv] using this
  rw [this, mul_inv_cancel₀ hs]

theorem headD_length_of_uniform {α : Type} {gradients : List (List α)} {d : Nat}
    (hne : gradients ≠ [])
    (hd : ∀ g ∈ gradients, g.length = d) : (gradients.headD []).length = d := by
  cases gradients with
  | nil => exact absurd rfl hne
  | cons g rest => exact hd g (List.mem_cons_self _ _)

theorem getD_map_range (f : Nat → ℚ) (d i : Nat) (h : i < d) :
    ((List.range d).map f).getD i 0 = f i := by
  rw [List.getD_eq_getElem?_getD, List.getElem?_map, List.getElem?_range h]
  rfl

theorem FederatedAveraging_exact_mean (G : List (List ℚ)) (d : Nat) (hne : G ≠ [])
    (hd : ∀ g ∈ G, g.length = d) :
    FederatedAveraging G [] =
      .ok ((List.range d).map (fun i => 1 / (G.length : ℚ) * (G.map (fun g => g.getD i 0)).sum)) ∧
    (∀ v, FederatedAveraging G [] = .ok v →
      v.length = d ∧
        ∀ i, i < d → v.getD i 0 = 1 / (G.length : ℚ) * (G.map (fun g => g.getD i 0)).sum) := by
  have h0 : G.length ≠ 0 := fun h => hne (List.length_eq_zero.1 h)
  have hhead := headD_length_of_uniform hne hd
  have hval : FederatedAveraging G [] =
      .ok ((List.range d).map (fun i =>
        1 / (G.length : ℚ) * (G.map (fun g => g.getD i 0)).sum)) := by
    rw [FederatedAveraging_of_valid hne (Or.inl rfl) (fun g hg => by rw [hhead]; exact hd g hg),
      hhead]
    have hw : effectiveWeights G.length [] = List.replicate G.length (1 / (G.length : ℚ)) := by
      unfold effectiveWeights
      exact if_pos rfl
    rw [hw, normalizedWeights_uniform h0]
    congr 1
    apply List.map_congr_left
    intro i _
    rw [aggregateAt_eq_sum, zipWith_replicate, sum_map_mul_const]
    ring
  refine ⟨hval, fun v hv => ?_⟩
  rw [hval] at hv
  cases hv
  refine ⟨by simp, fun i hi => ?_⟩
  exact getD_map_range _ d i hi

theorem FederatedAveraging_exact_example :
    FederatedAveraging [[1, 2, 3], [2, 3, 4], [3, 4, 5]] [] = .ok [2, 3, 4] := by
  rw [(FederatedAveraging_exact_mean [[1, 2, 3], [2, 3, 4], [3, 4, 5]] 3 (by decide)
    (by decide)).1]
  norm_num [List.range, List.range.loop]

theorem effectiveWeights64_length {n : Nat} {weights : List Binary64}
    (h : weights = [] ∨ weights.length = n) :
    (Binary64.effectiveWeights n weights).length = n := by
  unfold Binary64.effectiveWeights
  by_cases hw : weights.length = 0
  · rw [if_pos hw, List.length_replicate]
  · rw [if_neg hw]
    rcases h with h | h
    · exact absurd (by rw [h]; rfl) hw
    · exact h

theorem FederatedAveraging64_of_valid {gradientsList : List (List Binary64)}
    {weights : List Binary64} (hne : gradientsList ≠ [])
    (hw : weights = [] ∨ weights.length = gradientsList.length)
    (hd : ∀ g ∈ gradientsList, g.length = (gradientsList.headD []).length) :
    Binary64.FederatedAveraging gradientsList weights =
      .ok ((List.range (gradientsList.headD []).length).map (fun i =>
        Binary64.aggregateAt gradientsList
          (Binary64.normalizedWeights
            (Binary64.effectiveWeights gradientsList.length weights)) i)) := by
  have h0 : gradientsList.length ≠ 0 := fun h => hne (List.length_eq_zero.1 h)
  unfold Binary64.FederatedAveraging
  rw [if_neg h0]
  dsimp only
  rw [if_neg (by rw [effectiveWeights64_length hw]; exact fun h => h rfl), if_neg]
  rw [List.any_eq_true]
  rintro ⟨g, hg, hgl⟩
  exact (by simpa using hgl : g.length ≠ (gradientsList.headD []).length) (hd g hg)

theorem FederatedAveraging64_uniform (G : List (List Binary64)) (d : Nat) (hne : G ≠ [])
    (hd : ∀ g ∈ G, g.length = d) :
    Binary64.FederatedAveraging G [] =
      .ok ((List.range d).map (fun i =>
        Binary64.aggregateAt G
          (Binary64.normalizedWeights
            (List.replicate G.length (Binary64.div (.ofNat 1) (.ofNat G.length)))) i)) := by
  have hhead := headD_length_of_uniform hne hd
  rw [FederatedAveraging64_of_valid hne (Or.inl rfl) (fun g hg => by rw [hhead]; exact hd g hg),
    hhead]
  have hw : Binary64.effectiveWeights G.length [] =
      List.replicate G.length (Binary64.div (.ofNat 1) (.ofNat G.length)) := by
    unfold Binary64.effectiveWeights
    exact if_pos rfl
  rw [hw]

set_option maxRecDepth 100000 in
theorem meanTestGradients_result :
    Binary64.normalizedWeights (Binary64.effectiveWeights 3 []) =
      [.finite false 6004799503160661 (-54), .finite false 6004799503160661 (-54),
        .finite false 6004799503160661 (-54)] ∧
    Binary64.FederatedAveraging meanTestGradients [] =
      .ok [.ofNat 2, .ofNat 3, .finite false 9007199254740991 (-51)] ∧
    Binary64.add (.finite false 9007199254740991 (-51)) (.finite false 4503599627370496 (-103)) =
      .ofNat 4 := by
  decide

/-- C16, counterexample: on the gradients `[[1,2,3],[2,3,4],[3,4,5]]` with no
weights, `FederatedAveraging` computes in `float64` the vector
`[2, 3, 4 - 2^-51]`, that is `[2, 3, 3.9999999999999996]`: each weight is the
`float64` nearest to 1/3, and the third entry is not 4, the arithmetic
mean. -/
theorem FederatedAveraging_float64_example :
    Binary64.normalizedWeights (Binary64.effectiveWeights 3 []) =
      [.finite false 6004799503160661 (-54), .finite false 6004799503160661 (-54),
        .finite false 6004799503160661 (-54)] ∧
    Binary64.FederatedAveraging meanTestGradients [] =
      .ok [.ofNat 2, .ofNat 3, .finite false 9007199254740991 (-51)] ∧
    Binary64.add (.finite false 9007199254740991 (-51)) (.finite false 4503599627370496 (-103)) =
      .ofNat 4 ∧
    Binary64.FederatedAveraging meanTestGradients [] ≠ .ok [.ofNat 2, .ofNat 3, .ofNat 4] := by
  refine ⟨meanTestGradients_result.1, meanTestGradients_result.2.1, meanTestGradients_result.2.2,
    ?_⟩
  rw [meanTestGradients_result.2.1]
  decide

/-- C16, amended: for a non-empty list `G` of `n` gradient vectors of equal
dimension `d`, `FederatedAveraging(G, nil)` returns no error and a vector of
length `d`, in `float64` as in exact arithmetic; in exact arithmetic its
`i`-th entry is `(1/n) · Σ_j G[j][i]`, the arithmetic mean, and
`[[1,2,3],[2,3,4],[3,4,5]]` gives `[2,3,4]`; in `float64` its `i`-th entry is
the sum, rounded at every addition and multiplication, of the `G[j][i]`
times the weight `(1.0 / n) / (Σ 1.0 / n)`. -/
theorem FederatedAveraging_uniform_mean :
    (∀ (G : List (List ℚ)) (d : Nat), G ≠ [] → (∀ g ∈ G, g.length = d) →
      FederatedAveraging G [] =
        .ok ((List.range d).map
          (fun i => 1 / (G.length : ℚ) * (G.map (fun g => g.getD i 0)).sum)) ∧
      (∀ v, FederatedAveraging G [] = .ok v →
        v.length = d ∧
          ∀ i, i < d →
            v.getD i 0 = 1 / (G.length : ℚ) * (G.map (fun g => g.getD i 0)).sum)) ∧
    FederatedAveraging [[1, 2, 3], [2, 3, 4], [3, 4, 5]] [] = .ok [2, 3, 4] ∧
    (∀ (G : List (List Binary64)) (d : Nat), G ≠ [] → (∀ g ∈ G, g.length = d) →
      Binary64.FederatedAveraging G [] =
        .ok ((List.range d).map (fun i =>
          Binary64.aggregateAt G
            (Binary64.normalizedWeights
              (List.replicate G.length (Binary64.div (.ofNat 1) (.ofNat G.length)))) i)) ∧
      (∀ v, Binary64.FederatedAveraging G [] = .ok v → v.length = d)) := by
  refine ⟨fun G d hne hd => FederatedAveraging_exact_mean G d hne hd,
    FederatedAveraging_exact_example, fun G d hne hd => ?_⟩
  refine ⟨FederatedAveraging64_uniform G d hne hd, fun v hv => ?_⟩
  rw [FederatedAveraging64_uniform G d hne hd] at hv
  cases hv
  simp

theorem FederatedAveraging_uniform_mean_witness :
    ([[1, 2, 3], [2, 3, 4], [3, 4, 5]] : List (List ℚ)) ≠ [] ∧
    (∀ g ∈ ([[1, 2, 3], [2, 3, 4], [3, 4, 5]] : List (List ℚ)), g.length = 3) ∧
    (∀ v, FederatedAveraging [[1, 2, 3], [2, 3, 4], [3, 4, 5]] [] = .ok v → v.length = 3) ∧
    meanTestGradients ≠ [] ∧ (∀ g ∈ meanTestGradients, g.length = 3) ∧
    (∀ v, Binary64.FederatedAveraging meanTestGradients [] = .ok v → v.length = 3) :=
  ⟨by decide, by decide,
   fun v hv => ((FederatedAveraging_uniform_mean.1 [[1, 2, 3], [2, 3, 4], [3, 4, 5]] 3
     (by decide) (by decide)).2 v hv).1,
   by decide, by decide,
   (FederatedAveraging_uniform_mean.2.2 meanTestGradients 3 (by decide) (by decide)).2⟩

/-- C15, counterexample: with the weights `[1, −1]`, of the same length as the
two gradients, `FederatedAveraging` returns no error although the total weight
is 0, and the weights it applies do not sum to 1. -/
theorem FederatedAveraging_zero_total_weight :
    (∃ v, FederatedAveraging [[1], [2]] [1, -1] = .ok v) ∧
    totalWeight (effectiveWeights 2 [1, -1]) = 0 ∧
    (normalizedWeights (effectiveWeights 2 [1, -1])).sum ≠ 1 := by
  refine ⟨⟨_, FederatedAveraging_of_valid (by decide) (Or.inr rfl) (by decide)⟩, ?_, ?_⟩
  · norm_num [totalWeight, effectiveWeights]
  · norm_num [normalizedWeights, totalWeight, effectiveWeights]

/-- C15, amended: for a non-empty list of gradient vectors of equal dimension
`d` and a weight list of the same length whose sum is not zero,
`FederatedAveraging` returns no error and a vector of length `d` whose `i`-th
entry is `Σ_j (w_j / Σ_k w_k) · g_j[i]`; the weights it applies are
`w_j / Σ_k w_k`, and they sum to 1 (over the rationals). -/
theorem FederatedAveraging_weighted (G : List (List ℚ)) (w : List ℚ) (d : Nat) (hne : G ≠ [])
    (hd : ∀ g ∈ G, g.length = d) (hl : w.length = G.length) (hs : w.sum ≠ 0) :
    FederatedAveraging G w =
      .ok ((List.range d).map (fun i =>
        (List.zipWith (fun g wj => wj / w.sum * g.getD i 0) G w).sum)) ∧
    (∀ v, FederatedAveraging G w = .ok v →
      v.length = d ∧
        ∀ i, i < d →
          v.getD i 0 = (List.zipWith (fun g wj => wj / w.sum * g.getD i 0) G w).sum) ∧
    normalizedWeights (effectiveWeights G.length w) = w.map (fun wj => wj / w.sum) ∧
    (w.map (fun wj => wj / w.sum)).sum = 1 := by
  have h0 : G.length ≠ 0 := fun h => hne (List.length_eq_zero.1 h)
  have hhead := headD_length_of_uniform hne hd
  have hw : effectiveWeights G.length w = w := by
    unfold effectiveWeights
    rw [if_neg (by rw [hl]; exact h0)]
  have hnorm : normalizedWeights w = w.map (fun wj => wj / w.sum) := by
    unfold normalizedWeights
    rw [totalWeight_eq_sum]
  have hval : FederatedAveraging G w =
      .ok ((List.range d).map (fun i =>
        (List.zipWith (fun g wj => wj / w.sum * g.getD i 0) G w).sum)) := by
    rw [FederatedAveraging_of_valid hne (Or.inr hl) (fun g hg => by rw [hhead]; exact hd g hg),
      hhead, hw, hnorm]
    congr 1
    apply List.map_congr_left
    intro i _
    rw [aggregateAt_eq_sum, zipWith_map_right]
    congr 1
    congr 1
    funext g x
    ring
  refine ⟨hval, fun v hv => ?_, by rw [hw, hnorm], ?_⟩
  · rw [hval] at hv
    cases hv
    exact ⟨by simp, fun i hi => getD_map_range _ d i hi⟩
  · rw [← hnorm]
    exact normalizedWeights_sum hs

theorem FederatedAveraging_weighted_witness :
    ([[1, 2, 3], [2, 3, 4], [3, 4, 5]] : List (List ℚ)) ≠ [] ∧
    (∀ g ∈ ([[1, 2, 3], [2, 3, 4], [3, 4, 5]] : List (List ℚ)), g.length = 3) ∧
    ([5, 3, 2] : List ℚ).length = ([[1, 2, 3], [2, 3, 4], [3, 4, 5]] : List (List ℚ)).length ∧
    ([5, 3, 2] : List ℚ).sum ≠ 0 ∧
    (([5, 3, 2] : List ℚ).map (fun wj => wj / ([5, 3, 2] : List ℚ).sum)).sum = 1 :=
  ⟨by decide, by decide, by decide, by norm_num,
   (FederatedAveraging_weighted [[1, 2, 3], [2, 3, 4], [3, 4, 5]] [5, 3, 2] 3 (by decide)
     (by decide) (by decide) (by norm_num)).2.2.2⟩

/-! ## Validation of the gradients to aggregate -/

theorem Float64.finite_iff (val : Float64) :
    (∃ q, val = Float64.finite q) ↔ ¬ (val.IsNaN = true ∨ val.IsInf = true) := by
  cases val with
  | finite q => simp [Float64.IsNaN, Float64.IsInf]
  | nan => simp [Float64.IsNaN]
  | inf b => simp [Float64.IsInf]

theorem dimensionLoop_eq_none (dim : Nat) (i : Nat) (l : List (List Float64)) :
    dimensionLoop dim i l = none ↔ ∀ g ∈ l, g.length = dim := by
  induction l generalizing i with
  | nil => simp [dimensionLoop]
  | cons g rest ih =>
    unfold dimensionLoop
    by_cases hg : g.length ≠ dim
    · rw [if_pos hg]
      constructor
      · intro h; cases h
      · intro h; exact absurd (h g (List.mem_cons_self _ _)) hg
    · rw [if_neg hg, ih]
      constructor
      · intro h x hx
        rcases List.mem_cons.1 hx with rfl | hx
        · exact not_not.1 hg
        · exact h x hx
      · intro h x hx
        exact h x (List.mem_cons_of_mem _ hx)

theorem valueLoop_eq_none (i j : Nat) (l : List Float64) :
    valueLoop i j l = none ↔ ∀ val ∈ l, ∃ q, val = Float64.finite q := by
  induction l generalizing j with
  | nil => simp [valueLoop]
  | cons v rest ih =>
    unfold valueLoop
    by_cases hv : v.IsNaN = true ∨ v.IsInf = true
    · rw [if_pos hv]
      constructor
      · intro h; cases h
      · intro h
        exact absurd hv ((Float64.finite_iff v).1 (h v (List.mem_cons_self _ _)))
    · rw [if_neg hv, ih]
      constructor
      · intro h x hx
        rcases List.mem_cons.1 hx with rfl | hx
        · exact (Float64.finite_iff x).2 hv
        · exact h x hx
      · intro h x hx
        exact h x (List.mem_cons_of_mem _ hx)

theorem valuesLoop_eq_none (i : Nat) (l : List (List Float64)) :
    valuesLoop i l = none ↔ ∀ g ∈ l, ∀ val ∈ g, ∃ q, val = Float64.finite q := by
  induction l generalizing i with
  | nil => simp [valuesLoop]
  | cons g rest ih =>
    unfold valuesLoop
    cases hg : valueLoop i 0 g with
    | some err =>
      dsimp only
      constructor
      · intro h; cases h
      · intro h
        have := (valueLoop_eq_none i 0 g).2 (h g (List.mem_cons_self _ _))
        rw [hg] at this
        cases this
    | none =>
      dsimp only
      rw [ih]
      have hfin := (valueLoop_eq_none i 0 g).1 hg
      constructor
      · intro h x hx
        rcases List.mem_cons.1 hx with rfl | hx
        · exact hfin
        · exact h x hx
      · intro h x hx
        exact h x (List.mem_cons_of_mem _ hx)

/-- C18: `ValidateAggregation(gradients)` returns no error exactly when
`gradients` is non-empty, every vector has the length of the first one, and
every coordinate of every vector is finite, that is neither NaN nor an
infinity. -/
theorem ValidateAggregation_spec (gradients : List (List Float64)) :
    ValidateAggregation gradients = none ↔
      (gradients ≠ [] ∧ (∀ g ∈ gradients, g.length = (gradients.headD []).length) ∧
        ∀ g ∈ gradients, ∀ val ∈ g, ∃ q, val = Float64.finite q) := by
  unfold ValidateAggregation
  by_cases h0 : gradients.length = 0
  · rw [if_pos h0]
    have : gradients = [] := List.length_eq_zero.1 h0
    simp [this]
  · rw [if_neg h0]
    have hne : gradients ≠ [] := fun h => h0 (by rw [h]; rfl)
    dsimp only
    cases hd : dimensionLoop (gradients.headD []).length 0 gradients with
    | some err =>
      dsimp only
      constructor
      · intro h; cases h
      · rintro ⟨_, hdim, _⟩
        have := (dimensionLoop_eq_none _ 0 gradients).2 hdim
        rw [hd] at this
        cases this
    | none =>
      dsimp only
      rw [valuesLoop_eq_none]
      have hdim := (dimensionLoop_eq_none _ 0 gradients).1 hd
      exact ⟨fun h => ⟨hne, hdim, h⟩, fun h => h.2.2⟩

/-! ## Fair rewards -/

theorem mapGet_mapSet_self {V : Type} (m : List (String × V)) (k : String) (v : V) :
    mapGet (mapSet m k v) k = some v := by
  induction m with
  | nil => simp [mapSet, mapGet]
  | cons e rest ih =>
    obtain ⟨k1, v1⟩ := e
    unfold mapSet
    by_cases h : k1 = k
    · rw [if_pos h]
      simp [mapGet]
    · rw [if_neg h]
      simp [mapGet, h, ih]

theorem mapGet_mapSet_ne {V : Type} (m : List (String × V)) {k k2 : String} (v : V)
    (h : k2 ≠ k) :
    mapGet (mapSet m k v) k2 = mapGet m k2 := by
  have h2 : k ≠ k2 := fun hc => h hc.symm
  induction m with
  | nil => simp [mapSet, mapGet, h2]
  | cons e rest ih =>
    obtain ⟨k1, v1⟩ := e
    unfold mapSet
    by_cases h1 : k1 = k
    · rw [if_pos h1]
      have : k1 ≠ k2 := fun hc => h2 (h1.symm.trans hc)
      simp [mapGet, h2, this]
    · rw [if_neg h1]
      simp [mapGet, ih]

theorem mapSet_of_fresh {V : Type} (m : List (String × V)) (k : String) (v : V)
    (h : k ∉ m.map Prod.fst) : mapSet m k v = m ++ [(k, v)] := by
  induction m with
  | nil => rfl
  | cons e rest ih =>
    obtain ⟨k1, v1⟩ := e
    have h1 : k1 ≠ k := fun hc => h (by simp [hc])
    have h2 : k ∉ rest.map Prod.fst := fun hc => h (by simp at hc ⊢; exact Or.inr hc)
    unfold mapSet
    rw [if_neg h1, ih h2]
    rfl

theorem CalculateFairRewards_of_positive {ctx : Ctx} {jobID : String} {round : Int}
    (h : 0 < contributionSum (GetGradientContributions ctx jobID round)) :
    CalculateFairRewards ctx jobID round =
      (GetGradientContributions ctx jobID round).foldl
        (rewardStep (contributionSum (GetGradientContributions ctx jobID round))) [] := by
  have hne : (GetGradientContributions ctx jobID round).length ≠ 0 := by
    intro hc
    rw [List.length_eq_zero.1 hc] at h
    simp [contributionSum] at h
  have htot : (GetGradientContributions ctx jobID round).foldl
      (fun acc c => acc + c.Contribution) 0 =
        contributionSum (GetGradientContributions ctx jobID round) := by
    rw [foldl_add_eq_sum GradientContribution.Contribution, zero_add]
    rfl
  unfold CalculateFairRewards
  rw [if_neg hne]
  dsimp only
  rw [htot]
  congr 1
  funext rewards c
  unfold rewardStep
  rw [if_pos h]

theorem foldl_const_of_not {α β : Type} (p : Prop) [Decidable p] (hp : ¬ p) (f : β → α → β)
    (l : List α) (b : β) : l.foldl (fun acc x => if p then f acc x else acc) b = b := by
  induction l generalizing b with
  | nil => rfl
  | cons x xs ih => rw [List.foldl_cons, if_neg hp, ih]

theorem CalculateFairRewards_of_not_positive {ctx : Ctx} {jobID : String} {round : Int}
    (h : ¬ 0 < contributionSum (GetGradientContributions ctx jobID round)) :
    CalculateFairRewards ctx jobID round = [] := by
  have htot : (GetGradientContributions ctx jobID round).foldl
      (fun acc c => acc + c.Contribution) 0 =
        contributionSum (GetGradientContributions ctx jobID round) := by
    rw [foldl_add_eq_sum GradientContribution.Contribution, zero_add]
    rfl
  unfold CalculateFairRewards
  by_cases hne : (GetGradientContributions ctx jobID round).length = 0
  · rw [if_pos hne]
  · rw [if_neg hne]
    dsimp only
    rw [htot]
    exact foldl_const_of_not _ h _ _ _

theorem foldl_rewardStep_of_fresh (total : ℚ) (l : List GradientContribution)
    (m : List (String × ℚ)) (hnodup : (l.map GradientContribution.NodeID).Nodup)
    (hfresh : ∀ c ∈ l, c.NodeID ∉ m.map Prod.fst) :
    l.foldl (rewardStep total) m = m ++ l.map (fun c => (c.NodeID, c.Contribution / total)) := by
  induction l generalizing m with
  | nil => simp
  | cons c rest ih =>
    rw [List.map_cons, List.nodup_cons] at hnodup
    rw [List.foldl_cons]
    have hstep : rewardStep total m c = m ++ [(c.NodeID, c.Contribution / total)] :=
      mapSet_of_fresh m _ _ (hfresh c (List.mem_cons_self _ _))
    rw [hstep, ih _ hnodup.2]
    · simp
    · intro x hx hmem
      rw [List.map_append, List.mem_append] at hmem
      rcases hmem with hmem | hmem
      · exact hfresh x (List.mem_cons_of_mem _ hx) hmem
      · simp only [List.map_cons, List.map_nil, List.mem_singleton] at hmem
        exact hnodup.1 (by rw [← hmem]; exact List.mem_map_of_mem _ hx)

theorem lastFor_cons (n : String) (c : GradientContribution) (rest : List GradientContribution) :
    lastFor n (c :: rest) =
      match lastFor n rest with
      | some x => some x
      | none => if c.NodeID = n then some c else none := rfl

theorem mapGet_foldl_rewardStep (total : ℚ) (l : List GradientContribution)
    (m : List (String × ℚ)) (n : String) :
    mapGet (l.foldl (rewardStep total) m) n =
      match lastFor n l with
      | some c => some (c.Contribution / total)
      | none => mapGet m n := by
  induction l generalizing m with
  | nil => rfl
  | cons c rest ih =>
    rw [List.foldl_cons, ih]
    rw [lastFor_cons]
    cases hl : lastFor n rest with
    | some x => rfl
    | none =>
      dsimp only
      by_cases hc : c.NodeID = n
      · rw [if_pos hc]
        dsimp only
        unfold rewardStep
        rw [hc]
        exact mapGet_mapSet_self _ _ _
      · rw [if_neg hc]
        dsimp only
        unfold rewardStep
        exact mapGet_mapSet_ne _ _ (fun h => hc h.symm)

theorem lastFor_eq_none {n : String} {l : List GradientContribution}
    (h : n ∉ l.map GradientContribution.NodeID) : lastFor n l = none := by
  induction l with
  | nil => rfl
  | cons c rest ih =>
    have h1 : c.NodeID ≠ n := fun hc => h (by simp [hc])
    have h2 : n ∉ rest.map GradientContribution.NodeID := fun hc =>
      h (by rw [List.map_cons]; exact List.mem_cons_of_mem _ hc)
    rw [lastFor_cons]
    rw [ih h2]
    dsimp only
    rw [if_neg h1]

theorem lastFor_of_unique {c : GradientContribution} {l : List GradientContribution}
    (hc : c ∈ l) (hu : ∀ x ∈ l, x.NodeID = c.NodeID → x = c) : lastFor c.NodeID l = some c := by
  induction l with
  | nil => simp at hc
  | cons y rest ih =>
    rw [lastFor_cons]
    cases hl : lastFor c.NodeID rest with
    | some x =>
      dsimp only
      by_cases hcr : c ∈ rest
      · have := ih hcr (fun x hx => hu x (List.mem_cons_of_mem _ hx))
        rw [hl] at this
        exact this
      · exfalso
        have hn : c.NodeID ∉ rest.map GradientContribution.NodeID := by
          intro hmem
          obtain ⟨z, hz, hzn⟩ := List.mem_map.1 hmem
          have := hu z (List.mem_cons_of_mem _ hz) hzn
          exact hcr (this ▸ hz)
        rw [lastFor_eq_none hn] at hl
        cases hl
    | none =>
      dsimp only
      have hy : y = c := by
        rcases List.mem_cons.1 hc with h | h
        · exact h.symm
        · exfalso
          have := ih h (fun x hx => hu x (List.mem_cons_of_mem _ hx))
          rw [hl] at this
          cases this
      rw [hy, if_pos rfl]

theorem fairTestCtx_contributions :
    GetGradientContributions fairTestCtx "job-1" 1 =
      [⟨"node-1", "job-1", 1, "QmGradient123", mkRat 1 2, 0⟩,
       ⟨"node-2", "job-1", 1, "QmGradient456", mkRat 3 10, 0⟩,
       ⟨"node-3", "job-1", 1, "QmGradient789", mkRat 1 5, 0⟩] := by
  decide

theorem zeroContribution_contributions :
    GetGradientContributions (singleContributionCtx 0) "job-1" 1 =
      [⟨"node-1", "job-1", 1, "QmGradient123", 0, 0⟩] := by
  decide

theorem negativeContribution_contributions :
    GetGradientContributions (singleContributionCtx (-1)) "job-1" 1 =
      [⟨"node-1", "job-1", 1, "QmGradient123", -1, 0⟩] := by
  decide

theorem repeatedNodeCtx_contributions :
    GetGradientContributions repeatedNodeCtx "job-1" 1 =
      [⟨"node-1", "job-1", 1, "QmGradient123", 1, 0⟩,
       ⟨"node-1", "job-1", 1, "QmGradient456", 1, 0⟩] := by
  decide

theorem roundingCtx_rewards :
    Binary64.CalculateFairRewards roundingCtx "job-1" 1 =
      [("node-1", .finite false 6004799503160661 (-55)),
       ("node-2", .finite false 6004799503160661 (-54)),
       ("node-3", .finite false 9007199254740990 (-54))] := by
  decide

/-- C19, counterexample: with a single recorded contribution of weight 0 for
round 1 of `job-1`, `CalculateFairRewards` returns the empty map, whose values
sum to 0; when `node-1` has two records of weight 1 for that round, the map
holds the single entry `node-1 ↦ 1/2`, whose values sum to 1/2; and with the
contributions 0.1, 0.2 and 0.3 of three nodes the shares computed in `float64`
are `0.16666666666666666`, `0.3333333333333333` and `0.4999999999999999`,
whose `float64` sum is not 1 in any order. -/
theorem CalculateFairRewards_sum_not_one :
    GetGradientContributions (singleContributionCtx 0) "job-1" 1 ≠ [] ∧
    ((CalculateFairRewards (singleContributionCtx 0) "job-1" 1).map Prod.snd).sum ≠ 1 ∧
    GetGradientContributions repeatedNodeCtx "job-1" 1 ≠ [] ∧
    CalculateFairRewards repeatedNodeCtx "job-1" 1 = [("node-1", 1 / 2)] ∧
    ((CalculateFairRewards repeatedNodeCtx "job-1" 1).map Prod.snd).sum ≠ 1 ∧
    (Binary64.CalculateFairRewards roundingCtx "job-1" 1).map Prod.snd =
      [.finite false 6004799503160661 (-55), .finite false 6004799503160661 (-54),
        .finite false 9007199254740990 (-54)] ∧
    (∀ a ∈ (Binary64.CalculateFairRewards roundingCtx "job-1" 1).map Prod.snd,
      ∀ b ∈ (Binary64.CalculateFairRewards roundingCtx "job-1" 1).map Prod.snd,
      ∀ c ∈ (Binary64.CalculateFairRewards roundingCtx "job-1" 1).map Prod.snd,
        a ≠ b → a ≠ c → b ≠ c → Binary64.sum [a, b, c] ≠ .ofNat 1) := by
  have h0 : CalculateFairRewards (singleContributionCtx 0) "job-1" 1 = [] :=
    CalculateFairRewards_of_not_positive
      (by rw [zeroContribution_contributions]; norm_num [contributionSum])
  have h2 : CalculateFairRewards repeatedNodeCtx "job-1" 1 = [("node-1", 1 / 2)] := by
    rw [CalculateFairRewards_of_positive
      (by rw [repeatedNodeCtx_contributions]; norm_num [contributionSum]),
      repeatedNodeCtx_contributions]
    norm_num [contributionSum, rewardStep, mapSet]
  refine ⟨?_, ?_, ?_, h2, ?_, ?_, ?_⟩
  · rw [zeroContribution_contributions]
    exact List.cons_ne_nil _ _
  · rw [h0]
    norm_num
  · rw [repeatedNodeCtx_contributions]
    exact List.cons_ne_nil _ _
  · rw [h2]
    norm_num
  · rw [roundingCtx_rewards]
    rfl
  · rw [roundingCtx_rewards]
    decide

/-- C19, amended: in exact arithmetic, the values of the map returned by
`CalculateFairRewards(j, r)` sum to 1 whenever the contributions that
`GetGradientContributions(j, r)` returns have a positive total and come from
distinct nodes. -/
theorem CalculateFairRewards_sum_one (ctx : Ctx) (j : String) (r : Int)
    (hpos : 0 < contributionSum (GetGradientContributions ctx j r))
    (hnodes : ((GetGradientContributions ctx j r).map GradientContribution.NodeID).Nodup) :
    ((CalculateFairRewards ctx j r).map Prod.snd).sum = 1 := by
  rw [CalculateFairRewards_of_positive hpos,
    foldl_rewardStep_of_fresh _ _ [] hnodes (fun _ _ h => by simp at h)]
  simp only [List.nil_append, List.map_map]
  have : (Prod.snd ∘ fun c : GradientContribution =>
      (c.NodeID, c.Contribution / contributionSum (GetGradientContributions ctx j r))) =
      fun c => c.Contribution * (contributionSum (GetGradientContributions ctx j r))⁻¹ := by
    funext c
    simp [div_eq_mul_inv]
  rw [this, sum_map_mul_const]
  exact mul_inv_cancel₀ (ne_of_gt hpos)

theorem CalculateFairRewards_sum_one_witness :
    0 < contributionSum (GetGradientContributions fairTestCtx "job-1" 1) ∧
    ((GetGradientContributions fairTestCtx "job-1" 1).map GradientContribution.NodeID).Nodup ∧
    ((CalculateFairRewards fairTestCtx "job-1" 1).map Prod.snd).sum = 1 :=
  ⟨by rw [fairTestCtx_contributions]; norm_num [contributionSum, Rat.mkRat_eq_div],
   by rw [fairTestCtx_contributions]; decide,
   CalculateFairRewards_sum_one fairTestCtx "job-1" 1
     (by rw [fairTestCtx_contributions]; norm_num [contributionSum, Rat.mkRat_eq_div])
     (by rw [fairTestCtx_contributions]; decide)⟩

theorem cancellationCtx_contributions :
    GetGradientContributions cancellationCtx "job-1" 1 =
      [⟨"node-1", "job-1", 1, "QmGradient123", 10000000000000000, 0⟩,
       ⟨"node-2", "job-1", 1, "QmGradient456", 1, 0⟩,
       ⟨"node-3", "job-1", 1, "QmGradient789", -10000000000000000, 0⟩] := by
  decide

set_option maxRecDepth 100000 in
theorem cancellationCtx_rewards :
    Binary64.contributionTotal (GetGradientContributions cancellationCtx "job-1" 1) =
      Binary64.zero ∧
    Binary64.CalculateFairRewards cancellationCtx "job-1" 1 = [] := by
  decide

/-- C20, counterexample: with a single recorded contribution of weight 0, or
of weight −1, by `node-1` for round 1 of `job-1`, a record exists but
`CalculateFairRewards` returns the empty map: `node-1` is mapped to nothing,
not to its contribution divided by the total (which is 1 for the weight −1);
and with the contributions `1e16`, 1 and `-1e16` of three nodes, whose sum
is 1, the total computed in `float64` is 0 and the map computed in `float64`
is empty. -/
theorem CalculateFairRewards_empty_with_records :
    GetGradientContributions (singleContributionCtx 0) "job-1" 1 ≠ [] ∧
    CalculateFairRewards (singleContributionCtx 0) "job-1" 1 = [] ∧
    GetGradientContributions (singleContributionCtx (-1)) "job-1" 1 ≠ [] ∧
    CalculateFairRewards (singleContributionCtx (-1)) "job-1" 1 = [] ∧
    mapGet (CalculateFairRewards (singleContributionCtx (-1)) "job-1" 1) "node-1" ≠
      some ((-1) / (-1)) ∧
    contributionSum (GetGradientContributions cancellationCtx "job-1" 1) = 1 ∧
    Binary64.contributionTotal (GetGradientContributions cancellationCtx "job-1" 1) =
      Binary64.zero ∧
    Binary64.CalculateFairRewards cancellationCtx "job-1" 1 = [] := by
  have h0 : CalculateFairRewards (singleContributionCtx 0) "job-1" 1 = [] :=
    CalculateFairRewards_of_not_positive
      (by rw [zeroContribution_contributions]; norm_num [contributionSum])
  have h1 : CalculateFairRewards (singleContributionCtx (-1)) "job-1" 1 = [] :=
    CalculateFairRewards_of_not_positive
      (by rw [negativeContribution_contributions]; norm_num [contributionSum])
  refine ⟨?_, h0, ?_, h1, ?_, ?_, cancellationCtx_rewards.1, cancellationCtx_rewards.2⟩
  · rw [zeroContribution_contributions]
    exact List.cons_ne_nil _ _
  · rw [negativeContribution_contributions]
    exact List.cons_ne_nil _ _
  · rw [h1]
    simp [mapGet]
  · rw [cancellationCtx_contributions]
    norm_num [contributionSum]

theorem CalculateFairRewards_exact (ctx : Ctx) (j : String) (r : Int) :
    (GetGradientContributions ctx j r = [] → CalculateFairRewards ctx j r = []) ∧
    (contributionSum (GetGradientContributions ctx j r) ≤ 0 →
      CalculateFairRewards ctx j r = []) ∧
    (0 < contributionSum (GetGradientContributions ctx j r) →
      (∀ c ∈ GetGradientContributions ctx j r,
        (∀ x ∈ GetGradientContributions ctx j r, x.NodeID = c.NodeID → x = c) →
        mapGet (CalculateFairRewards ctx j r) c.NodeID =
          some (c.Contribution / contributionSum (GetGradientContributions ctx j r))) ∧
      (∀ n, n ∉ (GetGradientContributions ctx j r).map GradientContribution.NodeID →
        mapGet (CalculateFairRewards ctx j r) n = none)) := by
  refine ⟨fun h => ?_, fun h => CalculateFairRewards_of_not_positive (not_lt.2 h), fun h => ?_⟩
  · apply CalculateFairRewards_of_not_positive
    rw [h]
    simp [contributionSum]
  · rw [CalculateFairRewards_of_positive h]
    constructor
    · intro c hc hu
      rw [mapGet_foldl_rewardStep, lastFor_of_unique hc hu]
    · intro n hn
      rw [mapGet_foldl_rewardStep, lastFor_eq_none hn]
      rfl

/-- The scenario of the specification and of the test
`TestCalculateFairRewards` in exact arithmetic: contributions 0.5, 0.3 and 0.2
give the shares 0.5, 0.3 and 0.2, and a round without records gives the empty
map. -/
theorem CalculateFairRewards_test_state :
    CalculateFairRewards fairTestCtx "job-1" 1 =
      [("node-1", 1 / 2), ("node-2", 3 / 10), ("node-3", 1 / 5)] ∧
    CalculateFairRewards fairTestCtx "job-1" 2 = [] := by
  constructor
  · rw [CalculateFairRewards_of_positive
      (by rw [fairTestCtx_contributions]; norm_num [contributionSum, Rat.mkRat_eq_div]),
      fairTestCtx_contributions]
    have h12 : ("node-1" : String) ≠ "node-2" := by decide
    have h13 : ("node-1" : String) ≠ "node-3" := by decide
    have h23 : ("node-2" : String) ≠ "node-3" := by decide
    norm_num [contributionSum, rewardStep, mapSet, Rat.mkRat_eq_div, h12, h13, h23]
  · have : GetGradientContributions fairTestCtx "job-1" 2 = [] := by decide
    apply CalculateFairRewards_of_not_positive
    rw [this]
    simp [contributionSum]

/-- The same scenario in `float64`: the shares are the `float64` values 0.5,
0.3 and 0.2. -/
theorem CalculateFairRewards64_test_state :
    Binary64.CalculateFairRewards fairTestCtx "job-1" 1 =
      [("node-1", .ofRat (mkRat 1 2)), ("node-2", .ofRat (mkRat 3 10)),
        ("node-3", .ofRat (mkRat 1 5))] ∧
    Binary64.CalculateFairRewards fairTestCtx "job-1" 2 = [] := by
  decide

theorem CalculateFairRewards64_of_positive {ctx : Ctx} {jobID : String} {round : Int}
    (h : Binary64.lt .zero
      (Binary64.contributionTotal (GetGradientContributions ctx jobID round)) = true) :
    Binary64.CalculateFairRewards ctx jobID round =
      (GetGradientContributions ctx jobID round).foldl
        (Binary64.rewardStep
          (Binary64.contributionTotal (GetGradientContributions ctx jobID round))) [] := by
  have hne : (GetGradientContributions ctx jobID round).length ≠ 0 := by
    intro hc
    rw [List.length_eq_zero.1 hc] at h
    exact absurd h (by decide)
  unfold Binary64.CalculateFairRewards
  rw [if_neg hne]
  dsimp only
  congr 1
  funext rewards c
  exact if_pos h

theorem CalculateFairRewards64_of_not_positive {ctx : Ctx} {jobID : String} {round : Int}
    (h : Binary64.lt .zero
      (Binary64.contributionTotal (GetGradientContributions ctx jobID round)) = false) :
    Binary64.CalculateFairRewards ctx jobID round = [] := by
  have hn : ¬ Binary64.lt .zero
      (Binary64.contributionTotal (GetGradientContributions ctx jobID round)) = true := by
    rw [h]
    exact Bool.false_ne_true
  unfold Binary64.CalculateFairRewards
  by_cases hne : (GetGradientContributions ctx jobID round).length = 0
  · rw [if_pos hne]
  · rw [if_neg hne]
    dsimp only
    exact foldl_const_of_not _ hn _ _ _

theorem mapGet_foldl_rewardStep64 (total : Binary64) (l : List GradientContribution)
    (m : List (String × Binary64)) (n : String) :
    mapGet (l.foldl (Binary64.rewardStep total) m) n =
      match lastFor n l with
      | some c => some (Binary64.div (.ofRat c.Contribution) total)
      | none => mapGet m n := by
  induction l generalizing m with
  | nil => rfl
  | cons c rest ih =>
    rw [List.foldl_cons, ih]
    rw [lastFor_cons]
    cases hl : lastFor n rest with
    | some x => rfl
    | none =>
      dsimp only
      by_cases hc : c.NodeID = n
      · rw [if_pos hc]
        dsimp only
        unfold Binary64.rewardStep
        rw [hc]
        exact mapGet_mapSet_self _ _ _
      · rw [if_neg hc]
        dsimp only
        unfold Binary64.rewardStep
        exact mapGet_mapSet_ne _ _ (fun h => hc h.symm)

theorem CalculateFairRewards_float64 (ctx : Ctx) (j : String) (r : Int) :
    (GetGradientContributions ctx j r = [] → Binary64.CalculateFairRewards ctx j r = []) ∧
    (Binary64.lt .zero (Binary64.contributionTotal (GetGradientContributions ctx j r)) = false →
      Binary64.CalculateFairRewards ctx j r = []) ∧
    (Binary64.lt .zero (Binary64.contributionTotal (GetGradientContributions ctx j r)) = true →
      (∀ c ∈ GetGradientContributions ctx j r,
        (∀ x ∈ GetGradientContributions ctx j r, x.NodeID = c.NodeID → x = c) →
        mapGet (Binary64.CalculateFairRewards ctx j r) c.NodeID =
          some (Binary64.div (.ofRat c.Contribution)
            (Binary64.contributionTotal (GetGradientContributions ctx j r)))) ∧
      (∀ n, n ∉ (GetGradientContributions ctx j r).map GradientContribution.NodeID →
        mapGet (Binary64.CalculateFairRewards ctx j r) n = none)) := by
  refine ⟨fun h => ?_, fun h => CalculateFairRewards64_of_not_positive h, fun h => ?_⟩
  · apply CalculateFairRewards64_of_not_positive
    rw [h]
    decide
  · rw [CalculateFairRewards64_of_positive h]
    constructor
    · intro c hc hu
      rw [mapGet_foldl_rewardStep64, lastFor_of_unique hc hu]
    · intro n hn
      rw [mapGet_foldl_rewardStep64, lastFor_eq_none hn]
      rfl

/-- C20, amended: `CalculateFairRewards(j, r)` returns the empty map when
`GetGradientContributions(j, r)` returns no record, and also when the total of
the returned contributions is not positive; when the total is positive, every
node with exactly one returned record is mapped to that record's contribution
divided by the total, and a node without a returned record is not in the map.
This holds in exact arithmetic, and it holds of the `float64` computation with
the total being the `float64` sum of the contributions in key order and the
share the `float64` quotient; contributions 0.5, 0.3 and 0.2 of three nodes
give the shares 0.5, 0.3 and 0.2 in both. -/
theorem CalculateFairRewards_spec (ctx : Ctx) (j : String) (r : Int) :
    ((GetGradientContributions ctx j r = [] → CalculateFairRewards ctx j r = []) ∧
      (contributionSum (GetGradientContributions ctx j r) ≤ 0 →
        CalculateFairRewards ctx j r = []) ∧
      (0 < contributionSum (GetGradientContributions ctx j r) →
        (∀ c ∈ GetGradientContributions ctx j r,
          (∀ x ∈ GetGradientContributions ctx j r, x.NodeID = c.NodeID → x = c) →
          mapGet (CalculateFairRewards ctx j r) c.NodeID =
            some (c.Contribution / contributionSum (GetGradientContributions ctx j r))) ∧
        (∀ n, n ∉ (GetGradientContributions ctx j r).map GradientContribution.NodeID →
          mapGet (CalculateFairRewards ctx j r) n = none))) ∧
    ((GetGradientContributions ctx j r = [] → Binary64.CalculateFairRewards ctx j r = []) ∧
      (Binary64.lt .zero
          (Binary64.contributionTotal (GetGradientContributions ctx j r)) = false →
        Binary64.CalculateFairRewards ctx j r = []) ∧
      (Binary64.lt .zero
          (Binary64.contributionTotal (GetGradientContributions ctx j r)) = true →
        (∀ c ∈ GetGradientContributions ctx j r,
          (∀ x ∈ GetGradientContributions ctx j r, x.NodeID = c.NodeID → x = c) →
          mapGet (Binary64.CalculateFairRewards ctx j r) c.NodeID =
            some (Binary64.div (.ofRat c.Contribution)
              (Binary64.contributionTotal (GetGradientContributions ctx j r)))) ∧
        (∀ n, n ∉ (GetGradientContributions ctx j r).map GradientContribution.NodeID →
          mapGet (Binary64.CalculateFairRewards ctx j r) n = none))) ∧
    (CalculateFairRewards fairTestCtx "job-1" 1 =
        [("node-1", 1 / 2), ("node-2", 3 / 10), ("node-3", 1 / 5)] ∧
      Binary64.CalculateFairRewards fairTestCtx "job-1" 1 =
        [("node-1", .ofRat (mkRat 1 2)), ("node-2", .ofRat (mkRat 3 10)),
          ("node-3", .ofRat (mkRat 1 5))]) :=
  ⟨CalculateFairRewards_exact ctx j r, CalculateFairRewards_float64 ctx j r,
    CalculateFairRewards_test_state.1, CalculateFairRewards64_test_state.1⟩

theorem CalculateFairRewards_spec_witness :
    0 < contributionSum (GetGradientContributions fairTestCtx "job-1" 1) ∧
    Binary64.lt .zero
      (Binary64.contributionTotal (GetGradientContributions fairTestCtx "job-1" 1)) = true ∧
    mapGet (CalculateFairRewards fairTestCtx "job-1" 1) "node-4" = none ∧
    mapGet (Binary64.CalculateFairRewards fairTestCtx "job-1" 1) "node-4" = none :=
  ⟨by rw [fairTestCtx_contributions]; norm_num [contributionSum, Rat.mkRat_eq_div],
   by decide,
   ((CalculateFairRewards_spec fairTestCtx "job-1" 1).1.2.2
     (by rw [fairTestCtx_contributions]; norm_num [contributionSum, Rat.mkRat_eq_div])).2
     "node-4" (by rw [fairTestCtx_contributions]; decide),
   ((CalculateFairRewards_spec fairTestCtx "job-1" 1).2.1.2.2 (by decide)).2
     "node-4" (by rw [fairTestCtx_contributions]; decide)⟩

/-! ## Identifiers derived from the block time, and ignored errors -/

/-- C26: from the state with `job-1` at block time 2000, `CreateTask` for
`shard-1` and then, at the same block time, `CreateTask` for `shard-2` both
succeed and return the same task id `task-2000`; the task list of the job is
afterwards `[task-2000, task-2000]`, a duplicate, and the only task stored
under that id is the second one. -/
theorem CreateTask_same_block_time :
    (CreateTask invTestCtx (some createTestMsg)).1 = .ok "task-2000" ∧
    (GetJob (CreateTask invTestCtx (some createTestMsg)).2 "job-1").map Job.Tasks =
      some ["task-2000"] ∧
    (CreateTask (CreateTask invTestCtx (some createTestMsg)).2 (some createOtherMsg)).1 =
      .ok "task-2000" ∧
    (GetJob (CreateTask (CreateTask invTestCtx (some createTestMsg)).2
        (some createOtherMsg)).2 "job-1").map Job.Tasks =
      some ["task-2000", "task-2000"] ∧
    (GetTask (CreateTask (CreateTask invTestCtx (some createTestMsg)).2
        (some createOtherMsg)).2 "task-2000").map Task.ShardID = some "shard-2" := by
  decide

/-- C27: after the message of the test `TestRegisterModel` is registered,
registering the same name and version with the content id `QmOther456`
returns successfully the id `model-test-model-1.0.0`, and `GetModel` of that
id yields a model whose cid is `QmModel123`, not the cid of the message. -/
theorem RegisterModel_existing_reported_ok :
    (MsgServer.RegisterModel {} (some modelTestMsg)).1 = .ok "model-test-model-1.0.0" ∧
    (MsgServer.RegisterModel (MsgServer.RegisterModel {} (some modelTestMsg)).2
        (some modelOtherMsg)).1 = .ok "model-test-model-1.0.0" ∧
    (Keeper.RegisterModel (MsgServer.RegisterModel {} (some modelTestMsg)).2
        { ID := "model-test-model-1.0.0", Name := "test-model", Version := "1.0.0",
          CID := "QmOther456", CreatedAt := 0, Metadata := [] }).1 = some .modelExists ∧
    (GetModel (MsgServer.RegisterModel (MsgServer.RegisterModel {} (some modelTestMsg)).2
        (some modelOtherMsg)).2 "model-test-model-1.0.0").map Model.CID = some "QmModel123" ∧
    modelOtherMsg.Cid ≠ "QmModel123" := by
  decide

/-- C28: with a single stored contribution, to round 1 of the job `job-1:x`,
`GetGradientContributions("job-1", 1)` returns that record, whose `JobID` is
not `job-1`. -/
theorem GetGradientContributions_other_job :
    colonJobCtx.gradients = [⟨"node-1", "job-1:x", 1, "QmGradient123", 1, 0⟩] ∧
    GetGradientContributions colonJobCtx "job-1" 1 =
      [⟨"node-1", "job-1:x", 1, "QmGradient123", 1, 0⟩] ∧
    (GetGradientContributions colonJobCtx "job-1" 1).map GradientContribution.JobID ≠
      ["job-1"] := by
  decide

/-- C29: at block time 1000, `SubmitJob` for `model-1` and then, at the same
block time, `SubmitJob` for `model-2` both succeed and return the same job id
`job-1000`; the job stored by the first call is replaced by the job of the
second. -/
theorem SubmitJob_same_block_time :
    (SubmitJob submitTestCtx (some submitTestMsg)).1 = .ok "job-1000" ∧
    (GetJob (SubmitJob submitTestCtx (some submitTestMsg)).2 "job-1000").map Job.ModelID =
      some "model-1" ∧
    (SubmitJob (SubmitJob submitTestCtx (some submitTestMsg)).2 (some submitOtherMsg)).1 =
      .ok "job-1000" ∧
    (GetJob (SubmitJob (SubmitJob submitTestCtx (some submitTestMsg)).2
        (some submitOtherMsg)).2 "job-1000").map Job.ModelID = some "model-2" := by
  decide

/-- C30: on a fresh manager with 8 CPUs and 16 GB, allocating `(2, 4)` and
then `(1, 1)` to the same task id `task-1` succeeds twice; the map then holds
the single entry `(1, 1)` while the counters are 3 and 5; releasing `task-1`,
the only allocated id, empties the map and leaves the counters at 2 and 4. -/
theorem AllocateResources_same_task_twice :
    (AllocateResources (NewManager 8 16) "task-1" 2 4).1 = none ∧
    (AllocateResources (AllocateResources (NewManager 8 16) "task-1" 2 4).2 "task-1" 1 1).1 =
      none ∧
    reallocatedManager.allocations = [("task-1", ⟨"task-1", 1, 1⟩)] ∧
    reallocatedManager.allocatedCPU = 3 ∧ allocationsCPU reallocatedManager.allocations = 1 ∧
    reallocatedManager.allocatedMemory = 5 ∧
    allocationsMemory reallocatedManager.allocations = 1 ∧
    (ReleaseResources reallocatedManager "task-1").2.allocations = [] ∧
    (ReleaseResources reallocatedManager "task-1").2.allocatedCPU = 2 ∧
    (ReleaseResources reallocatedManager "task-1").2.allocatedMemory = 4 := by
  decide

/-! ## The fields that `UpdateTaskStatus` writes -/

theorem updatedTask_fields (now : Time) (task : Task) (msg : MsgUpdateTaskStatus) :
    (0 ≤ msg.Progress → (updatedTask now task msg).Progress = msg.Progress) ∧
    (msg.Progress < 0 → (updatedTask now task msg).Progress = task.Progress) ∧
    (msg.CheckpointCid ≠ "" → (updatedTask now task msg).CheckpointCID = msg.CheckpointCid) ∧
    (msg.CheckpointCid = "" → (updatedTask now task msg).CheckpointCID = task.CheckpointCID) ∧
    (updatedTask now task msg).JobID = task.JobID ∧
    (updatedTask now task msg).ShardID = task.ShardID ∧
    (updatedTask now task msg).CreatedAt = task.CreatedAt ∧
    (updatedTask now task msg).UpdatedAt = now := by
  unfold updatedTask
  dsimp only
  by_cases h₁ : msg.Progress ≥ 0 <;> by_cases h₂ : msg.CheckpointCid ≠ ""
  · rw [if_pos h₁, if_pos h₂]
    exact ⟨fun _ => rfl, fun h => absurd h₁ (not_le.2 h), fun _ => rfl, fun h => absurd h h₂,
      rfl, rfl, rfl, rfl⟩
  · rw [if_pos h₁, if_neg h₂]
    exact ⟨fun _ => rfl, fun h => absurd h₁ (not_le.2 h), fun h => absurd h h₂, fun _ => rfl,
      rfl, rfl, rfl, rfl⟩
  · rw [if_neg h₁, if_pos h₂]
    exact ⟨fun h => absurd h h₁, fun _ => rfl, fun _ => rfl, fun h => absurd h h₂,
      rfl, rfl, rfl, rfl⟩
  · rw [if_neg h₁, if_neg h₂]
    exact ⟨fun h => absurd h h₁, fun _ => rfl, fun h => absurd h h₂, fun _ => rfl,
      rfl, rfl, rfl, rfl⟩

/-- C25: for a stored task, `UpdateTaskStatus` stores the task with the
progress of the message when that value is `≥ 0` and with its former progress
otherwise, with the checkpoint cid of the message when that is non-empty and
its former one otherwise, and with `id`, `job_id`, `shard_id`, `node_id` and
`created_at` as before; for an absent task id it fails with `TaskNotFound`
and the context is unchanged. -/
theorem UpdateTaskStatus_frame (ctx : Ctx) (msg : MsgUpdateTaskStatus) (task : Task)
    (h : GetTask ctx msg.TaskId = some task) :
    (∃ t, GetTask (UpdateTaskStatus ctx (some msg)).2 msg.TaskId = some t ∧
      (0 ≤ msg.Progress → t.Progress = msg.Progress) ∧
      (msg.Progress < 0 → t.Progress = task.Progress) ∧
      (msg.CheckpointCid ≠ "" → t.CheckpointCID = msg.CheckpointCid) ∧
      (msg.CheckpointCid = "" → t.CheckpointCID = task.CheckpointCID) ∧
      t.ID = task.ID ∧ t.JobID = task.JobID ∧ t.ShardID = task.ShardID ∧
      t.NodeID = task.NodeID ∧ t.CreatedAt = task.CreatedAt) ∧
    (∀ (c : Ctx) (m : MsgUpdateTaskStatus), GetTask c m.TaskId = none →
      UpdateTaskStatus c (some m) = (.error .taskNotFound, c)) := by
  have hf := updatedTask_fields ctx.blockTime task msg
  have hid : (updatedTask ctx.blockTime task msg).ID = msg.TaskId :=
    (updatedTask_ID _ _ _).trans (storeGet_key h)
  refine ⟨?_, fun c m hc => UpdateTaskStatus_of_absent hc⟩
  rw [UpdateTaskStatus_of_present h]
  refine ⟨updatedTask ctx.blockTime task msg, ?_, hf.1, hf.2.1, hf.2.2.1, hf.2.2.2.1,
    updatedTask_ID _ _ _, hf.2.2.2.2.1, hf.2.2.2.2.2.1, updatedTask_NodeID _ _ _,
    hf.2.2.2.2.2.2.1⟩
  have := storeGet_storeSet_self (K := Task.ID) ctx.tasks (updatedTask ctx.blockTime task msg)
  rw [hid] at this
  exact this

theorem UpdateTaskStatus_frame_witness :
    GetTask updateTestCtx updateTestMsg.TaskId = some updateTestTask ∧
    (∃ t, GetTask (UpdateTaskStatus updateTestCtx (some updateTestMsg)).2 "task-1" = some t ∧
      t.Progress = mkRat 1 2 ∧ t.CheckpointCID = "QmCheckpoint123" ∧ t.NodeID = "node-1") := by
  refine ⟨by decide, ?_⟩
  obtain ⟨t, ht, hp, _, hc, _, _, _, _, hn, _⟩ :=
    (UpdateTaskStatus_frame updateTestCtx updateTestMsg updateTestTask (by decide)).1
  exact ⟨t, ht, hp (by decide), hc (by decide), hn⟩

/-! ## Node selection for inference -/

theorem mem_inferenceCandidates {ctx : Ctx} {n : Node} :
    n ∈ inferenceCandidates ctx ↔
      n ∈ ctx.nodes ∧ n.Status = "online" ∧ n.ActiveTasks.length < 10 := by
  unfold inferenceCandidates GetAllNodes
  rw [List.mem_filter, decide_eq_true_iff]

theorem inferenceCandidates_wf {ctx : Ctx} (h : StoreWF Node.ID ctx.nodes) :
    StoreWF Node.ID (inferenceCandidates ctx) :=
  List.Pairwise.sublist (List.filter_sublist _) h

theorem SelectNodeForInference_of_no_candidates {ctx : Ctx} (m s : String)
    (h : inferenceCandidates ctx = []) :
    ∃ e, SelectNodeForInference ctx m s = (("", some e), ctx) := by
  unfold SelectNodeForInference
  dsimp only
  by_cases h₀ : (GetAllNodes ctx).length = 0
  · rw [if_pos h₀]
    exact ⟨_, rfl⟩
  · rw [if_neg h₀]
    have h₁ : (List.filter (fun node => decide (node.Status = "online" ∧
        node.ActiveTasks.length < 10)) (GetAllNodes ctx)).length = 0 :=
      List.length_eq_zero.2 h
    rw [if_pos h₁]
    exact ⟨_, rfl⟩

theorem SelectNodeForInference_of_candidates {ctx : Ctx} (m s : String)
    (h : inferenceCandidates ctx ≠ []) :
    SelectNodeForInference ctx m s =
      if s = "round_robin" then selectRoundRobin ctx (inferenceCandidates ctx)
      else if s = "least_loaded" then selectLeastLoaded ctx (inferenceCandidates ctx)
      else if s = "best_reputation" then selectBestReputation ctx (inferenceCandidates ctx)
      else selectRoundRobin ctx (inferenceCandidates ctx) := by
  have h₁ : ¬ (List.filter (fun node => decide (node.Status = "online" ∧
      node.ActiveTasks.length < 10)) (GetAllNodes ctx)).length = 0 :=
    fun e => h (List.length_eq_zero.1 e)
  have h₀ : ¬ (GetAllNodes ctx).length = 0 := by
    intro e
    apply h
    unfold inferenceCandidates
    rw [List.length_eq_zero.1 e]
    rfl
  unfold SelectNodeForInference
  dsimp only
  rw [if_neg h₀, if_neg h₁]
  rfl

theorem selectRoundRobin_of_ne (ctx : Ctx) {nodes : List Node} (h : nodes ≠ []) :
    ∃ c, nodes.get? (storedIndex ctx % nodes.length) = some c ∧ c ∈ nodes ∧
      selectRoundRobin ctx nodes =
        ((c.ID, none), { ctx with roundRobinIndex := some ((storedIndex ctx + 1) % 2 ^ 64) }) := by
  have hlt : storedIndex ctx % nodes.length < nodes.length :=
    Nat.mod_lt _ (List.length_pos.2 h)
  cases hg : nodes.get? (storedIndex ctx % nodes.length) with
  | none => exact absurd (List.get?_eq_none.1 hg) (not_le.2 hlt)
  | some c =>
    refine ⟨c, rfl, List.get?_mem hg, ?_⟩
    unfold selectRoundRobin
    dsimp only
    change (match nodes.get? (storedIndex ctx % nodes.length) with
      | none => (("", some Err.indexOutOfRange), ctx)
      | some selected => ((selected.ID, none),
          { ctx with roundRobinIndex := some ((storedIndex ctx + 1) % 2 ^ 64) })) = _
    rw [hg]

theorem leastLoadedLoop_mem (rest : List Node) : ∀ (cur : Node) (m : Nat),
    leastLoadedLoop rest cur m ∈ cur :: rest := by
  induction rest with
  | nil => intro cur m; exact List.mem_singleton.2 rfl
  | cons node rest ih =>
    intro cur m
    unfold leastLoadedLoop
    dsimp only
    by_cases h : node.ActiveTasks.length < m
    · rw [if_pos h]
      exact List.mem_cons_of_mem _ (ih node _)
    · rw [if_neg h]
      rcases List.mem_cons.1 (ih cur m) with e | e
      · rw [e]; exact List.mem_cons_self _ _
      · exact List.mem_cons_of_mem _ (List.mem_cons_of_mem _ e)

theorem bestReputationLoop_mem (rest : List Node) : ∀ (cur : Node) (m : ℚ),
    bestReputationLoop rest cur m ∈ cur :: rest := by
  induction rest with
  | nil => intro cur m; exact List.mem_singleton.2 rfl
  | cons node rest ih =>
    intro cur m
    unfold bestReputationLoop
    by_cases h : node.Reputation > m
    · rw [if_pos h]
      exact List.mem_cons_of_mem _ (ih node _)
    · rw [if_neg h]
      rcases List.mem_cons.1 (ih cur m) with e | e
      · rw [e]; exact List.mem_cons_self _ _
      · exact List.mem_cons_of_mem _ (List.mem_cons_of_mem _ e)

theorem select_of_ne (ctx : Ctx) (s : String) {nodes : List Node} (h : nodes ≠ []) :
    ∃ c ∈ nodes,
      (if s = "round_robin" then selectRoundRobin ctx nodes
       else if s = "least_loaded" then selectLeastLoaded ctx nodes
       else if s = "best_reputation" then selectBestReputation ctx nodes
       else selectRoundRobin ctx nodes).1 = (c.ID, none) := by
  obtain ⟨c, _, hc, hr⟩ := selectRoundRobin_of_ne ctx h
  by_cases h₁ : s = "round_robin"
  · rw [if_pos h₁, hr]
    exact ⟨c, hc, rfl⟩
  · rw [if_neg h₁]
    cases nodes with
    | nil => exact absurd rfl h
    | cons first rest =>
      by_cases h₂ : s = "least_loaded"
      · rw [if_pos h₂]
        exact ⟨_, leastLoadedLoop_mem rest first _, rfl⟩
      · rw [if_neg h₂]
        by_cases h₃ : s = "best_reputation"
        · rw [if_pos h₃]
          exact ⟨_, bestReputationLoop_mem rest first _, rfl⟩
        · rw [if_neg h₃, hr]
          exact ⟨c, hc, rfl⟩

/-- C22: `SelectNodeForInference` returns an error exactly when no stored node
is online with fewer than 10 active tasks (the context is then unchanged);
when it returns no error, the returned id is that of a stored node that is
online with fewer than 10 active tasks; and a strategy other than
`round_robin`, `least_loaded` and `best_reputation` gives the result and the
context of `round_robin`. -/
theorem SelectNodeForInference_spec (ctx : Ctx) (m s : String) :
    ((SelectNodeForInference ctx m s).1.2 ≠ none ↔
      ∀ n ∈ ctx.nodes, ¬ (n.Status = "online" ∧ n.ActiveTasks.length < 10)) ∧
    ((SelectNodeForInference ctx m s).1.2 ≠ none → (SelectNodeForInference ctx m s).2 = ctx) ∧
    ((SelectNodeForInference ctx m s).1.2 = none →
      ∃ n ∈ ctx.nodes, n.Status = "online" ∧ n.ActiveTasks.length < 10 ∧
        (SelectNodeForInference ctx m s).1.1 = n.ID) ∧
    (s ≠ "round_robin" → s ≠ "least_loaded" → s ≠ "best_reputation" →
      SelectNodeForInference ctx m s = SelectNodeForInference ctx m "round_robin") := by
  by_cases hc : inferenceCandidates ctx = []
  · obtain ⟨e, he⟩ := SelectNodeForInference_of_no_candidates m s hc
    obtain ⟨e', he'⟩ := SelectNodeForInference_of_no_candidates m "round_robin" hc
    have hnone : ∀ n ∈ ctx.nodes, ¬ (n.Status = "online" ∧ n.ActiveTasks.length < 10) := by
      intro n hn hp
      have : n ∈ inferenceCandidates ctx := mem_inferenceCandidates.2 ⟨hn, hp⟩
      rw [hc] at this
      exact List.not_mem_nil _ this
    refine ⟨⟨fun _ => hnone, fun _ => by rw [he]; exact Option.some_ne_none _⟩,
      fun _ => by rw [he], fun h => ?_, fun h₁ h₂ h₃ => ?_⟩
    · rw [he] at h
      exact absurd h (Option.some_ne_none _)
    · unfold SelectNodeForInference
      dsimp only
      rw [if_neg h₁, if_neg h₂, if_neg h₃, if_pos rfl]
  · obtain ⟨c, hcm, hr⟩ := select_of_ne ctx s hc
    rw [← SelectNodeForInference_of_candidates m s hc] at hr
    have hcn := mem_inferenceCandidates.1 hcm
    refine ⟨⟨fun h => absurd (by rw [hr]) h, fun h => absurd hcn.2 (h c hcn.1)⟩,
      fun h => absurd (by rw [hr]) h, fun _ => ⟨c, hcn.1, hcn.2.1, hcn.2.2, by rw [hr]⟩,
      fun h₁ h₂ h₃ => ?_⟩
    rw [SelectNodeForInference_of_candidates m s hc,
      SelectNodeForInference_of_candidates m "round_robin" hc, if_neg h₁, if_neg h₂, if_neg h₃,
      if_pos rfl]

/-- C23, counterexample: with the candidates `n1`, `n2`, `n3` and
the stored index `2^64 - 1`, a round-robin pick returns `n1` and stores the
index 0, which is not the stored index plus one; the next pick returns `n1`
again. -/
theorem round_robin_last_index :
    storedIndex lastIndexCtx = 2 ^ 64 - 1 ∧
    (SelectNodeForInference lastIndexCtx "model-1" "round_robin").1 = ("n1", none) ∧
    storedIndex (pickRoundRobin lastIndexCtx) = 0 ∧
    storedIndex (pickRoundRobin lastIndexCtx) ≠ storedIndex lastIndexCtx + 1 ∧
    (SelectNodeForInference (pickRoundRobin lastIndexCtx) "model-1" "round_robin").1 =
      ("n1", none) := by
  decide

/-- C23, amended: with strategy `round_robin`, a non-empty candidate set
`c_0..c_{n-1}` (in id order when the store is) and stored index `k` (0 when
the key is absent), `SelectNodeForInference` returns `c_{k mod n}` and stores
the index `(k + 1) mod 2^64`, which is `k + 1` whenever `k + 1 < 2^64`; the
nodes, hence the candidates, are unchanged; so from no stored index with the
candidates `n1`, `n2`, `n3` four successive picks return `n1`, `n2`, `n3`,
`n1`. -/
theorem SelectNodeForInference_round_robin (ctx : Ctx) (m : String)
    (hne : inferenceCandidates ctx ≠ []) :
    (∃ c, (inferenceCandidates ctx).get?
        (storedIndex ctx % (inferenceCandidates ctx).length) = some c ∧
      SelectNodeForInference ctx m "round_robin" =
        ((c.ID, none), { ctx with roundRobinIndex := some ((storedIndex ctx + 1) % 2 ^ 64) })) ∧
    storedIndex (SelectNodeForInference ctx m "round_robin").2 = (storedIndex ctx + 1) % 2 ^ 64 ∧
    (storedIndex ctx + 1 < 2 ^ 64 →
      storedIndex (SelectNodeForInference ctx m "round_robin").2 = storedIndex ctx + 1) ∧
    inferenceCandidates (SelectNodeForInference ctx m "round_robin").2 =
      inferenceCandidates ctx ∧
    (StoreWF Node.ID ctx.nodes → StoreWF Node.ID (inferenceCandidates ctx)) ∧
    ((SelectNodeForInference threeNodesCtx "model-1" "round_robin").1 = ("n1", none) ∧
      (SelectNodeForInference (pickRoundRobin threeNodesCtx) "model-1" "round_robin").1 =
        ("n2", none) ∧
      (SelectNodeForInference (pickRoundRobin (pickRoundRobin threeNodesCtx)) "model-1"
        "round_robin").1 = ("n3", none) ∧
      (SelectNodeForInference (pickRoundRobin (pickRoundRobin (pickRoundRobin threeNodesCtx)))
        "model-1" "round_robin").1 = ("n1", none)) := by
  obtain ⟨c, hg, _, hr⟩ := selectRoundRobin_of_ne ctx hne
  have hs : SelectNodeForInference ctx m "round_robin" =
      ((c.ID, none), { ctx with roundRobinIndex := some ((storedIndex ctx + 1) % 2 ^ 64) }) := by
    rw [SelectNodeForInference_of_candidates m "round_robin" hne, if_pos rfl, hr]
  refine ⟨⟨c, hg, hs⟩, ?_, fun h => ?_, ?_, inferenceCandidates_wf, by decide⟩
  · rw [hs]
    rfl
  · rw [hs]
    exact Nat.mod_eq_of_lt h
  · rw [hs]
    rfl

theorem SelectNodeForInference_round_robin_witness :
    inferenceCandidates threeNodesCtx ≠ [] ∧
    storedIndex (SelectNodeForInference threeNodesCtx "model-1" "round_robin").2 =
      (storedIndex threeNodesCtx + 1) % 2 ^ 64 :=
  ⟨by decide, (SelectNodeForInference_round_robin threeNodesCtx "model-1" (by decide)).2.1⟩

theorem leastLoadedLoop_nil (cur : Node) (m : Nat) : leastLoadedLoop [] cur m = cur := rfl

theorem leastLoadedLoop_cons_lt {node cur : Node} {m : Nat} (rest : List Node)
    (h : node.ActiveTasks.length < m) :
    leastLoadedLoop (node :: rest) cur m = leastLoadedLoop rest node node.ActiveTasks.length := by
  rw [leastLoadedLoop]
  exact if_pos h

theorem leastLoadedLoop_cons_ge {node cur : Node} {m : Nat} (rest : List Node)
    (h : ¬ node.ActiveTasks.length < m) :
    leastLoadedLoop (node :: rest) cur m = leastLoadedLoop rest cur m := by
  rw [leastLoadedLoop]
  exact if_neg h

theorem bestReputationLoop_nil (cur : Node) (m : ℚ) : bestReputationLoop [] cur m = cur := rfl

theorem bestReputationLoop_cons_gt {node cur : Node} {m : ℚ} (rest : List Node)
    (h : node.Reputation > m) :
    bestReputationLoop (node :: rest) cur m = bestReputationLoop rest node node.Reputation := by
  rw [bestReputationLoop]
  exact if_pos h

theorem bestReputationLoop_cons_le {node cur : Node} {m : ℚ} (rest : List Node)
    (h : ¬ node.Reputation > m) :
    bestReputationLoop (node :: rest) cur m = bestReputationLoop rest cur m := by
  rw [bestReputationLoop]
  exact if_neg h

theorem storeWF_skip {cur node : Node} {rest : List Node}
    (h : StoreWF Node.ID (cur :: node :: rest)) : StoreWF Node.ID (cur :: rest) :=
  List.pairwise_cons.2 ⟨fun a ha => (List.pairwise_cons.1 h).1 a (List.mem_cons_of_mem _ ha),
    (List.pairwise_cons.1 (List.pairwise_cons.1 h).2).2⟩

theorem leastLoadedLoop_spec (rest : List Node) : ∀ (cur : Node),
    StoreWF Node.ID (cur :: rest) →
    (∀ x ∈ cur :: rest,
      (leastLoadedLoop rest cur cur.ActiveTasks.length).ActiveTasks.length ≤
        x.ActiveTasks.length) ∧
    (∀ x ∈ cur :: rest,
      x.ActiveTasks.length =
        (leastLoadedLoop rest cur cur.ActiveTasks.length).ActiveTasks.length →
      x = leastLoadedLoop rest cur cur.ActiveTasks.length ∨
        keyLt (leastLoadedLoop rest cur cur.ActiveTasks.length).ID x.ID) := by
  induction rest with
  | nil =>
    intro cur _
    rw [leastLoadedLoop_nil]
    exact ⟨fun x hx => by rw [List.mem_singleton.1 hx],
      fun x hx _ => Or.inl (List.mem_singleton.1 hx)⟩
  | cons node rest ih =>
    intro cur hwf
    have hwf₁ := List.pairwise_cons.1 hwf
    have hcn : keyLt cur.ID node.ID := hwf₁.1 node (List.mem_cons_self _ _)
    by_cases h : node.ActiveTasks.length < cur.ActiveTasks.length
    · rw [leastLoadedLoop_cons_lt rest h]
      obtain ⟨hmin, htie⟩ := ih node hwf₁.2
      generalize leastLoadedLoop rest node node.ActiveTasks.length = r at hmin htie ⊢
      have hrn : r.ActiveTasks.length ≤ node.ActiveTasks.length :=
        hmin node (List.mem_cons_self _ _)
      refine ⟨fun x hx => ?_, fun x hx hxe => ?_⟩
      · rcases List.mem_cons.1 hx with e | e
        · rw [e]
          exact le_trans hrn (le_of_lt h)
        · exact hmin x e
      · rcases List.mem_cons.1 hx with e | e
        · rw [e] at hxe
          rw [hxe] at h
          exact absurd hrn (not_le.2 h)
        · exact htie x e hxe
    · rw [leastLoadedLoop_cons_ge rest h]
      have hwf₂ : StoreWF Node.ID (cur :: rest) := storeWF_skip hwf
      obtain ⟨hmin, htie⟩ := ih cur hwf₂
      have hmem := leastLoadedLoop_mem rest cur cur.ActiveTasks.length
      generalize leastLoadedLoop rest cur cur.ActiveTasks.length = r at hmin htie hmem ⊢
      have hrc : r.ActiveTasks.length ≤ cur.ActiveTasks.length :=
        hmin cur (List.mem_cons_self _ _)
      refine ⟨fun x hx => ?_, fun x hx hxe => ?_⟩
      · rcases List.mem_cons.1 hx with e | e
        · rw [e]
          exact hrc
        · rcases List.mem_cons.1 e with e | e
          · rw [e]
            exact le_trans hrc (not_lt.1 h)
          · exact hmin x (List.mem_cons_of_mem _ e)
      · rcases List.mem_cons.1 hx with e | e
        · exact htie x (by rw [e]; exact List.mem_cons_self _ _) hxe
        · rcases List.mem_cons.1 e with e | e
          · rw [e] at hxe ⊢
            have hcr : cur.ActiveTasks.length = r.ActiveTasks.length :=
              le_antisymm (by rw [← hxe]; exact not_lt.1 h) hrc
            have hcur : cur = r := by
              rcases htie cur (List.mem_cons_self _ _) hcr with e₁ | e₁
              · exact e₁
              · rcases List.mem_cons.1 hmem with e₂ | e₂
                · exact e₂.symm
                · exact absurd (keyLt_trans e₁ ((List.pairwise_cons.1 hwf₂).1 r e₂))
                    (keyLt_irrefl _)
            right
            rw [← hcur]
            exact hcn
          · exact htie x (List.mem_cons_of_mem _ e) hxe

theorem bestReputationLoop_spec (rest : List Node) : ∀ (cur : Node),
    StoreWF Node.ID (cur :: rest) →
    (∀ x ∈ cur :: rest,
      x.Reputation ≤ (bestReputationLoop rest cur cur.Reputation).Reputation) ∧
    (∀ x ∈ cur :: rest,
      x.Reputation = (bestReputationLoop rest cur cur.Reputation).Reputation →
      x = bestReputationLoop rest cur cur.Reputation ∨
        keyLt (bestReputationLoop rest cur cur.Reputation).ID x.ID) := by
  induction rest with
  | nil =>
    intro cur _
    rw [bestReputationLoop_nil]
    exact ⟨fun x hx => by rw [List.mem_singleton.1 hx],
      fun x hx _ => Or.inl (List.mem_singleton.1 hx)⟩
  | cons node rest ih =>
    intro cur hwf
    have hwf₁ := List.pairwise_cons.1 hwf
    have hcn : keyLt cur.ID node.ID := hwf₁.1 node (List.mem_cons_self _ _)
    by_cases h : node.Reputation > cur.Reputation
    · rw [bestReputationLoop_cons_gt rest h]
      obtain ⟨hmax, htie⟩ := ih node hwf₁.2
      generalize bestReputationLoop rest node node.Reputation = r at hmax htie ⊢
      have hrn : node.Reputation ≤ r.Reputation := hmax node (List.mem_cons_self _ _)
      refine ⟨fun x hx => ?_, fun x hx hxe => ?_⟩
      · rcases List.mem_cons.1 hx with e | e
        · rw [e]
          exact le_trans (le_of_lt h) hrn
        · exact hmax x e
      · rcases List.mem_cons.1 hx with e | e
        · rw [e] at hxe
          rw [hxe] at h
          exact absurd hrn (not_le.2 h)
        · exact htie x e hxe
    · rw [bestReputationLoop_cons_le rest h]
      have hwf₂ : StoreWF Node.ID (cur :: rest) := storeWF_skip hwf
      obtain ⟨hmax, htie⟩ := ih cur hwf₂
      have hmem := bestReputationLoop_mem rest cur cur.Reputation
      generalize bestReputationLoop rest cur cur.Reputation = r at hmax htie hmem ⊢
      have hrc : cur.Reputation ≤ r.Reputation := hmax cur (List.mem_cons_self _ _)
      refine ⟨fun x hx => ?_, fun x hx hxe => ?_⟩
      · rcases List.mem_cons.1 hx with e | e
        · rw [e]
          exact hrc
        · rcases List.mem_cons.1 e with e | e
          · rw [e]
            exact le_trans (not_lt.1 h) hrc
          · exact hmax x (List.mem_cons_of_mem _ e)
      · rcases List.mem_cons.1 hx with e | e
        · exact htie x (by rw [e]; exact List.mem_cons_self _ _) hxe
        · rcases List.mem_cons.1 e with e | e
          · rw [e] at hxe ⊢
            have hcr : cur.Reputation = r.Reputation :=
              le_antisymm hrc (by rw [← hxe]; exact not_lt.1 h)
            have hcur : cur = r := by
              rcases htie cur (List.mem_cons_self _ _) hcr with e₁ | e₁
              · exact e₁
              · rcases List.mem_cons.1 hmem with e₂ | e₂
                · exact e₂.symm
                · exact absurd (keyLt_trans e₁ ((List.pairwise_cons.1 hwf₂).1 r e₂))
                    (keyLt_irrefl _)
            right
            rw [← hcur]
            exact hcn
          · exact htie x (List.mem_cons_of_mem _ e) hxe

theorem selectLeastLoaded_spec (ctx : Ctx) {nodes : List Node} (hwf : StoreWF Node.ID nodes)
    (hne : nodes ≠ []) :
    ∃ c ∈ nodes, selectLeastLoaded ctx nodes = ((c.ID, none), ctx) ∧
      (∀ x ∈ nodes, c.ActiveTasks.length ≤ x.ActiveTasks.length) ∧
      (∀ x ∈ nodes, x.ActiveTasks.length = c.ActiveTasks.length → x = c ∨ keyLt c.ID x.ID) := by
  cases nodes with
  | nil => exact absurd rfl hne
  | cons first rest =>
    exact ⟨_, leastLoadedLoop_mem rest first _, rfl, leastLoadedLoop_spec rest first hwf⟩

theorem selectBestReputation_spec (ctx : Ctx) {nodes : List Node}
    (hwf : StoreWF Node.ID nodes) (hne : nodes ≠ []) :
    ∃ c ∈ nodes, selectBestReputation ctx nodes = ((c.ID, none), ctx) ∧
      (∀ x ∈ nodes, x.Reputation ≤ c.Reputation) ∧
      (∀ x ∈ nodes, x.Reputation = c.Reputation → x = c ∨ keyLt c.ID x.ID) := by
  cases nodes with
  | nil => exact absurd rfl hne
  | cons first rest =>
    exact ⟨_, bestReputationLoop_mem rest first _, rfl, bestReputationLoop_spec rest first hwf⟩

/-- C24: on a store in key order with a non-empty candidate set, strategy
`least_loaded` returns the id of a candidate with the fewest active tasks and
strategy `best_reputation` the id of a candidate with the highest reputation;
every other candidate attaining the optimum has a greater id; and neither
strategy changes the context. -/
theorem SelectNodeForInference_optimum (ctx : Ctx) (m : String)
    (hwf : StoreWF Node.ID ctx.nodes) (hne : inferenceCandidates ctx ≠ []) :
    (∃ c ∈ inferenceCandidates ctx,
      SelectNodeForInference ctx m "least_loaded" = ((c.ID, none), ctx) ∧
      (∀ x ∈ inferenceCandidates ctx, c.ActiveTasks.length ≤ x.ActiveTasks.length) ∧
      (∀ x ∈ inferenceCandidates ctx, x.ActiveTasks.length = c.ActiveTasks.length →
        x = c ∨ keyLt c.ID x.ID)) ∧
    (∃ c ∈ inferenceCandidates ctx,
      SelectNodeForInference ctx m "best_reputation" = ((c.ID, none), ctx) ∧
      (∀ x ∈ inferenceCandidates ctx, x.Reputation ≤ c.Reputation) ∧
      (∀ x ∈ inferenceCandidates ctx, x.Reputation = c.Reputation →
        x = c ∨ keyLt c.ID x.ID)) := by
  constructor
  · rw [SelectNodeForInference_of_candidates m "least_loaded" hne, if_neg (by decide),
      if_pos rfl]
    exact selectLeastLoaded_spec ctx (inferenceCandidates_wf hwf) hne
  · rw [SelectNodeForInference_of_candidates m "best_reputation" hne, if_neg (by decide),
      if_neg (by decide), if_pos rfl]
    exact selectBestReputation_spec ctx (inferenceCandidates_wf hwf) hne

theorem SelectNodeForInference_optimum_witness :
    StoreWF Node.ID tieTestCtx.nodes ∧ inferenceCandidates tieTestCtx ≠ [] ∧
    (SelectNodeForInference tieTestCtx "model-1" "least_loaded").1 = ("n2", none) ∧
    (SelectNodeForInference tieTestCtx "model-1" "best_reputation").1 = ("n1", none) ∧
    (∃ c ∈ inferenceCandidates tieTestCtx,
      SelectNodeForInference tieTestCtx "model-1" "least_loaded" = ((c.ID, none), tieTestCtx) ∧
      (∀ x ∈ inferenceCandidates tieTestCtx, c.ActiveTasks.length ≤ x.ActiveTasks.length) ∧
      (∀ x ∈ inferenceCandidates tieTestCtx, x.ActiveTasks.length = c.ActiveTasks.length →
        x = c ∨ keyLt c.ID x.ID)) :=
  ⟨by decide, by decide, by decide, by decide,
   (SelectNodeForInference_optimum tieTestCtx "model-1" (by decide) (by decide)).1⟩

end Atlas
